import Mathlib

/-!
Verification of the chess-engine core (board representation, make/unmake with
Zobrist hashing, pawn/en-passant move generation, FEN parsing, mate-score
rescaling) against its natural-language specification.

The Rust sources are embedded shallowly:

* `u64` bitboards become `Nat`; all bitwise operations (`^^^`, `|||`, `&&&`)
  preserve the range `< 2 ^ 64`, so no truncation is needed except after left
  shifts, where the source's `u64` wrap-around is modelled by `&&& UNIV`.
* `u8`/`u16` counters become `Nat` with explicit `% 256` / `% 65536` where the
  source increments or decrements may wrap (Rust release-mode wrapping
  semantics).
* Arrays indexed by piece / color become functions `Piece → Nat` /
  `Color → Nat` updated with `Function.update`.
* Fallible parsing returns `Except ParseFenError`.

Components of the repository that are referenced but whose files are not part
of the given sources (the bitboard primitive helpers, the square helpers, the
attack tables, the Zobrist key constants, the castling-rights helpers) are
modelled from the specification; each such definition carries a doc comment
saying so.
-/

/-! ## Colors and pieces -/

/-- Color — enumeration with `White` and `Black`; negation flips sides. -/
inductive Color where
  | White
  | Black
deriving DecidableEq, Repr, Fintype

/-- Modelled from the spec: `!color` flips sides (`impl Not for Color`,
`color.rs` is not among the given sources). -/
def Color.opp : Color → Color
  | .White => .Black
  | .Black => .White

/-- Index of a color (`color as usize`). -/
def Color.toNat : Color → Nat
  | .White => 0
  | .Black => 1

/-- Modelled from the spec: a side's back rank (rank index 0 for White,
7 for Black), used for castling squares and promotion ranks. -/
def Color.backrank : Color → Nat
  | .White => 0
  | .Black => 7

/-- Modelled from the spec: the rank index a double pawn push lands on
(rank 4 = index 3 for White, rank 5 = index 4 for Black). -/
def Color.double_pawn_push_rank : Color → Nat
  | .White => 3
  | .Black => 4

/-- `ALL_COLORS` from `color.rs`. -/
def ALL_COLORS : List Color := [.White, .Black]

/-- Piece — enumeration with six variants, indexed 0–5 (`piece.rs`). -/
inductive Piece where
  | Pawn
  | Knight
  | Bishop
  | Rook
  | Queen
  | King
deriving DecidableEq, Repr, Fintype

/-- Index of a piece (`piece as usize`). -/
def Piece.toNat : Piece → Nat
  | .Pawn => 0
  | .Knight => 1
  | .Bishop => 2
  | .Rook => 3
  | .Queen => 4
  | .King => 5

/-- `ALL_PIECES` from `piece.rs`. -/
def ALL_PIECES : List Piece := [.Pawn, .Knight, .Bishop, .Rook, .Queen, .King]

/-- Modelled from the spec: promotion target pieces (`promotion.rs` is not
among the given sources; §4.D.7 lists the order N, B, R, Q). -/
inductive Promotion where
  | Knight
  | Bishop
  | Rook
  | Queen
deriving DecidableEq, Repr, Fintype

/-- Modelled from the spec: the piece a promotion produces. -/
def Promotion.as_piece : Promotion → Piece
  | .Knight => .Knight
  | .Bishop => .Bishop
  | .Rook => .Rook
  | .Queen => .Queen

/-- Modelled from the spec: `ALL_PROMOTIONS` in the order N, B, R, Q. -/
def ALL_PROMOTIONS : List Promotion := [.Knight, .Bishop, .Rook, .Queen]

/-! ## Bitboards

A bitboard is a 64-bit unsigned integer whose bit `i` is set iff square `i`
is in the set; it is embedded as a `Nat` kept below `2 ^ 64`. -/

/-- `2 ^ 64`, the modulus of `u64` arithmetic. -/
def U64 : Nat := 2 ^ 64

/-- The full 64-bit board, `!BitBoard::EMPTY` = `u64::MAX`. -/
def UNIV : Nat := 2 ^ 64 - 1

/-- Modelled from the spec: `u64` bitwise complement of a bitboard. -/
def bbNot (b : Nat) : Nat := UNIV ^^^ b

/-- Modelled from the spec: `BitBoard::shift` by a signed amount; a left shift
wraps at 64 bits as in `u64` arithmetic. -/
def bbShift (b : Nat) (i : Int) : Nat :=
  if 0 ≤ i then (b <<< i.toNat) &&& UNIV else b >>> (-i).toNat

/-- Modelled from the spec: `BitBoard::mask_file f` — every square on file `f`. -/
def maskFile (f : Nat) : Nat := (0x0101010101010101 <<< f) &&& UNIV

/-- Modelled from the spec: `BitBoard::mask_rank r` — every square on rank `r`. -/
def maskRank (r : Nat) : Nat := (0xFF <<< (8 * r)) &&& UNIV

/-- Modelled from the spec: `BitBoard::NOT_A_FILE`. -/
def NOT_A_FILE : Nat := bbNot (maskFile 0)

/-- Modelled from the spec: `BitBoard::NOT_H_FILE`. -/
def NOT_H_FILE : Nat := bbNot (maskFile 7)

/-- The squares of a bitboard in ascending (LSB-first) order; this is the
iteration order of `BitBoard::iter`, which repeatedly pops the lowest bit. -/
def squaresList (b : Nat) : List Nat := (List.range 64).filter (fun i => b.testBit i)

/-- `BitBoard::bit_scan` — the least-significant set square (undefined on an
empty bitboard; the model returns 64 there). -/
def bitScan (b : Nat) : Nat := (List.range 64).findIdx (fun i => b.testBit i)

/-- `BitBoard::count` — population count. -/
def popcount (b : Nat) : Nat := (squaresList b).length

/-! ## Squares

A square is an index `0..=63`; file = index mod 8, rank = index div 8. -/

/-- Modelled from the spec: `Square::to_file` as an index 0–7. -/
def sqFile (s : Nat) : Nat := s % 8

/-- Modelled from the spec: `Square::to_rank` as an index 0–7. -/
def sqRank (s : Nat) : Nat := s / 8

/-- Modelled from the spec: `Square::from(rank, file)`. -/
def sqMk (rank file : Nat) : Nat := rank * 8 + file

/-- Modelled from the spec: `Square::forward(color)` — one step in `color`'s
pawn direction, `none` when that leaves the board. -/
def sqForward (c : Color) (s : Nat) : Option Nat :=
  match c with
  | .White => if s + 8 < 64 then some (s + 8) else none
  | .Black => if 8 ≤ s then some (s - 8) else none

/-! ## Attack tables

`table-gen` output consumed read-only by the core.  The pawn table generator
is among the given sources; the knight and sliding tables and `between` are
modelled from the specification (§4.A), which allows any technique that
returns the same set; they are computed here by direct offset/ray walks. -/

/-- `mask_pawn_attacks` from `table-gen/src/pawn_move.rs` — the up-to-two
diagonally forward squares, wrap-around captures masked off. -/
def mask_pawn_attacks (square : Nat) (side : Color) : Nat :=
  let bitboard := (1 <<< square) &&& UNIV
  let ld_rd : Nat × Nat :=
    match side with
    | .White => ((bitboard <<< 7) &&& UNIV, (bitboard <<< 9) &&& UNIV)
    | .Black => (bitboard >>> 9, bitboard >>> 7)
  let attacks : Nat := if ld_rd.1 &&& NOT_H_FILE ≠ 0 then ld_rd.1 else 0
  if ld_rd.2 &&& NOT_A_FILE ≠ 0 then attacks ||| ld_rd.2 else attacks

/-- `generate_pawn_attacks` from `table-gen/src/pawn_move.rs`: the table entry
for `(color, square)`. -/
def generate_pawn_attacks (c : Color) (square : Nat) : Nat :=
  mask_pawn_attacks square c

/-- Modelled from the spec: `get_pawn_attacks(sq, color)` reads the
precomputed pawn-attack table. -/
def get_pawn_attacks (square : Nat) (c : Color) : Nat :=
  generate_pawn_attacks c square

/-- Modelled from the spec: `knight_attacks(sq)` — the classical knight
attack set, computed from rank/file offsets. -/
def knightAttacks (s : Nat) : Nat :=
  let r : Int := (s : Int) / 8
  let f : Int := (s : Int) % 8
  let ds : List (Int × Int) :=
    [(1, 2), (2, 1), (2, -1), (1, -2), (-1, -2), (-2, -1), (-2, 1), (-1, 2)]
  ds.foldl
    (fun acc d =>
      let r' := r + d.1
      let f' := f + d.2
      if 0 ≤ r' ∧ r' < 8 ∧ 0 ≤ f' ∧ f' < 8 then
        acc ||| (1 <<< (r' * 8 + f').toNat)
      else acc)
    0

/-- Modelled from the spec: one sliding ray from rank/file `(r, f)` in
direction `(dr, df)` under an occupancy; squares are collected up to and
including the first blocker. -/
def rayDir (occ : Nat) (dr df : Int) : Nat → Int → Int → Nat
  | 0, _, _ => 0
  | fuel + 1, r, f =>
    let r' := r + dr
    let f' := f + df
    if 0 ≤ r' ∧ r' < 8 ∧ 0 ≤ f' ∧ f' < 8 then
      let sq := (r' * 8 + f').toNat
      if occ.testBit sq then (1 <<< sq)
      else (1 <<< sq) ||| rayDir occ dr df fuel r' f'
    else 0

/-- Modelled from the spec: `bishop_attacks(sq, occupancy)` — diagonal
sliding attacks. -/
def bishopAttacks (s : Nat) (occ : Nat) : Nat :=
  let r : Int := (s : Int) / 8
  let f : Int := (s : Int) % 8
  rayDir occ 1 1 8 r f ||| rayDir occ 1 (-1) 8 r f |||
    rayDir occ (-1) 1 8 r f ||| rayDir occ (-1) (-1) 8 r f

/-- Modelled from the spec: `rook_attacks(sq, occupancy)` — straight sliding
attacks. -/
def rookAttacks (s : Nat) (occ : Nat) : Nat :=
  let r : Int := (s : Int) / 8
  let f : Int := (s : Int) % 8
  rayDir occ 1 0 8 r f ||| rayDir occ (-1) 0 8 r f |||
    rayDir occ 0 1 8 r f ||| rayDir occ 0 (-1) 8 r f

/-- Modelled from the spec: `between(a, b)` — the set of squares strictly
between `a` and `b` on their shared rank, file or diagonal, empty when the
two squares are not aligned. -/
def between (a b : Nat) : Nat :=
  let ra : Int := (a : Int) / 8
  let fa : Int := (a : Int) % 8
  let rb : Int := (b : Int) / 8
  let fb : Int := (b : Int) % 8
  let dr := rb - ra
  let df := fb - fa
  if a ≠ b ∧ (dr = 0 ∨ df = 0 ∨ dr.natAbs = df.natAbs) then
    let steps := max dr.natAbs df.natAbs
    let sr := dr.sign
    let sf := df.sign
    (List.range (steps - 1)).foldl
      (fun acc i =>
        let k : Int := (i : Int) + 1
        acc ||| (1 <<< ((ra + k * sr) * 8 + (fa + k * sf)).toNat))
      0
  else 0

/-! ## Castling rights

A 4-bit mask over WK, WQ, BK, BQ (`castling_rights.rs` is not among the given
sources; the encoding and the update table are modelled from the spec). -/

/-- Modelled from the spec: the WK bit of a castling-rights mask. -/
def CR_WHITE_KING_SIDE : Nat := 1
/-- Modelled from the spec: the WQ bit of a castling-rights mask. -/
def CR_WHITE_QUEEN_SIDE : Nat := 2
/-- Modelled from the spec: the BK bit of a castling-rights mask. -/
def CR_BLACK_KING_SIDE : Nat := 4
/-- Modelled from the spec: the BQ bit of a castling-rights mask. -/
def CR_BLACK_QUEEN_SIDE : Nat := 8
/-- Modelled from the spec: `CastlingRights::WHITE_BOTH_SIDES`. -/
def CR_WHITE_BOTH_SIDES : Nat := 3
/-- Modelled from the spec: `CastlingRights::BLACK_BOTH_SIDES`. -/
def CR_BLACK_BOTH_SIDES : Nat := 12

/-- Modelled from the spec: set difference on castling-rights masks
(`impl Sub for CastlingRights`). -/
def crSub (a b : Nat) : Nat := a &&& (15 ^^^ b)

/-- Modelled from the spec: `UPDATE_CASTLING_RIGHT_TABLE` — the rights that
survive a move touching each square (home corners and king squares lose the
corresponding rights, all other squares keep everything). -/
def UPDATE_CASTLING_RIGHT_TABLE (square : Nat) : Nat :=
  if square = 0 then 13        -- a1: WQ lost
  else if square = 4 then 12   -- e1: both white rights lost
  else if square = 7 then 14   -- h1: WK lost
  else if square = 56 then 7   -- a8: BQ lost
  else if square = 60 then 3   -- e8: both black rights lost
  else if square = 63 then 11  -- h8: BK lost
  else 15

/-! ## Zobrist keys

`zobrist.rs` is not among the given sources.  The spec describes the hash as
the XOR of random 64-bit keys, one per (piece, color, square), per
castling-rights state, per en-passant file, plus a side-to-move key.  The
random keys are modelled as pairwise-distinct powers of two — a
collision-free instantiation of "random keys" (wider than 64 bits so that
every key can be injective); every hash theorem below holds for any key
family, but the concrete repetition test needs the keys to be collision-free. -/

/-- Modelled from the spec: `PIECE_KEYS[color][piece][square]`. -/
def PIECE_KEYS (c : Color) (p : Piece) (s : Nat) : Nat :=
  2 ^ ((c.toNat * 6 + p.toNat) * 64 + s)

/-- Modelled from the spec: `EN_PASSANT_KEYS[file]`. -/
def EN_PASSANT_KEYS (f : Nat) : Nat := 2 ^ (768 + f)

/-- Modelled from the spec: `CASTLE_KEYS[rights]`. -/
def CASTLE_KEYS (r : Nat) : Nat := 2 ^ (776 + r)

/-- Modelled from the spec: `SIDE_KEY`. -/
def SIDE_KEY : Nat := 2 ^ 792

/-! ## Moves and board state -/

/-- `MoveFlag` from `chess_move.rs` (not among the given sources; the five
variants are listed in the spec's data model). -/
inductive MoveFlag where
  | Normal
  | Capture
  | DoublePawnPush
  | EnPassant
  | Castling
deriving DecidableEq, Repr, Fintype

/-- `Move` from `chess_move.rs` (spec §3): from/to squares, moved piece,
optional promotion, flag.  `from`/`to` are reserved words in Lean and are
spelled `fromSq`/`toSq`. -/
structure Move where
  fromSq : Nat
  toSq : Nat
  piece : Piece
  promotion : Option Promotion
  flags : MoveFlag
deriving DecidableEq, Repr

/-- `BoardState` from `board.rs`: the reversible per-ply state. -/
structure BoardState where
  hash : Nat
  en_passant_target : Option Nat
  castling_rights : Nat
  rule50 : Nat
  ply : Nat
  checkers : Nat
  pinned : Nat
  last_move : Option Move
  captured_piece : Option Piece
deriving DecidableEq, Repr

/-- `Board` from `board.rs`.  The history list stores the most recent state
first (the head plays the role of the top of the `Vec` stack). -/
structure Board where
  pieces : Piece → Nat
  occupancies : Color → Nat
  combined : Nat
  side_to_move : Color
  history : List BoardState
  state : BoardState
  game_ply : Nat
deriving DecidableEq

/-- `Board::piece_at`: the piece on a square, scanning the piece bitboards in
`ALL_PIECES` order under the `combined` guard. -/
def Board.piece_at (b : Board) (square : Nat) : Option Piece :=
  if b.combined.testBit square then
    ALL_PIECES.find? (fun p => (b.pieces p).testBit square)
  else none

/-- `Board::color_at`. -/
def Board.color_at (b : Board) (square : Nat) : Option Color :=
  if b.combined.testBit square then
    if (b.occupancies .White).testBit square then some .White else some .Black
  else none

/-- The pin/check recomputation of `Board::apply_move` (board.rs lines
285–330), shared with `calculate_pinned_checkers_pinners` (whose file is not
among the given sources; the spec §4.E step 11 describes the same
computation).  Returns `(pinned, checkers)` for the given side to move. -/
def pinnedCheckers (pieces : Piece → Nat) (occupancies : Color → Nat)
    (combined : Nat) (stm : Color) : Nat × Nat :=
  let king_square := bitScan (pieces .King &&& occupancies stm)
  let potential_pinners :=
    ((bishopAttacks king_square 0 &&& (pieces .Bishop ||| pieces .Queen)) |||
        (rookAttacks king_square 0 &&& (pieces .Rook ||| pieces .Queen))) &&&
      occupancies stm.opp
  let pc :=
    (squaresList potential_pinners).foldl
      (fun acc square =>
        let potentially_pinned := between square king_square &&& combined
        if potentially_pinned = 0 then (acc.1, acc.2 ||| ((1 <<< square) &&& UNIV))
        else if popcount potentially_pinned = 1 then
          (acc.1 ||| potentially_pinned, acc.2)
        else acc)
      ((0 : Nat), (0 : Nat))
  let checkers := pc.2 |||
    (knightAttacks king_square &&& pieces .Knight &&& occupancies stm.opp)
  let checkers := checkers |||
    (get_pawn_attacks king_square stm &&& pieces .Pawn &&& occupancies stm.opp)
  (pc.1, checkers)

/-- `Board::apply_move` (board.rs lines 137–334), as a pure function.  The
`expect` on a capture without a piece on the target square is a panic in the
source; the model skips the capture bookkeeping on that (unreachable for
legal moves) path.  `unwrap` on `Square::forward` is modelled by `getD 0`,
likewise unreachable for legal moves. -/
def applyMove (b : Board) (mov : Move) : Board :=
  let stm := b.side_to_move
  let game_ply' := (b.game_ply + 1) % 65536
  let ply' := (b.state.ply + 1) % 65536
  let rule50a := (b.state.rule50 + 1) % 256
  -- en passant is cleared after doing any move
  let hash1 :=
    match b.state.en_passant_target with
    | some e => b.state.hash ^^^ EN_PASSANT_KEYS (sqFile e)
    | none => b.state.hash
  -- get piece at target square before moving
  let target_piece := b.piece_at mov.toSq
  -- remove piece from the source square
  let pieces1 := Function.update b.pieces mov.piece
    (b.pieces mov.piece ^^^ (1 <<< mov.fromSq))
  let occ1 := Function.update b.occupancies stm
    (b.occupancies stm ^^^ (1 <<< mov.fromSq))
  let combined1 := b.combined ^^^ (1 <<< mov.fromSq)
  let hash2 := hash1 ^^^ PIECE_KEYS stm mov.piece mov.fromSq
  -- set piece on the target square
  let pieces2 := Function.update pieces1 mov.piece
    (pieces1 mov.piece ||| (1 <<< mov.toSq))
  let occ2 := Function.update occ1 stm (occ1 stm ||| (1 <<< mov.toSq))
  let combined2 := combined1 ||| (1 <<< mov.toSq)
  let hash3 := hash2 ^^^ PIECE_KEYS stm mov.piece mov.toSq
  -- capture branch
  let cap : (Piece → Nat) × (Color → Nat) × Nat × Nat × Nat × Option Piece :=
    if mov.flags = .Capture then
      match target_piece with
      | some tp =>
        let pieces3 :=
          if tp ≠ mov.piece then
            Function.update pieces2 tp (pieces2 tp ^^^ (1 <<< mov.toSq))
          else pieces2
        let occ3 := Function.update occ2 stm.opp
          (occ2 stm.opp ^^^ (1 <<< mov.toSq))
        let hash4 := hash3 ^^^ PIECE_KEYS stm.opp tp mov.toSq
        let hcr : Nat × Nat :=
          if tp = .Rook then
            let cr1 := b.state.castling_rights &&&
              UPDATE_CASTLING_RIGHT_TABLE mov.fromSq &&&
              UPDATE_CASTLING_RIGHT_TABLE mov.toSq
            (hash4 ^^^ CASTLE_KEYS b.state.castling_rights ^^^ CASTLE_KEYS cr1, cr1)
          else (hash4, b.state.castling_rights)
        (pieces3, occ3, hcr.1, hcr.2, 0, some tp)
      | none => (pieces2, occ2, hash3, b.state.castling_rights, rule50a, none)
    else (pieces2, occ2, hash3, b.state.castling_rights, rule50a, none)
  let pieces3 := cap.1
  let occ3 := cap.2.1
  let hash5 := cap.2.2.1
  let cr1 := cap.2.2.2.1
  let rule50b := cap.2.2.2.2.1
  let captured := cap.2.2.2.2.2
  -- promotion branch
  let promo : (Piece → Nat) × Nat :=
    match mov.promotion with
    | some promotion =>
      let pa := Function.update pieces3 mov.piece
        (pieces3 mov.piece ^^^ (1 <<< mov.toSq))
      let pb := Function.update pa promotion.as_piece
        (pa promotion.as_piece ||| (1 <<< mov.toSq))
      (pb, hash5 ^^^ PIECE_KEYS stm mov.piece mov.toSq ^^^
        PIECE_KEYS stm promotion.as_piece mov.toSq)
    | none => (pieces3, hash5)
  let pieces4 := promo.1
  let hash6 := promo.2
  -- double pawn push: set the en-passant target
  let ep' : Option Nat :=
    if mov.flags = .DoublePawnPush then some ((sqForward stm.opp mov.toSq).getD 0)
    else none
  let hash7 :=
    if mov.flags = .DoublePawnPush then hash6 ^^^ EN_PASSANT_KEYS (sqFile mov.toSq)
    else hash6
  -- en passant: remove the captured pawn
  let epc : (Piece → Nat) × (Color → Nat) × Nat × Nat :=
    if mov.flags = .EnPassant then
      let capture_piece := (sqForward stm.opp mov.toSq).getD 0
      (Function.update pieces4 .Pawn (pieces4 .Pawn ^^^ (1 <<< capture_piece)),
        Function.update occ3 stm.opp (occ3 stm.opp ^^^ (1 <<< capture_piece)),
        combined2 ^^^ (1 <<< capture_piece),
        hash7 ^^^ PIECE_KEYS stm.opp .Pawn capture_piece)
    else (pieces4, occ3, combined2, hash7)
  let pieces5 := epc.1
  let occ4 := epc.2.1
  let combined3 := epc.2.2.1
  let hash8 := epc.2.2.2
  -- castling: move the rook along its fixed path
  let castle : (Piece → Nat) × (Color → Nat) × Nat × Nat :=
    if mov.flags = .Castling then
      let backrank := stm.backrank
      let rook_files : Nat × Nat := if sqFile mov.toSq / 4 = 0 then (0, 3) else (7, 5)
      let rs := sqMk backrank rook_files.1
      let re := sqMk backrank rook_files.2
      let pa := Function.update pieces5 .Rook (pieces5 .Rook ^^^ (1 <<< rs))
      let oa := Function.update occ4 stm (occ4 stm ^^^ (1 <<< rs))
      let ca := combined3 ^^^ (1 <<< rs)
      let ha := hash8 ^^^ PIECE_KEYS stm .Rook rs
      let pb := Function.update pa .Rook (pa .Rook ||| (1 <<< re))
      let ob := Function.update oa stm (oa stm ||| (1 <<< re))
      let cb := ca ||| (1 <<< re)
      let hb := ha ^^^ PIECE_KEYS stm .Rook re
      (pb, ob, cb, hb)
    else (pieces5, occ4, combined3, hash8)
  let pieces6 := castle.1
  let occ5 := castle.2.1
  let combined4 := castle.2.2.1
  let hash9 := castle.2.2.2
  let rule50c := if mov.piece = .Pawn then 0 else rule50b
  -- update castling rights for the mover
  let hcr2 : Nat × Nat :=
    if mov.piece = .Rook then
      let cr2 := cr1 &&& UPDATE_CASTLING_RIGHT_TABLE mov.fromSq &&&
        UPDATE_CASTLING_RIGHT_TABLE mov.toSq
      (hash9 ^^^ CASTLE_KEYS cr1 ^^^ CASTLE_KEYS cr2, cr2)
    else if mov.piece = .King then
      let cr2 := crSub cr1
        (match stm with
          | .White => CR_WHITE_BOTH_SIDES
          | .Black => CR_BLACK_BOTH_SIDES)
      (hash9 ^^^ CASTLE_KEYS cr1 ^^^ CASTLE_KEYS cr2, cr2)
    else (hash9, cr1)
  let hash10 := hcr2.1
  let cr2 := hcr2.2
  -- flip the side to move
  let side' := stm.opp
  let hash11 := hash10 ^^^ SIDE_KEY
  let pc := pinnedCheckers pieces6 occ5 combined4 side'
  { pieces := pieces6
    occupancies := occ5
    combined := combined4
    side_to_move := side'
    history := b.state :: b.history
    state :=
      { hash := hash11
        en_passant_target := ep'
        castling_rights := cr2
        rule50 := rule50c
        ply := ply'
        checkers := pc.2
        pinned := pc.1
        last_move := some mov
        captured_piece := captured }
    game_ply := game_ply' }

/-- `Board::undo_move` (board.rs lines 336–396), as a pure function.  Note
that the source decrements `game_ply` outside the `if let Some(last_move)`
guard, so it runs even when there is no move to undo; the `u16` subtraction
wraps (Rust release semantics). -/
def undoMove (b : Board) : Board :=
  let rev : (Piece → Nat) × (Color → Nat) × Nat × Color :=
    match b.state.last_move with
    | some last_move =>
      let side := b.side_to_move.opp
      let castle : (Piece → Nat) × (Color → Nat) × Nat :=
        if last_move.flags = .Castling then
          let backrank := side.backrank
          let rook_files : Nat × Nat :=
            if sqFile last_move.toSq / 4 = 0 then (0, 3) else (7, 5)
          let rs := sqMk backrank rook_files.1
          let re := sqMk backrank rook_files.2
          let pa := Function.update b.pieces .Rook (b.pieces .Rook ||| (1 <<< rs))
          let oa := Function.update b.occupancies side
            (b.occupancies side ||| (1 <<< rs))
          let ca := b.combined ||| (1 <<< rs)
          let pb := Function.update pa .Rook (pa .Rook ^^^ (1 <<< re))
          let ob := Function.update oa side (oa side ^^^ (1 <<< re))
          let cb := ca ^^^ (1 <<< re)
          (pb, ob, cb)
        else (b.pieces, b.occupancies, b.combined)
      let pieces1 := castle.1
      let occ1 := castle.2.1
      let combined1 := castle.2.2
      -- undo promotion
      let pieces2 :=
        match last_move.promotion with
        | some promotion =>
          let pa := Function.update pieces1 last_move.piece
            (pieces1 last_move.piece ||| (1 <<< last_move.toSq))
          Function.update pa promotion.as_piece
            (pa promotion.as_piece ^^^ (1 <<< last_move.toSq))
        | none => pieces1
      -- move the piece back
      let pieces3 := Function.update pieces2 last_move.piece
        (pieces2 last_move.piece ||| (1 <<< last_move.fromSq))
      let occ2 := Function.update occ1 side
        (occ1 side ||| (1 <<< last_move.fromSq))
      let combined2 := combined1 ||| (1 <<< last_move.fromSq)
      let pieces4 := Function.update pieces3 last_move.piece
        (pieces3 last_move.piece ^^^ (1 <<< last_move.toSq))
      let occ3 := Function.update occ2 side (occ2 side ^^^ (1 <<< last_move.toSq))
      let combined3 := combined2 ^^^ (1 <<< last_move.toSq)
      -- undo capture
      let capr : (Piece → Nat) × (Color → Nat) × Nat :=
        match b.state.captured_piece with
        | some captured_piece =>
          (Function.update pieces4 captured_piece
              (pieces4 captured_piece ||| (1 <<< last_move.toSq)),
            Function.update occ3 side.opp
              (occ3 side.opp ||| (1 <<< last_move.toSq)),
            combined3 ||| (1 <<< last_move.toSq))
        | none => (pieces4, occ3, combined3)
      let pieces5 := capr.1
      let occ4 := capr.2.1
      let combined4 := capr.2.2
      -- undo en passant
      let epr : (Piece → Nat) × (Color → Nat) × Nat :=
        if last_move.flags = .EnPassant then
          let capture_piece := (sqForward side.opp last_move.toSq).getD 0
          (Function.update pieces5 .Pawn (pieces5 .Pawn ||| (1 <<< capture_piece)),
            Function.update occ4 side.opp
              (occ4 side.opp ||| (1 <<< capture_piece)),
            combined4 ||| (1 <<< capture_piece))
        else (pieces5, occ4, combined4)
      (epr.1, epr.2.1, epr.2.2, side)
    | none => (b.pieces, b.occupancies, b.combined, b.side_to_move)
  let game_ply' := (b.game_ply + 65535) % 65536
  match b.history with
  | previous_state :: rest =>
    { pieces := rev.1
      occupancies := rev.2.1
      combined := rev.2.2.1
      side_to_move := rev.2.2.2
      history := rest
      state := previous_state
      game_ply := game_ply' }
  | [] =>
    { pieces := rev.1
      occupancies := rev.2.1
      combined := rev.2.2.1
      side_to_move := rev.2.2.2
      history := []
      state := b.state
      game_ply := game_ply' }

/-- `Board::is_repetition`: does the current hash occur among the most recent
`rule50` history entries? -/
def isRepetition (b : Board) : Bool :=
  decide (1 ≤ ((b.history.take b.state.rule50).filter
    (fun c => b.state.hash == c.hash)).length)

/-- `Board::is_draw_by_fifty_move_rule`. -/
def isDrawByFiftyMoveRule (b : Board) : Bool := decide (100 ≤ b.state.rule50)

/-- `PartialBoard::generate_hash_key` (board.rs lines 650–674): the Zobrist
hash recomputed from scratch — piece placement, en-passant file (exactly when
a target square is present), castling rights, side to move. -/
def generate_hash_key (pieces : Piece → Nat) (occupancies : Color → Nat)
    (ep : Option Nat) (cr : Nat) (stm : Color) : Nat :=
  let key :=
    ALL_COLORS.foldl
      (fun key color =>
        ALL_PIECES.foldl
          (fun key piece =>
            (squaresList (pieces piece &&& occupancies color)).foldl
              (fun key square => key ^^^ PIECE_KEYS color piece square) key)
          key)
      0
  let key :=
    match ep with
    | some e => key ^^^ EN_PASSANT_KEYS (sqFile e)
    | none => key
  let key := key ^^^ CASTLE_KEYS cr
  match stm with
  | .Black => key ^^^ SIDE_KEY
  | .White => key

/-- The from-scratch Zobrist hash of a live board. -/
def Board.genHash (b : Board) : Nat :=
  generate_hash_key b.pieces b.occupancies b.state.en_passant_target
    b.state.castling_rights b.side_to_move

/-! ## FEN parsing -/

/-- `ParseFenError` from `board.rs`. -/
inductive ParseFenError where
  | PartMissing (which : String)
  | BadPlacement
  | NoSuchSide
  | BadCastlingRights
  | BadFullMoveNumber
  | BadHalfMoveClock
  | BadEnPassant
  | TooManyFiles
  | TooManyRanks
  | InvalidPiece (c : Char)
deriving DecidableEq, Repr

/-- Modelled from the spec: `Piece::from_algebraic` (the function is called by
the parser in `board.rs` but its definition is not among the given sources) —
the standard FEN piece letters, case-insensitive. -/
def piece_from_algebraic (c : Char) : Option Piece :=
  if c = 'P' ∨ c = 'p' then some .Pawn
  else if c = 'N' ∨ c = 'n' then some .Knight
  else if c = 'B' ∨ c = 'b' then some .Bishop
  else if c = 'R' ∨ c = 'r' then some .Rook
  else if c = 'Q' ∨ c = 'q' then some .Queen
  else if c = 'K' ∨ c = 'k' then some .King
  else none

/-- Rust's `str::split(" ")`, which yields (possibly empty) chunks between
single spaces, modelled on character lists. -/
def splitSp : List Char → List (List Char)
  | [] => [[]]
  | c :: rest =>
    if c = ' ' then [] :: splitSp rest
    else
      match splitSp rest with
      | g :: gs => (c :: g) :: gs
      | [] => [[c]]

/-- The piece-placement loop of `Board::from_str` (board.rs lines 501–544):
walks the first FEN field characters, tracking rank and file and accumulating
the piece, occupancy and combined bitboards. -/
def parsePlacement :
    List Char → Nat → Nat → (Piece → Nat) → (Color → Nat) → Nat →
      Except ParseFenError ((Piece → Nat) × (Color → Nat) × Nat)
  | [], _, _, pieces, occupancies, combined => .ok (pieces, occupancies, combined)
  | ch :: rest, rank, file, pieces, occupancies, combined =>
    if (piece_from_algebraic ch).isSome then
      match piece_from_algebraic ch with
      | some piece =>
        let square := sqMk rank file
        let color : Color := if ch.isUpper then .White else .Black
        let pieces' := Function.update pieces piece
          (pieces piece ||| ((1 <<< square) &&& UNIV))
        let occupancies' := Function.update occupancies color
          (occupancies color ||| ((1 <<< square) &&& UNIV))
        let combined' := combined ||| ((1 <<< square) &&& UNIV)
        if 8 < file + 1 then .error .TooManyFiles
        else parsePlacement rest rank (file + 1) pieces' occupancies' combined'
      | none => .error (.InvalidPiece ch)
    else if '1' ≤ ch ∧ ch ≤ '8' then
      let file' := file + (ch.toNat - 48)
      if 8 < file' then .error .TooManyFiles
      else parsePlacement rest rank file' pieces occupancies combined
    else if ch = '/' then
      if rank = 0 then .error .TooManyRanks
      else parsePlacement rest (rank - 1) 0 pieces occupancies combined
    else .error .BadPlacement

/-- Modelled from Rust core: `u16::from_str` / `u8::from_str` — an optional
leading plus sign, at least one ASCII digit, and a value within the type's
range; anything else is a parse error. -/
def parseUInt (maxVal : Nat) (cs : List Char) : Option Nat :=
  let ds := match cs with
    | '+' :: rest => rest
    | other => other
  if ds.isEmpty then none
  else if ds.all (fun c => '0' ≤ c ∧ c ≤ '9') then
    let v := ds.foldl (fun a c => a * 10 + (c.toNat - 48)) 0
    if v ≤ maxVal then some v else none
  else none

/-- Modelled from the spec: `CastlingRights::from_str` — `-` for no rights,
otherwise a string of `K`, `Q`, `k`, `q` setting the corresponding bits. -/
def parseCastlingRights (cs : List Char) : Option Nat :=
  if cs = ['-'] then some 0
  else if cs.isEmpty then none
  else
    cs.foldl
      (fun acc c =>
        match acc with
        | none => none
        | some r =>
          if c = 'K' then some (r ||| CR_WHITE_KING_SIDE)
          else if c = 'Q' then some (r ||| CR_WHITE_QUEEN_SIDE)
          else if c = 'k' then some (r ||| CR_BLACK_KING_SIDE)
          else if c = 'q' then some (r ||| CR_BLACK_QUEEN_SIDE)
          else none)
      (some 0)

/-- Modelled from the spec: `Square::from_str` — a file letter `a`–`h`
followed by a rank digit `1`–`8`. -/
def parseSquare (cs : List Char) : Option Nat :=
  match cs with
  | [f, r] =>
    if 'a' ≤ f ∧ f ≤ 'h' ∧ '1' ≤ r ∧ r ≤ '8' then
      some (sqMk (r.toNat - 49) (f.toNat - 97))
    else none
  | _ => none

/-- `Board::from_str` (board.rs lines 490–621): parse the six
space-separated FEN fields, compute pins/checkers and the initial hash, and
assemble the board.  `game_ply` is `2 * (fullmove_number - 1) + side` in
wrapping `u16` arithmetic (`.max(0)` is the identity on an unsigned value). -/
def fromFen (s : String) : Except ParseFenError Board :=
  let parts := splitSp s.toList
  match parts.get? 0 with
  | none => .error (.PartMissing "piece placement data")
  | some piece_placement_data =>
    match parsePlacement piece_placement_data 7 0 (fun _ => 0) (fun _ => 0) 0 with
    | .error e => .error e
    | .ok (pieces, occupancies, combined) =>
      match parts.get? 1 with
      | none => .error (.PartMissing "active color")
      | some side_part =>
        let side_or_err : Except ParseFenError Color :=
          if side_part = ['w'] then .ok .White
          else if side_part = ['b'] then .ok .Black
          else .error .NoSuchSide
        match side_or_err with
        | .error e => .error e
        | .ok side_to_move =>
          match parts.get? 2 with
          | none => .error (.PartMissing "castling rights")
          | some castling_part =>
            match parseCastlingRights castling_part with
            | none => .error .BadCastlingRights
            | some castling_rights =>
              match parts.get? 3 with
              | none => .error (.PartMissing "en passant target")
              | some ep_part =>
                let ep_or_err : Except ParseFenError (Option Nat) :=
                  if ep_part = ['-'] then .ok none
                  else
                    match parseSquare ep_part with
                    | some sq => .ok (some sq)
                    | none => .error .BadEnPassant
                match ep_or_err with
                | .error e => .error e
                | .ok en_passant_target =>
                  match parts.get? 4 with
                  | none => .error (.PartMissing "halfmove clock")
                  | some half_part =>
                    match parseUInt 255 half_part with
                    | none => .error .BadHalfMoveClock
                    | some halfmove_clock =>
                      match parts.get? 5 with
                      | none => .error (.PartMissing "fullmove number")
                      | some full_part =>
                        match parseUInt 65535 full_part with
                        | none => .error .BadFullMoveNumber
                        | some fullmove_number =>
                          let pc := pinnedCheckers pieces occupancies combined
                            side_to_move
                          let hash_key := generate_hash_key pieces occupancies
                            en_passant_target castling_rights side_to_move
                          .ok
                            { pieces := pieces
                              occupancies := occupancies
                              combined := combined
                              side_to_move := side_to_move
                              history := []
                              state :=
                                { hash := hash_key
                                  en_passant_target := en_passant_target
                                  castling_rights := castling_rights
                                  rule50 := halfmove_clock
                                  ply := 0
                                  checkers := pc.2
                                  pinned := pc.1
                                  last_move := none
                                  captured_piece := none }
                              game_ply :=
                                (2 * ((fullmove_number + 65535) % 65536)) % 65536 +
                                  (if side_to_move = .Black then 1 else 0) }

/-! ## Move generators -/

/-- `QuietPawnMoveGenerator::generate` (movgen/quiet_pawn.rs lines 12–53):
single pushes, double pushes and push-promotions, restricted by pins and — in
check — by the blockable ray `between(king, checker)`.  The emission order is
the source's: promotions, then double pushes, then the other single pushes. -/
def quietPawnGen (CHECK : Bool) (b : Board) : List Move :=
  let side_to_move := b.side_to_move
  let current_sides_pawns := b.pieces .Pawn &&& b.occupancies side_to_move
  let pinned := b.state.pinned
  let king_square := bitScan (b.pieces .King &&& b.occupancies b.side_to_move)
  let push_mask : Nat :=
    if CHECK then between king_square (bitScan b.state.checkers) else UNIV
  let movable_sources := current_sides_pawns &&&
    (bbNot pinned ||| (pinned &&& maskFile (sqFile king_square)))
  let forward_shift : Int := 8 - 16 * (side_to_move.toNat : Int)
  let single_push := bbShift movable_sources forward_shift &&& bbNot b.combined
  let single_push_targets := single_push &&& push_mask
  let double_push_targets := bbShift single_push forward_shift &&&
    bbNot b.combined &&& maskRank side_to_move.double_pawn_push_rank &&& push_mask
  let promotion_rank := maskRank side_to_move.opp.backrank
  let non_promotions := single_push_targets &&& bbNot promotion_rank
  let promotions := single_push_targets &&& promotion_rank
  ((squaresList promotions).flatMap fun target =>
      ALL_PROMOTIONS.map fun promotion =>
        { fromSq := (sqForward side_to_move.opp target).getD 0
          toSq := target
          piece := .Pawn
          promotion := some promotion
          flags := .Normal }) ++
    ((squaresList double_push_targets).map fun target =>
      { fromSq := ((sqForward side_to_move.opp target).getD 0 |>
          fun s => (sqForward side_to_move.opp s).getD 0)
        toSq := target
        piece := .Pawn
        promotion := none
        flags := .DoublePawnPush }) ++
    ((squaresList non_promotions).map fun target =>
      { fromSq := (sqForward side_to_move.opp target).getD 0
        toSq := target
        piece := .Pawn
        promotion := none
        flags := .Normal })

/-- `EnPassantMoveGenerator::valid_ep` (movgen/en_passant.rs lines 12–35):
simulate the capture on the occupancy and check that no enemy rook/queen or
bishop/queen then attacks the king. -/
def valid_ep (b : Board) (capture source destination : Nat) : Bool :=
  let combined := (b.combined &&& bbNot ((1 <<< capture) &&& UNIV) &&&
      bbNot ((1 <<< source) &&& UNIV)) ||| ((1 <<< destination) &&& UNIV)
  let king_square := bitScan (b.pieces .King &&& b.occupancies b.side_to_move)
  let attack :=
    (rookAttacks king_square combined &&& (b.pieces .Rook ||| b.pieces .Queen) &&&
        b.occupancies b.side_to_move.opp) |||
      (bishopAttacks king_square combined &&&
        (b.pieces .Bishop ||| b.pieces .Queen) &&&
        b.occupancies b.side_to_move.opp)
  attack == 0

/-- `EnPassantMoveGenerator::generate` (movgen/en_passant.rs lines 39–64). -/
def enPassantGen (b : Board) : List Move :=
  match b.state.en_passant_target with
  | none => []
  | some ep_square =>
    let side_to_move := b.side_to_move
    let current_sides_pawns := b.pieces .Pawn &&& b.occupancies side_to_move
    (squaresList current_sides_pawns).flatMap fun source =>
      let attack := get_pawn_attacks source side_to_move &&&
        ((1 <<< ep_square) &&& UNIV)
      (squaresList attack).flatMap fun destination =>
        let capture := (sqForward side_to_move.opp destination).getD 0
        if valid_ep b capture source destination then
          [{ fromSq := source
             toSq := destination
             promotion := none
             piece := .Pawn
             flags := .EnPassant }]
        else []

/-- `impl PartialEq for Board` (board.rs lines 50–57): equality compares only
the piece bitboards, the occupancy bitboards, `combined` and `side_to_move`
(array equality is element-wise). -/
def boardEq (a b : Board) : Bool :=
  ALL_PIECES.all (fun p => a.pieces p == b.pieces p) &&
    ALL_COLORS.all (fun c => a.occupancies c == b.occupancies c) &&
    (a.combined == b.combined) &&
    (a.side_to_move == b.side_to_move)

/-! ## Evaluation (engine/src/evaluation.rs)

`Evaluation` wraps an `i32`; it is embedded as `Int` (no `i32` operation in
the functions below can overflow for mate scores and plies `≤ 255`).  The
`assert!` at the top of `score_to_tt` / `tt_to_score` is a Rust panic; the
panicking paths are modelled by `Option`. -/

/-- `Evaluation::IMMEDIATE_MATE_SCORE`. -/
def IMMEDIATE_MATE_SCORE : Int := 100000

/-- `Evaluation::MAX_MATE_DEPTH`. -/
def MAX_MATE_DEPTH : Int := 100

/-- `Evaluation::is_mate`. -/
def isMate (v : Int) : Bool := decide (IMMEDIATE_MATE_SCORE - MAX_MATE_DEPTH < |v|)

/-- `Evaluation::new_mate_eval(mating_color, ply_from_root)`. -/
def new_mate_eval (mating_color : Color) (ply_from_root : Nat) : Int :=
  let sign : Int := match mating_color with
    | .White => 1
    | .Black => -1
  sign * (IMMEDIATE_MATE_SCORE - (ply_from_root : Int))

/-- `Evaluation::score_to_tt` — `none` models the `assert!(self.is_mate())`
panic. -/
def score_to_tt (v : Int) (ply : Nat) : Option Int :=
  if isMate v then some ((|v| + (ply : Int)) * v.sign) else none

/-- `Evaluation::tt_to_score` — `none` models the `assert!(self.is_mate())`
panic. -/
def tt_to_score (v : Int) (ply : Nat) : Option Int :=
  if isMate v then some ((|v| - (ply : Int)) * v.sign) else none

/-! ## Auxiliary definitions for the statements -/

/-- An arbitrary sink board, used only as the default of `boardOf` on a FEN
string that fails to parse (every theorem below pins the successful parse
through the computed content). -/
def emptyBoard : Board :=
  { pieces := fun _ => 0
    occupancies := fun _ => 0
    combined := 0
    side_to_move := .White
    history := []
    state :=
      { hash := 0
        en_passant_target := none
        castling_rights := 0
        rule50 := 0
        ply := 0
        checkers := 0
        pinned := 0
        last_move := none
        captured_piece := none }
    game_ply := 0 }

/-- The board a FEN string parses to (`emptyBoard` if parsing fails). -/
def boardOf (s : String) : Board :=
  match fromFen s with
  | .ok b => b
  | .error _ => emptyBoard

/-- The pawn-attack set as the claim describes it: the up-to-two diagonally
forward squares of `sq` for color `c`, clipped to the board — no leftward
capture from the a-file, no rightward capture from the h-file, and an empty
set on the last rank in `c`'s direction.  (Stated from the claim's words, to
be compared with the generator's `mask_pawn_attacks`.) -/
def pawnAttackSpec (sq : Nat) (c : Color) : Nat :=
  let r := sqRank sq
  let f := sqFile sq
  let fr : Int := (r : Int) + (match c with | .White => 1 | .Black => -1)
  if 0 ≤ fr ∧ fr < 8 then
    (if 1 ≤ f then 1 <<< (fr.toNat * 8 + (f - 1)) else 0) |||
      (if f ≤ 6 then 1 <<< (fr.toNat * 8 + (f + 1)) else 0)
  else 0

/-- Well-formedness of a board, decidably: the spec's §3 invariants that
make/unmake relies on — bitboards fit in 64 bits, the occupancies are
disjoint, `combined` is their union and the union of the piece bitboards,
distinct piece bitboards are disjoint, and the `u16` counters are in range.
Boards constructed from a valid FEN position and maintained by legal play
satisfy all of these. -/
def wfB (b : Board) : Bool :=
  ALL_PIECES.all (fun p => decide (b.pieces p < U64)) &&
    ALL_COLORS.all (fun c => decide (b.occupancies c < U64)) &&
    (b.occupancies .White &&& b.occupancies .Black == 0) &&
    (b.combined == b.occupancies .White ||| b.occupancies .Black) &&
    ALL_PIECES.all (fun p =>
      ALL_PIECES.all (fun q => p == q || (b.pieces p &&& b.pieces q == 0))) &&
    (ALL_PIECES.foldl (fun acc p => acc ||| b.pieces p) 0 == b.combined) &&
    decide (b.game_ply < 65536)

/-- The facts `apply_move` may assume about a move it is given, decidably:
these hold of every legal move of a well-formed position (the mover's piece
stands on `from`, the destination is not occupied by the mover, and the
flag-specific occupancy facts — a capture has an enemy piece on `to`, a quiet
move has `to` empty, the en-passant capture square holds an enemy pawn, the
castling rook stands on its corner with the rook path square empty, a
promotion is a pawn move flagged Normal or Capture). -/
def moveOk (b : Board) (m : Move) : Bool :=
  let stm := b.side_to_move
  let f := m.fromSq
  let t := m.toSq
  decide (f < 64) && decide (t < 64) && decide (f ≠ t) &&
    (b.pieces m.piece).testBit f && (b.occupancies stm).testBit f &&
    !((b.occupancies stm).testBit t) &&
    (match m.flags with
      | .Normal => !(b.combined.testBit t)
      | .Capture => (b.occupancies stm.opp).testBit t && (b.piece_at t).isSome
      | .DoublePawnPush =>
        decide (m.piece = Piece.Pawn) && !(b.combined.testBit t) &&
          (sqForward stm.opp t).isSome && decide (m.promotion = none)
      | .EnPassant =>
        decide (m.piece = Piece.Pawn) && !(b.combined.testBit t) &&
          decide (m.promotion = none) &&
          (match sqForward stm.opp t with
            | some c =>
              (b.pieces .Pawn).testBit c && (b.occupancies stm.opp).testBit c &&
                decide (c ≠ f) && decide (c ≠ t) && decide (c < 64)
            | none => false)
      | .Castling =>
        decide (m.piece = Piece.King) && decide (m.promotion = none) &&
          !(b.combined.testBit t) &&
          (let rfp : Nat × Nat := if sqFile t / 4 = 0 then (0, 3) else (7, 5)
           let rs := sqMk stm.backrank rfp.1
           let re := sqMk stm.backrank rfp.2
           (b.pieces .Rook).testBit rs && (b.occupancies stm).testBit rs &&
             !(b.combined.testBit re) && decide (rs ≠ re) && decide (rs ≠ f) &&
             decide (rs ≠ t) && decide (re ≠ f) && decide (re ≠ t) &&
             decide (rs < 64) && decide (re < 64))) &&
    (match m.promotion with
      | some _ =>
        decide (m.piece = Piece.Pawn) &&
          decide (m.flags = MoveFlag.Normal ∨ m.flags = MoveFlag.Capture)
      | none => true)

/-- XOR of the piece keys of the squares of a bitboard — the inner loop of
`generate_hash_key`, started from zero. -/
def xorKeys (c : Color) (p : Piece) (bb : Nat) : Nat :=
  (squaresList bb).foldl (fun key square => key ^^^ PIECE_KEYS c p square) 0

/-- The 12 piece/color contributions of the from-scratch hash, written out. -/
def hashPieces (P : Piece → Nat) (O : Color → Nat) : Nat :=
  xorKeys .White .Pawn (P .Pawn &&& O .White) ^^^
    xorKeys .White .Knight (P .Knight &&& O .White) ^^^
    xorKeys .White .Bishop (P .Bishop &&& O .White) ^^^
    xorKeys .White .Rook (P .Rook &&& O .White) ^^^
    xorKeys .White .Queen (P .Queen &&& O .White) ^^^
    xorKeys .White .King (P .King &&& O .White) ^^^
    xorKeys .Black .Pawn (P .Pawn &&& O .Black) ^^^
    xorKeys .Black .Knight (P .Knight &&& O .Black) ^^^
    xorKeys .Black .Bishop (P .Bishop &&& O .Black) ^^^
    xorKeys .Black .Rook (P .Rook &&& O .Black) ^^^
    xorKeys .Black .Queen (P .Queen &&& O .Black) ^^^
    xorKeys .Black .King (P .King &&& O .Black)

/-- The en-passant contribution of the from-scratch hash. -/
def epKeyOf (ep : Option Nat) : Nat :=
  match ep with
  | some e => EN_PASSANT_KEYS (sqFile e)
  | none => 0

/-- The side-to-move contribution of the from-scratch hash. -/
def sideKeyOf (stm : Color) : Nat :=
  match stm with
  | .Black => SIDE_KEY
  | .White => 0

/-! ## Theorems -/

set_option maxRecDepth 1000000

/-- C8: for every square and color, the precomputed pawn-attack table entry
is exactly the set of the up-to-two diagonally forward squares clipped to the
board: no leftward capture from the a-file, no rightward capture from the
h-file, and an empty set on the last rank in the color's direction. -/
theorem c8_pawn_attack_table :
    ∀ sq : Fin 64, ∀ c : Color,
      generate_pawn_attacks c sq.val = pawnAttackSpec sq.val c := by decide

/-- C5: the en-passant generator produces exactly the move d4–c3 on
`8/8/k7/8/2Pp4/8/8/3K4 b - c3 0 1`, no move on
`8/8/8/8/k1Pp3R/8/8/3K4 b - c3 0 1` (horizontal pin through the two removed
pawns), and no move on `5q2/8/8/4pP2/8/8/8/5K2 w - e6 0 1` (vertical pin). -/
theorem c5_en_passant_scenarios :
    enPassantGen (boardOf "8/8/k7/8/2Pp4/8/8/3K4 b - c3 0 1") =
        [{ fromSq := 27, toSq := 18, piece := .Pawn, promotion := none,
           flags := .EnPassant }] ∧
      (fromFen "8/8/8/8/k1Pp3R/8/8/3K4 b - c3 0 1").isOk = true ∧
      enPassantGen (boardOf "8/8/8/8/k1Pp3R/8/8/3K4 b - c3 0 1") = [] ∧
      (fromFen "5q2/8/8/4pP2/8/8/8/5K2 w - e6 0 1").isOk = true ∧
      enPassantGen (boardOf "5q2/8/8/4pP2/8/8/8/5K2 w - e6 0 1") = [] := by
  decide

/-- C6: from `5K2/8/8/8/8/8/8/5k2 w - - 0 1`, after the king shuffle
f8e8, f1e1, e8f8, e1f1 the board reports a repetition, and it does not
before any move nor after each of the first three moves
(f8 = 61, e8 = 60, f1 = 5, e1 = 4). -/
theorem c6_repetition :
    isRepetition (boardOf "5K2/8/8/8/8/8/8/5k2 w - - 0 1") = false ∧
      isRepetition (applyMove (boardOf "5K2/8/8/8/8/8/8/5k2 w - - 0 1")
        { fromSq := 61, toSq := 60, piece := .King, promotion := none,
          flags := .Normal }) = false ∧
      isRepetition (applyMove (applyMove (boardOf "5K2/8/8/8/8/8/8/5k2 w - - 0 1")
        { fromSq := 61, toSq := 60, piece := .King, promotion := none,
          flags := .Normal })
        { fromSq := 5, toSq := 4, piece := .King, promotion := none,
          flags := .Normal }) = false ∧
      isRepetition (applyMove (applyMove (applyMove
        (boardOf "5K2/8/8/8/8/8/8/5k2 w - - 0 1")
        { fromSq := 61, toSq := 60, piece := .King, promotion := none,
          flags := .Normal })
        { fromSq := 5, toSq := 4, piece := .King, promotion := none,
          flags := .Normal })
        { fromSq := 60, toSq := 61, piece := .King, promotion := none,
          flags := .Normal }) = false ∧
      isRepetition (applyMove (applyMove (applyMove (applyMove
        (boardOf "5K2/8/8/8/8/8/8/5k2 w - - 0 1")
        { fromSq := 61, toSq := 60, piece := .King, promotion := none,
          flags := .Normal })
        { fromSq := 5, toSq := 4, piece := .King, promotion := none,
          flags := .Normal })
        { fromSq := 60, toSq := 61, piece := .King, promotion := none,
          flags := .Normal })
        { fromSq := 4, toSq := 5, piece := .King, promotion := none,
          flags := .Normal }) = true := by
  decide

/-- C9: board equality compares only the piece bitboards, the occupancy
bitboards, `combined` and `side_to_move`: two boards that agree on placement
and side to move but differ in castling rights, en-passant target, rule50
counter and Zobrist hash compare equal, although their legal moves differ
(the first has the en-passant capture d4–c3, the second has no en-passant
move). -/
theorem c9_board_eq_ignores_state :
    boardEq (boardOf "8/8/k7/8/2Pp4/8/8/3K4 b - c3 0 1")
        (boardOf "8/8/k7/8/2Pp4/8/8/3K4 b KQkq - 13 1") = true ∧
      (boardOf "8/8/k7/8/2Pp4/8/8/3K4 b - c3 0 1").state.castling_rights ≠
        (boardOf "8/8/k7/8/2Pp4/8/8/3K4 b KQkq - 13 1").state.castling_rights ∧
      (boardOf "8/8/k7/8/2Pp4/8/8/3K4 b - c3 0 1").state.en_passant_target ≠
        (boardOf "8/8/k7/8/2Pp4/8/8/3K4 b KQkq - 13 1").state.en_passant_target ∧
      (boardOf "8/8/k7/8/2Pp4/8/8/3K4 b - c3 0 1").state.rule50 ≠
        (boardOf "8/8/k7/8/2Pp4/8/8/3K4 b KQkq - 13 1").state.rule50 ∧
      (boardOf "8/8/k7/8/2Pp4/8/8/3K4 b - c3 0 1").state.hash ≠
        (boardOf "8/8/k7/8/2Pp4/8/8/3K4 b KQkq - 13 1").state.hash ∧
      enPassantGen (boardOf "8/8/k7/8/2Pp4/8/8/3K4 b - c3 0 1") ≠
        enPassantGen (boardOf "8/8/k7/8/2Pp4/8/8/3K4 b KQkq - 13 1") := by
  decide

/-- C3 fails as stated: on a freshly parsed board (empty history, no last
move) `undo_move` is not a no-op — it still decrements `game_ply` (the `u16`
subtraction sits outside the `if let Some(last_move)` guard). -/
theorem c3_counterexample :
    (boardOf "k7/8/8/8/8/8/8/K7 w - - 0 5").history = [] ∧
      (boardOf "k7/8/8/8/8/8/8/K7 w - - 0 5").state.last_move = none ∧
      undoMove (boardOf "k7/8/8/8/8/8/8/K7 w - - 0 5") ≠
        boardOf "k7/8/8/8/8/8/8/K7 w - - 0 5" := by
  refine ⟨by decide, by decide, fun h => ?_⟩
  have h2 := congrArg Board.game_ply h
  revert h2
  decide

/-- C3 (amended): on a board with empty history and no recorded last move,
`undo_move` leaves every field unchanged except `game_ply`, which is
decremented in wrapping `u16` arithmetic. -/
theorem c3_undo_empty_history (b : Board) (hh : b.history = [])
    (hl : b.state.last_move = none) :
    undoMove b = { b with game_ply := (b.game_ply + 65535) % 65536 } := by
  simp only [undoMove, hl, hh]

/-- C3 witness: the amended statement at the concrete fresh board. -/
theorem c3_undo_empty_history_witness :
    (boardOf "k7/8/8/8/8/8/8/K7 w - - 0 5").history = [] ∧
      (boardOf "k7/8/8/8/8/8/8/K7 w - - 0 5").state.last_move = none ∧
      undoMove (boardOf "k7/8/8/8/8/8/8/K7 w - - 0 5") =
        { boardOf "k7/8/8/8/8/8/8/K7 w - - 0 5" with
            game_ply :=
              ((boardOf "k7/8/8/8/8/8/8/K7 w - - 0 5").game_ply + 65535) % 65536 } :=
  ⟨by decide, by decide,
    c3_undo_empty_history (boardOf "k7/8/8/8/8/8/8/K7 w - - 0 5")
      (by decide) (by decide)⟩

/-- C2 fails as stated: storing the mate score `new_mate_eval(White, 10)` at
store_ply 10 and retrieving at retrieve_ply 5 yields 99995
(= `new_mate_eval(White, 5)`), not the claim's
`new_mate_eval(White, store_ply − retrieve_ply + original_depth)`
= `new_mate_eval(White, 15)` = 99985. -/
theorem c2_counterexample :
    (score_to_tt (new_mate_eval .White 10) 10).bind
        (fun v => tt_to_score v 5) = some 99995 ∧
      new_mate_eval .White (10 - 5 + 10) = 99985 ∧ (99995 : Int) ≠ 99985 := by
  decide

/-- C2 (amended): for every `(color, store_ply, retrieve_ply)` (as `u8`
values) with `retrieve_ply ≤ store_ply`, where
`eval = new_mate_eval(color, original_depth)` is a mate score and
`original_depth + retrieve_ply ≥ store_ply`,
`tt_to_score(score_to_tt(eval, store_ply), retrieve_ply)` equals
`new_mate_eval(color, original_depth + retrieve_ply − store_ply)` (and the
intermediate `assert!(is_mate)` checks pass, so no panic occurs). -/
theorem c2_mate_rescale (c : Color) (original_depth store_ply retrieve_ply : Nat)
    (hd : original_depth ≤ 255) (hs : store_ply ≤ 255) (hr : retrieve_ply ≤ 255)
    (hrs : retrieve_ply ≤ store_ply)
    (hnn : store_ply ≤ original_depth + retrieve_ply)
    (hmate : isMate (new_mate_eval c original_depth) = true) :
    (score_to_tt (new_mate_eval c original_depth) store_ply).bind
        (fun v => tt_to_score v retrieve_ply) =
      some (new_mate_eval c (original_depth + retrieve_ply - store_ply)) := by
  cases c with
  | White =>
    have hv : new_mate_eval .White original_depth =
        (100000 : Int) - original_depth := by
      simp [new_mate_eval, IMMEDIATE_MATE_SCORE]
    have hvpos : (0 : Int) < 100000 - original_depth := by omega
    rw [hv] at hmate
    simp only [isMate, IMMEDIATE_MATE_SCORE, MAX_MATE_DEPTH,
      abs_of_pos hvpos, decide_eq_true_eq] at hmate
    have hd100 : original_depth < 100 := by omega
    have hm1 : isMate ((100000 : Int) - original_depth) = true := by
      simp only [isMate, IMMEDIATE_MATE_SCORE, MAX_MATE_DEPTH,
        abs_of_pos hvpos, decide_eq_true_eq]
      omega
    have hstored : score_to_tt (new_mate_eval .White original_depth) store_ply =
        some ((100000 : Int) - original_depth + store_ply) := by
      rw [hv]
      simp only [score_to_tt, hm1, if_true, abs_of_pos hvpos,
        Int.sign_eq_one_of_pos hvpos, mul_one]
    rw [hstored]
    have hspos : (0 : Int) < 100000 - original_depth + store_ply := by omega
    have hm2 : isMate ((100000 : Int) - original_depth + store_ply) = true := by
      simp only [isMate, IMMEDIATE_MATE_SCORE, MAX_MATE_DEPTH,
        abs_of_pos hspos, decide_eq_true_eq]
      omega
    simp only [Option.bind, tt_to_score, hm2, if_true, abs_of_pos hspos,
      Int.sign_eq_one_of_pos hspos, mul_one, new_mate_eval, one_mul,
      IMMEDIATE_MATE_SCORE, Option.some.injEq]
    omega
  | Black =>
    have hv : new_mate_eval .Black original_depth =
        -((100000 : Int) - original_depth) := by
      simp [new_mate_eval, IMMEDIATE_MATE_SCORE]
    have hvneg : -((100000 : Int) - original_depth) < 0 := by omega
    rw [hv] at hmate
    simp only [isMate, IMMEDIATE_MATE_SCORE, MAX_MATE_DEPTH,
      abs_of_neg hvneg, decide_eq_true_eq] at hmate
    have hd100 : original_depth < 100 := by omega
    have hm1 : isMate (-((100000 : Int) - original_depth)) = true := by
      simp only [isMate, IMMEDIATE_MATE_SCORE, MAX_MATE_DEPTH,
        abs_of_neg hvneg, decide_eq_true_eq]
      omega
    have hstored : score_to_tt (new_mate_eval .Black original_depth) store_ply =
        some (-((100000 : Int) - original_depth + store_ply)) := by
      rw [hv]
      simp only [score_to_tt, hm1, if_true, abs_of_neg hvneg,
        Int.sign_eq_neg_one_of_neg hvneg]
      ring_nf
    rw [hstored]
    have hsneg : -((100000 : Int) - original_depth + store_ply) < 0 := by omega
    have hm2 : isMate (-((100000 : Int) - original_depth + store_ply)) = true := by
      simp only [isMate, IMMEDIATE_MATE_SCORE, MAX_MATE_DEPTH,
        abs_of_neg hsneg, decide_eq_true_eq]
      omega
    simp only [Option.bind, tt_to_score, hm2, if_true, abs_of_neg hsneg,
      Int.sign_eq_neg_one_of_neg hsneg, new_mate_eval, IMMEDIATE_MATE_SCORE,
      Option.some.injEq]
    ring_nf
    omega

/-- C2 witness: the amended rescaling at color White, original depth 10,
store ply 10, retrieve ply 5 (the in-source unit test's numbers). -/
theorem c2_mate_rescale_witness :
    (10 : Nat) ≤ 255 ∧ (10 : Nat) ≤ 255 ∧ (5 : Nat) ≤ 255 ∧ (5 : Nat) ≤ 10 ∧
      (10 : Nat) ≤ 10 + 5 ∧ isMate (new_mate_eval .White 10) = true ∧
      (score_to_tt (new_mate_eval .White 10) 10).bind
          (fun v => tt_to_score v 5) = some (new_mate_eval .White (10 + 5 - 10)) :=
  ⟨by decide, by decide, by decide, by decide, by decide, by decide,
    c2_mate_rescale .White 10 10 5 (by decide) (by decide) (by decide)
      (by decide) (by decide) (by decide)⟩

/-- The placement loop only fails with placement-related errors, never with
`BadFullMoveNumber`. -/
theorem parsePlacement_ne_badFullMove :
    ∀ (cs : List Char) (rank file : Nat) (ps : Piece → Nat) (occ : Color → Nat)
      (comb : Nat),
      parsePlacement cs rank file ps occ comb ≠
        .error ParseFenError.BadFullMoveNumber := by
  intro cs
  induction cs with
  | nil =>
    intro rank file ps occ comb h
    simp [parsePlacement] at h
  | cons c rest ih =>
    intro rank file ps occ comb h
    simp only [parsePlacement] at h
    split at h
    · split at h
      · split at h
        · simp at h
        · exact ih _ _ _ _ _ h
      · simp at h
    · split at h
      · split at h
        · simp at h
        · exact ih _ _ _ _ _ h
      · split at h
        · split at h
          · simp at h
          · exact ih _ _ _ _ _ h
        · simp at h

/-- C10: `Board::from_str` returns `BadFullMoveNumber` only when the sixth
FEN field fails to parse as an unsigned 16-bit integer; in particular a
fullmove number of 0 is accepted, and the `u16` computation
`2 * (fullmove_number - 1)` then wraps modulo 2^16, giving `game_ply` 65534
for a white-to-move position. -/
theorem c10_bad_fullmove_only_sixth_field :
    (∀ s : String, fromFen s = .error .BadFullMoveNumber →
        ∃ part, (splitSp s.toList).get? 5 = some part ∧
          parseUInt 65535 part = none) ∧
      (fromFen "k7/8/8/8/8/8/8/K7 w - - 0 0").isOk = true ∧
      (boardOf "k7/8/8/8/8/8/8/K7 w - - 0 0").game_ply = 65534 := by
  refine ⟨?_, by decide, by decide⟩
  intro s h
  simp only [fromFen] at h
  split at h
  · simp at h
  · split at h
    · rename_i e heq
      injection h with h2
      subst h2
      exact absurd heq (parsePlacement_ne_badFullMove _ _ _ _ _ _)
    · split at h
      · simp at h
      · split at h
        · rename_i e heq
          injection h with h2
          subst h2
          split at heq
          · simp_all
          · split at heq <;> simp_all
        · split at h
          · simp at h
          · split at h
            · simp at h
            · split at h
              · simp at h
              · split at h
                · rename_i e heq
                  injection h with h2
                  subst h2
                  split at heq
                  · simp_all
                  · split at heq <;> simp_all
                · split at h
                  · simp at h
                  · split at h
                    · simp at h
                    · split at h
                      · simp at h
                      · split at h
                        · exact ⟨_, by assumption, by assumption⟩
                        · simp at h

/-- C10 witness: a FEN whose sixth field is not a `u16` is rejected with
`BadFullMoveNumber`, and the characterization applies to it. -/
theorem c10_bad_fullmove_witness :
    fromFen "k7/8/8/8/8/8/8/K7 w - - 0 x" = .error .BadFullMoveNumber ∧
      (∃ part, (splitSp "k7/8/8/8/8/8/8/K7 w - - 0 x".toList).get? 5 = some part ∧
        parseUInt 65535 part = none) :=
  ⟨by rfl,
    c10_bad_fullmove_only_sixth_field.1 "k7/8/8/8/8/8/8/K7 w - - 0 x" (by rfl)⟩

/-- Membership in the square list of a bitboard is exactly a set bit below 64. -/
theorem mem_squaresList {bb x : Nat} :
    x ∈ squaresList bb ↔ x < 64 ∧ bb.testBit x = true := by
  simp [squaresList, List.mem_filter, List.mem_range]

/-- The empty bitboard has no squares. -/
theorem squaresList_zero : squaresList 0 = [] := by decide

/-- `bit_scan` of a bitboard with a set bit below 64 is below 64. -/
theorem bitScan_lt {bb : Nat} (h : ∃ i, i < 64 ∧ bb.testBit i = true) :
    bitScan bb < 64 := by
  obtain ⟨i, hi, hbit⟩ := h
  have h2 : (List.range 64).findIdx (fun j => bb.testBit j) <
      (List.range 64).length :=
    List.findIdx_lt_length_of_exists
      ⟨i, by simpa [List.mem_range] using hi, hbit⟩
  simpa [bitScan] using h2

/-- A bitboard of population count one has a set bit below 64. -/
theorem popcount_one_exists {bb : Nat} (h : popcount bb = 1) :
    ∃ i, i < 64 ∧ bb.testBit i = true := by
  unfold popcount at h
  cases hl : squaresList bb with
  | nil => rw [hl] at h; simp at h
  | cons x rest =>
    have hx := mem_squaresList.mp (hl ▸ List.mem_cons_self x rest)
    exact ⟨x, hx.1, hx.2⟩

/-- A knight or pawn "checker" square found through the king's knight/pawn
attack sets is never aligned with the king: the blockable ray between them is
empty. -/
theorem knight_pawn_not_aligned :
    ∀ k < 64, ∀ c < 64,
      (knightAttacks k ||| get_pawn_attacks k .White |||
        get_pawn_attacks k .Black).testBit c = true → between k c = 0 := by
  decide

/-- C7: in single check, every move the quiet-pawn generator emits with
`CHECK = true` (single push, double push or push-promotion) lands on the
blockable ray `between(king, checker)`; in particular, when the single
checker sits on a knight- or pawn-attack square of the king (a knight or
pawn checker), the generator emits no moves at all. -/
theorem c7_quiet_pawn_single_check (b : Board)
    (hck : popcount b.state.checkers = 1)
    (hkg : popcount (b.pieces .King &&& b.occupancies b.side_to_move) = 1) :
    (∀ m ∈ quietPawnGen true b,
      (between (bitScan (b.pieces .King &&& b.occupancies b.side_to_move))
        (bitScan b.state.checkers)).testBit m.toSq = true) ∧
    ((knightAttacks (bitScan (b.pieces .King &&& b.occupancies b.side_to_move)) |||
        get_pawn_attacks
          (bitScan (b.pieces .King &&& b.occupancies b.side_to_move))
          b.side_to_move).testBit (bitScan b.state.checkers) = true →
      quietPawnGen true b = []) := by
  constructor
  · intro m hm
    simp only [quietPawnGen, if_pos, List.mem_append, List.mem_flatMap,
      List.mem_map, mem_squaresList, Nat.testBit_land, Bool.and_eq_true] at hm
    rcases hm with (hm | hm) | hm
    · obtain ⟨target, ⟨ht64, ⟨hsp, hpm⟩, hpr⟩, pr, hpr2, hmeq⟩ := hm
      subst hmeq
      exact hpm
    · obtain ⟨target, ⟨ht64, ⟨⟨hsp, hc⟩, hr⟩, hpm⟩, hmeq⟩ := hm
      subst hmeq
      exact hpm
    · obtain ⟨target, ⟨ht64, ⟨hsp, hpm⟩, hpr⟩, hmeq⟩ := hm
      subst hmeq
      exact hpm
  · intro hatt
    have hk := bitScan_lt (popcount_one_exists hkg)
    have hc := bitScan_lt (popcount_one_exists hck)
    have hb : between (bitScan (b.pieces .King &&& b.occupancies b.side_to_move))
        (bitScan b.state.checkers) = 0 := by
      refine knight_pawn_not_aligned _ hk _ hc ?_
      cases hstm : b.side_to_move with
      | White =>
        rw [hstm] at hatt
        simp only [Nat.testBit_lor, Bool.or_eq_true] at hatt ⊢
        tauto
      | Black =>
        rw [hstm] at hatt
        simp only [Nat.testBit_lor, Bool.or_eq_true] at hatt ⊢
        tauto
    simp only [quietPawnGen, hb, Nat.and_zero, Nat.zero_and, squaresList_zero,
      List.flatMap_nil, List.map_nil, List.append_nil, if_pos]

/-- C7 witness: the single-check quiet-pawn restriction at the concrete
position `6k1/8/8/8/8/8/P3n3/6K1 w - - 0 1` (white king g1 in check from the
black knight e2, white pawn a2). -/
theorem c7_quiet_pawn_single_check_witness :
    popcount (boardOf "6k1/8/8/8/8/8/P3n3/6K1 w - - 0 1").state.checkers = 1 ∧
      popcount ((boardOf "6k1/8/8/8/8/8/P3n3/6K1 w - - 0 1").pieces .King &&&
        (boardOf "6k1/8/8/8/8/8/P3n3/6K1 w - - 0 1").occupancies
          (boardOf "6k1/8/8/8/8/8/P3n3/6K1 w - - 0 1").side_to_move) = 1 ∧
      ((∀ m ∈ quietPawnGen true (boardOf "6k1/8/8/8/8/8/P3n3/6K1 w - - 0 1"),
        (between
          (bitScan ((boardOf "6k1/8/8/8/8/8/P3n3/6K1 w - - 0 1").pieces .King &&&
            (boardOf "6k1/8/8/8/8/8/P3n3/6K1 w - - 0 1").occupancies
              (boardOf "6k1/8/8/8/8/8/P3n3/6K1 w - - 0 1").side_to_move))
          (bitScan
            (boardOf "6k1/8/8/8/8/8/P3n3/6K1 w - - 0 1").state.checkers)).testBit
          m.toSq = true) ∧
      ((knightAttacks
          (bitScan ((boardOf "6k1/8/8/8/8/8/P3n3/6K1 w - - 0 1").pieces .King &&&
            (boardOf "6k1/8/8/8/8/8/P3n3/6K1 w - - 0 1").occupancies
              (boardOf "6k1/8/8/8/8/8/P3n3/6K1 w - - 0 1").side_to_move)) |||
          get_pawn_attacks
            (bitScan ((boardOf "6k1/8/8/8/8/8/P3n3/6K1 w - - 0 1").pieces .King &&&
              (boardOf "6k1/8/8/8/8/8/P3n3/6K1 w - - 0 1").occupancies
                (boardOf "6k1/8/8/8/8/8/P3n3/6K1 w - - 0 1").side_to_move))
            (boardOf "6k1/8/8/8/8/8/P3n3/6K1 w - - 0 1").side_to_move).testBit
          (bitScan (boardOf "6k1/8/8/8/8/8/P3n3/6K1 w - - 0 1").state.checkers) =
          true →
        quietPawnGen true (boardOf "6k1/8/8/8/8/8/P3n3/6K1 w - - 0 1") = [])) :=
  ⟨by decide, by decide,
    c7_quiet_pawn_single_check (boardOf "6k1/8/8/8/8/8/P3n3/6K1 w - - 0 1")
      (by decide) (by decide)⟩

/-- Color negation is involutive. -/
theorem Color.opp_opp (c : Color) : c.opp.opp = c := by cases c <;> rfl

/-- Every piece is in `ALL_PIECES`. -/
theorem mem_ALL_PIECES (p : Piece) : p ∈ ALL_PIECES := by
  cases p <;> simp [ALL_PIECES]

/-- Every color is in `ALL_COLORS`. -/
theorem mem_ALL_COLORS (c : Color) : c ∈ ALL_COLORS := by
  cases c <;> simp [ALL_COLORS]

/-- Unpacked form of the decidable well-formedness predicate `wfB`. -/
theorem wfB_parts (b : Board) (hw : wfB b = true) :
    (∀ p, b.pieces p < U64) ∧ (∀ c, b.occupancies c < U64) ∧
      b.occupancies .White &&& b.occupancies .Black = 0 ∧
      b.combined = b.occupancies .White ||| b.occupancies .Black ∧
      (∀ p q, p ≠ q → b.pieces p &&& b.pieces q = 0) ∧
      (b.pieces .Pawn ||| b.pieces .Knight ||| b.pieces .Bishop |||
        b.pieces .Rook ||| b.pieces .Queen ||| b.pieces .King) = b.combined ∧
      b.game_ply < 65536 := by
  simp only [wfB, Bool.and_eq_true, List.all_eq_true, decide_eq_true_eq,
    beq_iff_eq, Bool.or_eq_true] at hw
  obtain ⟨⟨⟨⟨⟨⟨h1, h2⟩, h3⟩, h4⟩, h5⟩, h6⟩, h7⟩ := hw
  refine ⟨fun p => h1 p (mem_ALL_PIECES p), fun c => h2 c (mem_ALL_COLORS c),
    h3, h4, fun p q hpq => ?_, ?_, h7⟩
  · rcases h5 p (mem_ALL_PIECES p) q (mem_ALL_PIECES q) with h | h
    · exact absurd h hpq
    · exact h
  · simpa [ALL_PIECES, List.foldl] using h6

/-- A set bit in any piece bitboard is set in `combined`. -/
theorem wf_piece_le_combined (b : Board) (hw : wfB b = true) (p : Piece) (i : Nat)
    (h : (b.pieces p).testBit i = true) : b.combined.testBit i = true := by
  have hu := (wfB_parts b hw).2.2.2.2.2.1
  rw [← hu]
  cases p <;> simp [Nat.testBit_lor, h]

/-- A set bit in either occupancy is set in `combined`. -/
theorem wf_occ_le_combined (b : Board) (hw : wfB b = true) (c : Color) (i : Nat)
    (h : (b.occupancies c).testBit i = true) : b.combined.testBit i = true := by
  have hu := (wfB_parts b hw).2.2.2.1
  rw [hu]
  cases c <;> simp [Nat.testBit_lor, h]

/-- Bits of disjoint bitboards exclude each other. -/
theorem disjoint_testBit {a b : Nat} (h : a &&& b = 0) (i : Nat)
    (ha : a.testBit i = true) : b.testBit i = false := by
  have := congrArg (fun x => x.testBit i) h
  simp only [Nat.testBit_land, Nat.zero_testBit] at this
  rw [ha] at this
  simpa using this

/-- The two occupancies exclude each other. -/
theorem wf_occ_opp (b : Board) (hw : wfB b = true) (c : Color) (i : Nat)
    (h : (b.occupancies c).testBit i = true) :
    (b.occupancies c.opp).testBit i = false := by
  have h3 := (wfB_parts b hw).2.2.1
  cases c with
  | White => exact disjoint_testBit h3 i h
  | Black =>
    exact disjoint_testBit (by rwa [Nat.land_comm] at h3) i h

/-- Distinct piece bitboards exclude each other. -/
theorem wf_piece_ne (b : Board) (hw : wfB b = true) {p q : Piece} (hpq : p ≠ q)
    (i : Nat) (h : (b.pieces p).testBit i = true) :
    (b.pieces q).testBit i = false :=
  disjoint_testBit ((wfB_parts b hw).2.2.2.2.1 p q hpq) i h

/-- What a successful `piece_at` lookup says. -/
theorem piece_at_spec (b : Board) (t : Nat) (q : Piece)
    (h : b.piece_at t = some q) :
    b.combined.testBit t = true ∧ (b.pieces q).testBit t = true := by
  unfold Board.piece_at at h
  split at h
  · have h2 := List.find?_some h
    exact ⟨by assumption, h2⟩
  · exact absurd h (by simp)

/-- Round trip of a plain piece relocation: clear `f`, set `t`, then set `f`
back and clear `t`. -/
theorem bit_move_roundtrip (a f t : Nat) (hf : a.testBit f = true)
    (ht : a.testBit t = false) (hft : f ≠ t) :
    (((a ^^^ (1 <<< f)) ||| (1 <<< t)) ||| (1 <<< f)) ^^^ (1 <<< t) = a := by
  apply Nat.eq_of_testBit_eq
  intro i
  simp only [Nat.testBit_lor, Nat.testBit_xor, Nat.one_shiftLeft,
    Nat.testBit_two_pow]
  by_cases h1 : f = i <;> by_cases h2 : t = i <;> simp_all

/-- Round trip of a relocation onto a square that stays occupied in this
bitboard (a capture of a piece of the same kind), with the captured bit
restored afterwards. -/
theorem bit_move_capture_same_roundtrip (a f t : Nat) (hf : a.testBit f = true)
    (ht : a.testBit t = true) (hft : f ≠ t) :
    ((((a ^^^ (1 <<< f)) ||| (1 <<< t)) ||| (1 <<< f)) ^^^ (1 <<< t)) |||
      (1 <<< t) = a := by
  apply Nat.eq_of_testBit_eq
  intro i
  simp only [Nat.testBit_lor, Nat.testBit_xor, Nat.one_shiftLeft,
    Nat.testBit_two_pow]
  by_cases h1 : f = i <;> by_cases h2 : t = i <;> simp_all

/-- Round trip of a toggled-off square restored by a set (capture / undo of
capture on another bitboard). -/
theorem bit_clear_set_roundtrip (a t : Nat) (ht : a.testBit t = true) :
    (a ^^^ (1 <<< t)) ||| (1 <<< t) = a := by
  apply Nat.eq_of_testBit_eq
  intro i
  simp only [Nat.testBit_lor, Nat.testBit_xor, Nat.one_shiftLeft,
    Nat.testBit_two_pow]
  by_cases h2 : t = i <;> simp_all

/-- Round trip of a set square cleared again (promotion piece added then
removed). -/
theorem bit_set_clear_roundtrip (a t : Nat) (ht : a.testBit t = false) :
    (a ||| (1 <<< t)) ^^^ (1 <<< t) = a := by
  apply Nat.eq_of_testBit_eq
  intro i
  simp only [Nat.testBit_lor, Nat.testBit_xor, Nat.one_shiftLeft,
    Nat.testBit_two_pow]
  by_cases h2 : t = i <;> simp_all

/-- Round trip of a clear, set, clear, set chain on an occupied square (a
promotion capturing a piece of the promoted kind). -/
theorem bit_clear_set_clear_set_roundtrip (a t : Nat) (ht : a.testBit t = true) :
    ((((a ^^^ (1 <<< t)) ||| (1 <<< t)) ^^^ (1 <<< t)) ||| (1 <<< t)) = a := by
  apply Nat.eq_of_testBit_eq
  intro i
  simp only [Nat.testBit_lor, Nat.testBit_xor, Nat.one_shiftLeft,
    Nat.testBit_two_pow]
  by_cases h2 : t = i <;> simp_all

/-- Round trip of the pawn bitboard in a promotion: move `f` to `t`, swap the
pawn at `t` for the promoted piece, then undo in reverse. -/
theorem bit_promo_roundtrip (a f t : Nat) (hf : a.testBit f = true)
    (ht : a.testBit t = false) (hft : f ≠ t) :
    (((((((a ^^^ (1 <<< f)) ||| (1 <<< t)) ^^^ (1 <<< t)) ||| (1 <<< t)) |||
      (1 <<< f)) ^^^ (1 <<< t))) = a := by
  apply Nat.eq_of_testBit_eq
  intro i
  simp only [Nat.testBit_lor, Nat.testBit_xor, Nat.one_shiftLeft,
    Nat.testBit_two_pow]
  by_cases h1 : f = i <;> by_cases h2 : t = i <;> simp_all

/-- Round trip of the pawn bitboard in a promotion that captures an enemy
pawn standing on `t` (the captured bit lives in the same bitboard and is
restored last). -/
theorem bit_promo_capture_same_roundtrip (a f t : Nat) (hf : a.testBit f = true)
    (ht : a.testBit t = true) (hft : f ≠ t) :
    ((((((((a ^^^ (1 <<< f)) ||| (1 <<< t)) ^^^ (1 <<< t)) ||| (1 <<< t)) |||
      (1 <<< f)) ^^^ (1 <<< t))) ||| (1 <<< t)) = a := by
  apply Nat.eq_of_testBit_eq
  intro i
  simp only [Nat.testBit_lor, Nat.testBit_xor, Nat.one_shiftLeft,
    Nat.testBit_two_pow]
  by_cases h1 : f = i <;> by_cases h2 : t = i <;> simp_all

/-- Round trip of the mover's relocation combined with the en-passant removal
of a third square `c` (pawn bitboard and `combined` in an en-passant
capture). -/
theorem bit_ep_roundtrip (a f t c : Nat) (hf : a.testBit f = true)
    (ht : a.testBit t = false) (hc : a.testBit c = true) (hft : f ≠ t)
    (hfc : f ≠ c) (htc : t ≠ c) :
    (((((a ^^^ (1 <<< f)) ||| (1 <<< t)) ^^^ (1 <<< c)) ||| (1 <<< f)) ^^^
      (1 <<< t)) ||| (1 <<< c) = a := by
  apply Nat.eq_of_testBit_eq
  intro i
  simp only [Nat.testBit_lor, Nat.testBit_xor, Nat.one_shiftLeft,
    Nat.testBit_two_pow]
  by_cases h1 : f = i <;> by_cases h2 : t = i <;> by_cases h3 : c = i <;>
    simp_all

/-- Round trip of the king relocation combined with the rook relocation of a
castling move (`occupancies` of the mover and `combined`). -/
theorem bit_castle_roundtrip (a f t rs re : Nat) (hf : a.testBit f = true)
    (ht : a.testBit t = false) (hrs : a.testBit rs = true)
    (hre : a.testBit re = false) (hft : f ≠ t) (hfrs : f ≠ rs) (hfre : f ≠ re)
    (htrs : t ≠ rs) (htre : t ≠ re) (hrsre : rs ≠ re) :
    (((((((a ^^^ (1 <<< f)) ||| (1 <<< t)) ^^^ (1 <<< rs)) ||| (1 <<< re)) |||
      (1 <<< rs)) ^^^ (1 <<< re)) ||| (1 <<< f)) ^^^ (1 <<< t) = a := by
  apply Nat.eq_of_testBit_eq
  intro i
  simp only [Nat.testBit_lor, Nat.testBit_xor, Nat.one_shiftLeft,
    Nat.testBit_two_pow]
  by_cases h1 : f = i <;> by_cases h2 : t = i <;> by_cases h3 : rs = i <;>
    by_cases h4 : re = i <;> simp_all

theorem wf_piece_of_not_combined (b : Board) (hw : wfB b = true) (p : Piece)
    (i : Nat) (h : b.combined.testBit i = false) :
    (b.pieces p).testBit i = false := by
  cases hb : (b.pieces p).testBit i
  · rfl
  · rw [wf_piece_le_combined b hw p i hb] at h
    cases h

theorem wf_occ_of_not_combined (b : Board) (hw : wfB b = true) (c : Color)
    (i : Nat) (h : b.combined.testBit i = false) :
    (b.occupancies c).testBit i = false := by
  cases hb : (b.occupancies c).testBit i
  · rfl
  · rw [wf_occ_le_combined b hw c i hb] at h
    cases h

theorem Promotion.as_piece_ne_pawn (pr : Promotion) : pr.as_piece ≠ .Pawn := by
  cases pr <;> simp [Promotion.as_piece]

theorem undo_applyMove (b : Board) (m : Move) (hw : wfB b = true)
    (hm : moveOk b m = true) : undoMove (applyMove b m) = b := by
  obtain ⟨f, t, p, promo, flag⟩ := m
  have hgp0 := (wfB_parts b hw).2.2.2.2.2.2
  cases flag with
  | Normal =>
    cases promo with
    | none =>
      simp only [moveOk, Bool.and_eq_true, decide_eq_true_eq,
        Bool.not_eq_true'] at hm
      obtain ⟨⟨⟨⟨⟨⟨⟨hf64, ht64⟩, hft⟩, hpf⟩, huf⟩, hut⟩, hcomb⟩, -⟩ := hm
      have hpt := wf_piece_of_not_combined b hw p _ hcomb
      have hct : b.combined.testBit t = false := hcomb
      have hcf := wf_occ_le_combined b hw b.side_to_move f huf
      obtain ⟨P, O, C, stm, hist, st, gp⟩ := b
      have hgp : gp < 65536 := hgp0
      cases stm
      all_goals
        simp only [applyMove, undoMove]
        simp [Color.opp]
        refine ⟨bit_move_roundtrip _ _ _ hpf hpt hft,
          bit_move_roundtrip _ _ _ huf hut hft,
          bit_move_roundtrip _ _ _ hcf hct hft, by omega⟩
    | some pr =>
      simp only [moveOk, Bool.and_eq_true, decide_eq_true_eq,
        Bool.not_eq_true'] at hm
      obtain ⟨⟨⟨⟨⟨⟨⟨hf64, ht64⟩, hft⟩, hpf⟩, huf⟩, hut⟩, hcomb⟩, hpawn, -⟩ := hm
      subst hpawn
      have hpt := wf_piece_of_not_combined b hw .Pawn _ hcomb
      have hprt := wf_piece_of_not_combined b hw pr.as_piece _ hcomb
      have hct : b.combined.testBit t = false := hcomb
      have hcf := wf_occ_le_combined b hw b.side_to_move f huf
      have hprp := pr.as_piece_ne_pawn
      obtain ⟨P, O, C, stm, hist, st, gp⟩ := b
      have hgp : gp < 65536 := hgp0
      cases stm
      all_goals
        simp only [applyMove, undoMove]
        simp [Color.opp, Function.update_noteq hprp,
          Function.update_noteq (Ne.symm hprp)]
        refine ⟨?_, bit_move_roundtrip _ _ _ huf hut hft,
          bit_move_roundtrip _ _ _ hcf hct hft, by omega⟩
        funext x
        by_cases hx1 : x = Piece.Pawn
        · subst hx1
          simp [Function.update_noteq hprp, Function.update_noteq (Ne.symm hprp)]
          exact bit_promo_roundtrip _ _ _ hpf hpt hft
        · by_cases hx2 : x = pr.as_piece
          · subst hx2
            simp [Function.update_noteq hprp,
              Function.update_noteq (Ne.symm hprp), Function.update_noteq hx1]
            exact bit_set_clear_roundtrip _ _ hprt
          · simp [Function.update_noteq hx1, Function.update_noteq hx2]
  | DoublePawnPush =>
    cases promo with
    | some pr => simp [moveOk] at hm
    | none =>
      simp only [moveOk, Bool.and_eq_true, decide_eq_true_eq,
        Bool.not_eq_true'] at hm
      obtain ⟨⟨⟨⟨⟨⟨⟨hf64, ht64⟩, hft⟩, hpf⟩, huf⟩, hut⟩,
        ⟨⟨hpawn, hcomb⟩, hfwd⟩, -⟩, -⟩ := hm
      subst hpawn
      have hpt := wf_piece_of_not_combined b hw .Pawn _ hcomb
      have hct : b.combined.testBit t = false := hcomb
      have hcf := wf_occ_le_combined b hw b.side_to_move f huf
      obtain ⟨P, O, C, stm, hist, st, gp⟩ := b
      have hgp : gp < 65536 := hgp0
      cases stm
      all_goals
        simp only [applyMove, undoMove]
        simp [Color.opp]
        refine ⟨bit_move_roundtrip _ _ _ hpf hpt hft,
          bit_move_roundtrip _ _ _ huf hut hft,
          bit_move_roundtrip _ _ _ hcf hct hft, by omega⟩
  | EnPassant =>
    cases promo with
    | some pr => simp [moveOk] at hm
    | none =>
      simp only [moveOk, Bool.and_eq_true, decide_eq_true_eq,
        Bool.not_eq_true'] at hm
      obtain ⟨⟨⟨⟨⟨⟨⟨hf64, ht64⟩, hft⟩, hpf⟩, huf⟩, hut⟩,
        ⟨⟨hpawn, hcomb⟩, -⟩, hepm⟩, -⟩ := hm
      subst hpawn
      rcases hfw : sqForward b.side_to_move.opp t with - | c
      · rw [hfw] at hepm
        simp at hepm
      · rw [hfw] at hepm
        simp only [Bool.and_eq_true, decide_eq_true_eq] at hepm
        obtain ⟨⟨⟨⟨hpc, hthemc⟩, hcf'⟩, hct'⟩, hc64⟩ := hepm
        have hpt := wf_piece_of_not_combined b hw .Pawn _ hcomb
        have hct : b.combined.testBit t = false := hcomb
        have hcf := wf_occ_le_combined b hw b.side_to_move f huf
        have hcc := wf_occ_le_combined b hw b.side_to_move.opp c hthemc
        obtain ⟨P, O, C, stm, hist, st, gp⟩ := b
        have hgp : gp < 65536 := hgp0
        cases stm
        all_goals
          simp only [Color.opp] at hfw
          simp only [applyMove, undoMove]
          simp [Color.opp, hfw]
          refine ⟨bit_ep_roundtrip _ _ _ _ hpf hpt hpc hft (Ne.symm hcf')
            (Ne.symm hct'), ?_,
            bit_ep_roundtrip _ _ _ _ hcf hct hcc hft (Ne.symm hcf')
              (Ne.symm hct'), by omega⟩
          funext x
          cases x <;> simp [Color.opp] <;>
            first
              | exact bit_move_roundtrip _ _ _ huf hut hft
              | exact bit_clear_set_roundtrip _ _ hthemc
  | Castling =>
    cases promo with
    | some pr => simp [moveOk] at hm
    | none =>
      simp only [moveOk, Bool.and_eq_true, decide_eq_true_eq,
        Bool.not_eq_true'] at hm
      obtain ⟨⟨⟨⟨⟨⟨⟨hf64, ht64⟩, hft⟩, hpf⟩, huf⟩, hut⟩,
        ⟨⟨hking, -⟩, hcomb⟩, hcst⟩, -⟩ := hm
      subst hking
      obtain ⟨⟨⟨⟨⟨⟨⟨⟨⟨hrrs, hurs⟩, hcre⟩, hrsre⟩, hrsf⟩, hrst⟩, href⟩, hret⟩,
        hrs64⟩, hre64⟩ := hcst
      have hpt := wf_piece_of_not_combined b hw .King _ hcomb
      have hrre := wf_piece_of_not_combined b hw .Rook _ hcre
      have hure := wf_occ_of_not_combined b hw b.side_to_move _ hcre
      have hct : b.combined.testBit t = false := hcomb
      have hcf := wf_occ_le_combined b hw b.side_to_move f huf
      have hcrs := wf_occ_le_combined b hw b.side_to_move _ hurs
      obtain ⟨P, O, C, stm, hist, st, gp⟩ := b
      have hgp : gp < 65536 := hgp0
      have hkr : Piece.King ≠ Piece.Rook := by decide
      cases stm
      all_goals
        simp only [applyMove, undoMove]
        simp [Color.opp]
        refine ⟨?_, ?_, ?_, by omega⟩
        case _ =>
          funext x
          by_cases hx1 : x = Piece.King
          · subst hx1
            simp [Function.update_noteq hkr, Function.update_noteq (Ne.symm hkr)]
            exact bit_move_roundtrip _ _ _ hpf hpt hft
          · by_cases hx2 : x = Piece.Rook
            · subst hx2
              simp [Function.update_noteq hkr,
                Function.update_noteq (Ne.symm hkr), Function.update_noteq hx1]
              exact bit_move_roundtrip _ _ _ hrrs hrre hrsre
            · simp [Function.update_noteq hx1, Function.update_noteq hx2]
        case _ =>
          exact bit_castle_roundtrip _ _ _ _ _ huf hut hurs hure hft
            (Ne.symm hrsf) (Ne.symm href) (Ne.symm hrst) (Ne.symm hret) hrsre
        case _ =>
          exact bit_castle_roundtrip _ _ _ _ _ hcf hct hcrs hcre hft
            (Ne.symm hrsf) (Ne.symm href) (Ne.symm hrst) (Ne.symm hret) hrsre
  | Capture =>
    cases promo with
    | none =>
      simp only [moveOk, Bool.and_eq_true, decide_eq_true_eq,
        Bool.not_eq_true'] at hm
      obtain ⟨⟨⟨⟨⟨⟨⟨hf64, ht64⟩, hft⟩, hpf⟩, huf⟩, hut⟩, hthem, hsome⟩, -⟩ := hm
      obtain ⟨q, hq⟩ := Option.isSome_iff_exists.mp hsome
      obtain ⟨hcombt, hqt⟩ := piece_at_spec b _ _ hq
      have hcf := wf_occ_le_combined b hw b.side_to_move f huf
      by_cases hqp : q = p
      · subst hqp
        obtain ⟨P, O, C, stm, hist, st, gp⟩ := b
        have hgp : gp < 65536 := hgp0
        cases stm
        all_goals
          simp only [applyMove, undoMove]
          simp [Color.opp, hq]
          refine ⟨bit_move_capture_same_roundtrip _ _ _ hpf hqt hft, ?_,
            bit_move_capture_same_roundtrip _ _ _ hcf hcombt hft, by omega⟩
          funext x
          cases x <;> simp [Color.opp] <;>
            first
              | exact bit_move_roundtrip _ _ _ huf hut hft
              | exact bit_clear_set_roundtrip _ _ hthem
      · have hpt := wf_piece_ne b hw hqp t hqt
        obtain ⟨P, O, C, stm, hist, st, gp⟩ := b
        have hgp : gp < 65536 := hgp0
        cases stm
        all_goals
          simp only [applyMove, undoMove]
          simp [Color.opp, hq, hqp]
          refine ⟨?_, ?_,
            bit_move_capture_same_roundtrip _ _ _ hcf hcombt hft, by omega⟩
          case _ =>
            funext x
            by_cases hx1 : x = p
            · subst hx1
              simp [Function.update_noteq hqp,
                Function.update_noteq (Ne.symm hqp)]
              exact bit_move_roundtrip _ _ _ hpf hpt hft
            · by_cases hx2 : x = q
              · subst hx2
                simp [Function.update_noteq hqp,
                  Function.update_noteq (Ne.symm hqp),
                  Function.update_noteq hx1]
                exact bit_clear_set_roundtrip _ _ hqt
              · simp [Function.update_noteq hx1, Function.update_noteq hx2]
          case _ =>
            funext x
            cases x <;> simp [Color.opp] <;>
              first
                | exact bit_move_roundtrip _ _ _ huf hut hft
                | exact bit_clear_set_roundtrip _ _ hthem
    | some pr =>
      simp only [moveOk, Bool.and_eq_true, decide_eq_true_eq,
        Bool.not_eq_true'] at hm
      obtain ⟨⟨⟨⟨⟨⟨⟨hf64, ht64⟩, hft⟩, hpf⟩, huf⟩, hut⟩, hthem, hsome⟩,
        hpawn, -⟩ := hm
      subst hpawn
      obtain ⟨q, hq⟩ := Option.isSome_iff_exists.mp hsome
      obtain ⟨hcombt, hqt⟩ := piece_at_spec b _ _ hq
      have hcf := wf_occ_le_combined b hw b.side_to_move f huf
      have hprp := pr.as_piece_ne_pawn
      by_cases hqpawn : q = Piece.Pawn
      · subst hqpawn
        have hprt := wf_piece_ne b hw (Ne.symm hprp) t hqt
        obtain ⟨P, O, C, stm, hist, st, gp⟩ := b
        have hgp : gp < 65536 := hgp0
        cases stm
        all_goals
          simp only [applyMove, undoMove]
          simp [Color.opp, hq, Function.update_noteq hprp,
            Function.update_noteq (Ne.symm hprp)]
          refine ⟨?_, ?_,
            bit_move_capture_same_roundtrip _ _ _ hcf hcombt hft, by omega⟩
          case _ =>
            funext x
            by_cases hx1 : x = Piece.Pawn
            · subst hx1
              simp [Function.update_noteq hprp,
                Function.update_noteq (Ne.symm hprp)]
              exact bit_promo_capture_same_roundtrip _ _ _ hpf hqt hft
            · by_cases hx2 : x = pr.as_piece
              · subst hx2
                simp [Function.update_noteq hprp,
                  Function.update_noteq (Ne.symm hprp),
                  Function.update_noteq hx1]
                exact bit_set_clear_roundtrip _ _ hprt
              · simp [Function.update_noteq hx1, Function.update_noteq hx2]
          case _ =>
            funext x
            cases x <;> simp [Color.opp] <;>
              first
                | exact bit_move_roundtrip _ _ _ huf hut hft
                | exact bit_clear_set_roundtrip _ _ hthem
      · have hpt := wf_piece_ne b hw hqpawn t hqt
        by_cases hqpr : q = pr.as_piece
        · subst hqpr
          obtain ⟨P, O, C, stm, hist, st, gp⟩ := b
          have hgp : gp < 65536 := hgp0
          cases stm
          all_goals
            simp only [applyMove, undoMove]
            simp [Color.opp, hq, hqpawn, Function.update_noteq hprp,
              Function.update_noteq (Ne.symm hprp)]
            refine ⟨?_, ?_,
              bit_move_capture_same_roundtrip _ _ _ hcf hcombt hft, by omega⟩
            case _ =>
              funext x
              by_cases hx1 : x = Piece.Pawn
              · subst hx1
                simp [Function.update_noteq hprp,
                  Function.update_noteq (Ne.symm hprp)]
                exact bit_promo_roundtrip _ _ _ hpf hpt hft
              · by_cases hx2 : x = pr.as_piece
                · subst hx2
                  simp [Function.update_noteq hprp,
                    Function.update_noteq (Ne.symm hprp),
                    Function.update_noteq hx1]
                  exact bit_clear_set_clear_set_roundtrip _ _ hqt
                · simp [Function.update_noteq hx1, Function.update_noteq hx2]
            case _ =>
              funext x
              cases x <;> simp [Color.opp] <;>
                first
                  | exact bit_move_roundtrip _ _ _ huf hut hft
                  | exact bit_clear_set_roundtrip _ _ hthem
        · have hprt := wf_piece_ne b hw hqpr t hqt
          obtain ⟨P, O, C, stm, hist, st, gp⟩ := b
          have hgp : gp < 65536 := hgp0
          cases stm
          all_goals
            simp only [applyMove, undoMove]
            simp [Color.opp, hq, hqpawn, Function.update_noteq hprp,
              Function.update_noteq (Ne.symm hprp)]
            refine ⟨?_, ?_,
              bit_move_capture_same_roundtrip _ _ _ hcf hcombt hft, by omega⟩
            case _ =>
              funext x
              by_cases hx1 : x = Piece.Pawn
              · subst hx1
                simp [Function.update_noteq hprp,
                  Function.update_noteq (Ne.symm hprp),
                  Function.update_noteq hqpawn,
                  Function.update_noteq (Ne.symm hqpawn)]
                exact bit_promo_roundtrip _ _ _ hpf hpt hft
              · by_cases hx2 : x = pr.as_piece
                · subst hx2
                  simp [Function.update_noteq hprp,
                    Function.update_noteq (Ne.symm hprp),
                    Function.update_noteq hx1, Function.update_noteq hqpr,
                    Function.update_noteq (fun hh => hqpr hh.symm)]
                  exact bit_set_clear_roundtrip _ _ hprt
                · by_cases hx3 : x = q
                  · subst hx3
                    simp [Function.update_noteq hx1, Function.update_noteq hx2,
                      Function.update_noteq hqpawn,
                      Function.update_noteq (Ne.symm hqpawn)]
                    exact bit_clear_set_roundtrip _ _ hqt
                  · simp [Function.update_noteq hx1, Function.update_noteq hx2,
                      Function.update_noteq hx3]
            case _ =>
              funext x
              cases x <;> simp [Color.opp] <;>
                first
                  | exact bit_move_roundtrip _ _ _ huf hut hft
                  | exact bit_clear_set_roundtrip _ _ hthem

/-- C1: applying a legal-compatible move on a well-formed board and then
undoing it restores the board bit-for-bit — every piece bitboard, both
occupancy bitboards, `combined`, `side_to_move`, `game_ply`, the history
stack, and the full current state (Zobrist hash, en-passant target, castling
rights, rule50 counter, checkers and pinned, which are restored by popping
the saved state). -/
theorem c1_apply_undo_roundtrip (b : Board) (m : Move) (hw : wfB b = true)
    (hm : moveOk b m = true) : undoMove (applyMove b m) = b :=
  undo_applyMove b m hw hm

/-- C1 witness: the round trip at the parsed Kiwipete position and the
capture move e5 knight takes f7 (e5 = 36, f7 = 53). -/
theorem c1_apply_undo_roundtrip_witness :
    wfB (boardOf
        "r3k2r/p1ppqpb1/bn2pnp1/3PN3/1p2P3/2N2Q1p/PPPBBPPP/R3K2R w KQkq - 0 1") =
        true ∧
      moveOk (boardOf
        "r3k2r/p1ppqpb1/bn2pnp1/3PN3/1p2P3/2N2Q1p/PPPBBPPP/R3K2R w KQkq - 0 1")
        ⟨36, 53, .Knight, none, .Capture⟩ = true ∧
      undoMove (applyMove (boardOf
        "r3k2r/p1ppqpb1/bn2pnp1/3PN3/1p2P3/2N2Q1p/PPPBBPPP/R3K2R w KQkq - 0 1")
        ⟨36, 53, .Knight, none, .Capture⟩) =
        boardOf
          "r3k2r/p1ppqpb1/bn2pnp1/3PN3/1p2P3/2N2Q1p/PPPBBPPP/R3K2R w KQkq - 0 1" :=
  ⟨by decide, by decide,
    c1_apply_undo_roundtrip _ _ (by decide) (by decide)⟩


/-- Folding xor from an arbitrary initial value factors the initial value
out. -/
theorem foldl_xor_factor (K : Nat → Nat) (l : List Nat) (k : Nat) :
    l.foldl (fun a s => a ^^^ K s) k = k ^^^ l.foldl (fun a s => a ^^^ K s) 0 := by
  induction l generalizing k with
  | nil => simp
  | cons x rest ih =>
    simp only [List.foldl_cons]
    rw [ih (k ^^^ K x), ih (0 ^^^ K x)]
    simp [Nat.xor_assoc]

/-- Folding the piece keys from an arbitrary initial key factors it out. -/
theorem xorKeys_foldl (c : Color) (p : Piece) (bb : Nat) (k : Nat) :
    (squaresList bb).foldl (fun key square => key ^^^ PIECE_KEYS c p square) k =
      k ^^^ xorKeys c p bb := by
  unfold xorKeys
  exact foldl_xor_factor _ _ k

/-- Toggling a bit in the filtered xor-fold of keys toggles that key. -/
theorem filter_foldl_xor_toggle (K : Nat → Nat) (bb s : Nat) :
    ∀ l : List Nat, l.Nodup → s ∈ l →
      (l.filter (fun i => (bb ^^^ (1 <<< s)).testBit i)).foldl
          (fun a i => a ^^^ K i) 0 =
        K s ^^^ (l.filter (fun i => bb.testBit i)).foldl (fun a i => a ^^^ K i) 0 := by
  intro l
  have hxbit : ∀ i, i ≠ s → (bb ^^^ (1 <<< s)).testBit i = bb.testBit i := by
    intro i hi
    simp only [Nat.testBit_xor, Nat.one_shiftLeft, Nat.testBit_two_pow]
    simp [Ne.symm hi]
  have hsbit : (bb ^^^ (1 <<< s)).testBit s = !bb.testBit s := by
    simp [Nat.testBit_xor, Nat.one_shiftLeft, Nat.testBit_two_pow]
  induction l with
  | nil =>
    intro hnd hmem
    cases hmem
  | cons x rest ih =>
    intro hnd hmem
    rcases List.mem_cons.mp hmem with hx | hmem2
    · subst hx
      have hnotin : s ∉ rest := (List.nodup_cons.mp hnd).1
      have hrest : rest.filter (fun i => (bb ^^^ (1 <<< s)).testBit i) =
          rest.filter (fun i => bb.testBit i) := by
        apply List.filter_congr
        intro i hi
        rw [hxbit i (fun hh => hnotin (hh ▸ hi))]
      rw [List.filter_cons, List.filter_cons, hsbit, hrest]
      cases hbx : bb.testBit s
      · rw [if_pos (by simp [hbx]), if_neg (by simp [hbx]), List.foldl_cons,
          foldl_xor_factor]
        simp
      · rw [if_neg (by simp [hbx]), if_pos (by simp [hbx]), List.foldl_cons,
          foldl_xor_factor K _ (0 ^^^ K s)]
        rw [Nat.zero_xor, ← Nat.xor_assoc, Nat.xor_self, Nat.zero_xor]
    · have hne : x ≠ s := fun hh => (List.nodup_cons.mp hnd).1 (hh ▸ hmem2)
      have hih := ih (List.nodup_cons.mp hnd).2 hmem2
      rw [List.filter_cons, List.filter_cons, hxbit x hne]
      cases hbx : bb.testBit x
      · rw [if_neg (by simp [hbx]), if_neg (by simp [hbx])]
        exact hih
      · rw [if_pos (by simp [hbx]), if_pos (by simp [hbx]), List.foldl_cons,
          List.foldl_cons, foldl_xor_factor, foldl_xor_factor K _ (0 ^^^ K x),
          hih]
        simp only [Nat.zero_xor]
        rw [← Nat.xor_assoc, Nat.xor_comm (K x) (K s), Nat.xor_assoc]

/-- Toggling one square of a bitboard toggles its key in `xorKeys`. -/
theorem xorKeys_toggle (c : Color) (p : Piece) (bb s : Nat) (hs : s < 64) :
    xorKeys c p (bb ^^^ (1 <<< s)) = PIECE_KEYS c p s ^^^ xorKeys c p bb := by
  unfold xorKeys squaresList
  exact filter_foldl_xor_toggle _ bb s (List.range 64) (List.nodup_range 64)
    (List.mem_range.mpr hs)

/-- The from-scratch hash splits into its four independent contributions. -/
theorem generate_hash_key_split (P : Piece → Nat) (O : Color → Nat)
    (ep : Option Nat) (cr : Nat) (stm : Color) :
    generate_hash_key P O ep cr stm =
      hashPieces P O ^^^ epKeyOf ep ^^^ CASTLE_KEYS cr ^^^ sideKeyOf stm := by
  unfold generate_hash_key hashPieces epKeyOf sideKeyOf
  simp only [ALL_COLORS, ALL_PIECES, List.foldl_cons, List.foldl_nil,
    xorKeys_foldl]
  cases ep <;> cases stm <;> simp [Nat.xor_assoc]

/-- Setting an unset bit is the same as toggling it. -/
theorem or_eq_xor (a s : Nat) (h : a.testBit s = false) :
    a ||| (1 <<< s) = a ^^^ (1 <<< s) := by
  apply Nat.eq_of_testBit_eq
  intro i
  simp only [Nat.testBit_lor, Nat.testBit_xor, Nat.one_shiftLeft,
    Nat.testBit_two_pow]
  by_cases h2 : s = i <;> simp_all

/-- Toggling the same square on both sides of an intersection toggles the
intersection, provided the square's bit agrees on the two sides. -/
theorem land_xor_both (a b s : Nat) (h : a.testBit s = b.testBit s) :
    (a ^^^ (1 <<< s)) &&& (b ^^^ (1 <<< s)) = (a &&& b) ^^^ (1 <<< s) := by
  apply Nat.eq_of_testBit_eq
  intro i
  simp only [Nat.testBit_land, Nat.testBit_xor, Nat.one_shiftLeft,
    Nat.testBit_two_pow]
  by_cases h2 : s = i
  · subst h2
    rw [← h]
    cases hx : a.testBit s <;> simp
  · simp [h2]

/-- Toggling a square absent from the right side of an intersection leaves
the intersection unchanged. -/
theorem land_xor_left (a b s : Nat) (h : b.testBit s = false) :
    (a ^^^ (1 <<< s)) &&& b = a &&& b := by
  apply Nat.eq_of_testBit_eq
  intro i
  simp only [Nat.testBit_land, Nat.testBit_xor, Nat.one_shiftLeft,
    Nat.testBit_two_pow]
  by_cases h2 : s = i <;> simp_all

/-- Toggling a square absent from the left side of an intersection leaves
the intersection unchanged. -/
theorem land_xor_right (a b s : Nat) (h : a.testBit s = false) :
    a &&& (b ^^^ (1 <<< s)) = a &&& b := by
  apply Nat.eq_of_testBit_eq
  intro i
  simp only [Nat.testBit_land, Nat.testBit_xor, Nat.one_shiftLeft,
    Nat.testBit_two_pow]
  by_cases h2 : s = i <;> simp_all


/-- xor commutes past the first argument. -/
theorem xor_left_comm (a b c : Nat) : a ^^^ (b ^^^ c) = b ^^^ (a ^^^ c) := by
  rw [← Nat.xor_assoc, Nat.xor_comm a b, Nat.xor_assoc]
/-- Moving one piece of one color on or off a square `s` (toggling the
piece bitboard of `p₀` and the occupancy of `c₀` simultaneously) xors the
corresponding piece key into the piece contribution of the from-scratch
hash, provided no other piece bitboard and not the opposite occupancy holds
`s`. -/
theorem hashPieces_toggle (P : Piece → Nat) (O : Color → Nat) (p₀ : Piece)
    (c₀ : Color) (s : Nat) (hs : s < 64)
    (h1 : (P p₀).testBit s = (O c₀).testBit s)
    (h2 : ∀ p, p ≠ p₀ → (P p).testBit s = false)
    (h3 : (O c₀.opp).testBit s = false) :
    hashPieces (Function.update P p₀ (P p₀ ^^^ (1 <<< s)))
        (Function.update O c₀ (O c₀ ^^^ (1 <<< s))) =
      PIECE_KEYS c₀ p₀ s ^^^ hashPieces P O := by
  cases c₀ with
  | White =>
    cases p₀ with
    | Pawn =>
      simp [hashPieces]
      rw [land_xor_both _ _ _ h1,
        land_xor_right _ _ _ (h2 .Knight (by decide)),
        land_xor_right _ _ _ (h2 .Bishop (by decide)),
        land_xor_right _ _ _ (h2 .Rook (by decide)),
        land_xor_right _ _ _ (h2 .Queen (by decide)),
        land_xor_right _ _ _ (h2 .King (by decide)),
        land_xor_left _ _ _ (show (O Color.Black).testBit s = false from h3),
        xorKeys_toggle _ _ _ _ hs]
      ac_rfl
    | Knight =>
      simp [hashPieces]
      rw [land_xor_both _ _ _ h1,
        land_xor_right _ _ _ (h2 .Pawn (by decide)),
        land_xor_right _ _ _ (h2 .Bishop (by decide)),
        land_xor_right _ _ _ (h2 .Rook (by decide)),
        land_xor_right _ _ _ (h2 .Queen (by decide)),
        land_xor_right _ _ _ (h2 .King (by decide)),
        land_xor_left _ _ _ (show (O Color.Black).testBit s = false from h3),
        xorKeys_toggle _ _ _ _ hs]
      ac_rfl
    | Bishop =>
      simp [hashPieces]
      rw [land_xor_both _ _ _ h1,
        land_xor_right _ _ _ (h2 .Pawn (by decide)),
        land_xor_right _ _ _ (h2 .Knight (by decide)),
        land_xor_right _ _ _ (h2 .Rook (by decide)),
        land_xor_right _ _ _ (h2 .Queen (by decide)),
        land_xor_right _ _ _ (h2 .King (by decide)),
        land_xor_left _ _ _ (show (O Color.Black).testBit s = false from h3),
        xorKeys_toggle _ _ _ _ hs]
      ac_rfl
    | Rook =>
      simp [hashPieces]
      rw [land_xor_both _ _ _ h1,
        land_xor_right _ _ _ (h2 .Pawn (by decide)),
        land_xor_right _ _ _ (h2 .Knight (by decide)),
        land_xor_right _ _ _ (h2 .Bishop (by decide)),
        land_xor_right _ _ _ (h2 .Queen (by decide)),
        land_xor_right _ _ _ (h2 .King (by decide)),
        land_xor_left _ _ _ (show (O Color.Black).testBit s = false from h3),
        xorKeys_toggle _ _ _ _ hs]
      ac_rfl
    | Queen =>
      simp [hashPieces]
      rw [land_xor_both _ _ _ h1,
        land_xor_right _ _ _ (h2 .Pawn (by decide)),
        land_xor_right _ _ _ (h2 .Knight (by decide)),
        land_xor_right _ _ _ (h2 .Bishop (by decide)),
        land_xor_right _ _ _ (h2 .Rook (by decide)),
        land_xor_right _ _ _ (h2 .King (by decide)),
        land_xor_left _ _ _ (show (O Color.Black).testBit s = false from h3),
        xorKeys_toggle _ _ _ _ hs]
      ac_rfl
    | King =>
      simp [hashPieces]
      rw [land_xor_both _ _ _ h1,
        land_xor_right _ _ _ (h2 .Pawn (by decide)),
        land_xor_right _ _ _ (h2 .Knight (by decide)),
        land_xor_right _ _ _ (h2 .Bishop (by decide)),
        land_xor_right _ _ _ (h2 .Rook (by decide)),
        land_xor_right _ _ _ (h2 .Queen (by decide)),
        land_xor_left _ _ _ (show (O Color.Black).testBit s = false from h3),
        xorKeys_toggle _ _ _ _ hs]
      ac_rfl
  | Black =>
    cases p₀ with
    | Pawn =>
      simp [hashPieces]
      rw [land_xor_both _ _ _ h1,
        land_xor_right _ _ _ (h2 .Knight (by decide)),
        land_xor_right _ _ _ (h2 .Bishop (by decide)),
        land_xor_right _ _ _ (h2 .Rook (by decide)),
        land_xor_right _ _ _ (h2 .Queen (by decide)),
        land_xor_right _ _ _ (h2 .King (by decide)),
        land_xor_left _ _ _ (show (O Color.White).testBit s = false from h3),
        xorKeys_toggle _ _ _ _ hs]
      ac_rfl
    | Knight =>
      simp [hashPieces]
      rw [land_xor_both _ _ _ h1,
        land_xor_right _ _ _ (h2 .Pawn (by decide)),
        land_xor_right _ _ _ (h2 .Bishop (by decide)),
        land_xor_right _ _ _ (h2 .Rook (by decide)),
        land_xor_right _ _ _ (h2 .Queen (by decide)),
        land_xor_right _ _ _ (h2 .King (by decide)),
        land_xor_left _ _ _ (show (O Color.White).testBit s = false from h3),
        xorKeys_toggle _ _ _ _ hs]
      ac_rfl
    | Bishop =>
      simp [hashPieces]
      rw [land_xor_both _ _ _ h1,
        land_xor_right _ _ _ (h2 .Pawn (by decide)),
        land_xor_right _ _ _ (h2 .Knight (by decide)),
        land_xor_right _ _ _ (h2 .Rook (by decide)),
        land_xor_right _ _ _ (h2 .Queen (by decide)),
        land_xor_right _ _ _ (h2 .King (by decide)),
        land_xor_left _ _ _ (show (O Color.White).testBit s = false from h3),
        xorKeys_toggle _ _ _ _ hs]
      ac_rfl
    | Rook =>
      simp [hashPieces]
      rw [land_xor_both _ _ _ h1,
        land_xor_right _ _ _ (h2 .Pawn (by decide)),
        land_xor_right _ _ _ (h2 .Knight (by decide)),
        land_xor_right _ _ _ (h2 .Bishop (by decide)),
        land_xor_right _ _ _ (h2 .Queen (by decide)),
        land_xor_right _ _ _ (h2 .King (by decide)),
        land_xor_left _ _ _ (show (O Color.White).testBit s = false from h3),
        xorKeys_toggle _ _ _ _ hs]
      ac_rfl
    | Queen =>
      simp [hashPieces]
      rw [land_xor_both _ _ _ h1,
        land_xor_right _ _ _ (h2 .Pawn (by decide)),
        land_xor_right _ _ _ (h2 .Knight (by decide)),
        land_xor_right _ _ _ (h2 .Bishop (by decide)),
        land_xor_right _ _ _ (h2 .Rook (by decide)),
        land_xor_right _ _ _ (h2 .King (by decide)),
        land_xor_left _ _ _ (show (O Color.White).testBit s = false from h3),
        xorKeys_toggle _ _ _ _ hs]
      ac_rfl
    | King =>
      simp [hashPieces]
      rw [land_xor_both _ _ _ h1,
        land_xor_right _ _ _ (h2 .Pawn (by decide)),
        land_xor_right _ _ _ (h2 .Knight (by decide)),
        land_xor_right _ _ _ (h2 .Bishop (by decide)),
        land_xor_right _ _ _ (h2 .Rook (by decide)),
        land_xor_right _ _ _ (h2 .Queen (by decide)),
        land_xor_left _ _ _ (show (O Color.White).testBit s = false from h3),
        xorKeys_toggle _ _ _ _ hs]
      ac_rfl

/-- Clearing the en-passant file from the hash, written with `epKeyOf`. -/
theorem ep_clear_hash (h : Nat) (ep : Option Nat) :
    (match ep with
      | some e => h ^^^ EN_PASSANT_KEYS (sqFile e)
      | none => h) = h ^^^ epKeyOf ep := by
  cases ep <;> simp [epKeyOf]

/-- The two-branch castling-rights churn always xors the old and the new
castle keys into the hash (trivially so when nothing changes). -/
theorem rights_step_hash2 (cond : Prop) [Decidable cond] (h cr x : Nat) :
    (if cond then (h ^^^ CASTLE_KEYS cr ^^^ CASTLE_KEYS x, x) else (h, cr)).1 =
      h ^^^ CASTLE_KEYS cr ^^^
        CASTLE_KEYS
          (if cond then (h ^^^ CASTLE_KEYS cr ^^^ CASTLE_KEYS x, x)
            else (h, cr)).2 := by
  by_cases hc : cond <;> simp [hc, Nat.xor_cancel_right]

/-- The three-branch mover castling-rights churn always xors the old and the
new castle keys into the hash. -/
theorem rights_step_hash3 (cond1 cond2 : Prop) [Decidable cond1]
    [Decidable cond2] (h cr x y : Nat) :
    (if cond1 then (h ^^^ CASTLE_KEYS cr ^^^ CASTLE_KEYS x, x)
      else if cond2 then (h ^^^ CASTLE_KEYS cr ^^^ CASTLE_KEYS y, y)
      else (h, cr)).1 =
      h ^^^ CASTLE_KEYS cr ^^^
        CASTLE_KEYS
          (if cond1 then (h ^^^ CASTLE_KEYS cr ^^^ CASTLE_KEYS x, x)
            else if cond2 then (h ^^^ CASTLE_KEYS cr ^^^ CASTLE_KEYS y, y)
            else (h, cr)).2 := by
  by_cases hc1 : cond1
  · simp [hc1, Nat.xor_cancel_right]
  · by_cases hc2 : cond2 <;> simp [hc1, hc2, Nat.xor_cancel_right]

theorem applyMove_hash_trial (b : Board) (f t : Nat) (p : Piece)
    (hw : wfB b = true)
    (hm : moveOk b ⟨f, t, p, none, .Normal⟩ = true)
    (hh : b.state.hash = Board.genHash b) :
    (applyMove b ⟨f, t, p, none, .Normal⟩).state.hash =
      Board.genHash (applyMove b ⟨f, t, p, none, .Normal⟩) := by
  simp only [moveOk, Bool.and_eq_true, decide_eq_true_eq,
    Bool.not_eq_true'] at hm
  obtain ⟨⟨⟨⟨⟨⟨⟨hf64, ht64⟩, hft⟩, hpf⟩, huf⟩, hut⟩, hcomb⟩, -⟩ := hm
  have hpt := wf_piece_of_not_combined b hw p _ hcomb
  have hut2 : (b.occupancies b.side_to_move).testBit t = false := hut
  have hthemf := wf_occ_opp b hw b.side_to_move f huf
  have hthemt := wf_occ_of_not_combined b hw b.side_to_move.opp _ hcomb
  have hotherf : ∀ q, q ≠ p → (b.pieces q).testBit f = false :=
    fun q hq => wf_piece_ne b hw (fun hh2 => hq hh2.symm) f hpf
  have hothert : ∀ q, (b.pieces q).testBit t = false :=
    fun q => wf_piece_of_not_combined b hw q _ hcomb
  rw [Board.genHash] at hh
  rw [generate_hash_key_split] at hh
  obtain ⟨P, O, C, stm, hist, st, gp⟩ := b
  cases stm
  · simp only [applyMove, Board.genHash]
    simp only [ep_clear_hash]
    rw [generate_hash_key_split]
    simp [Color.opp]
    rw [rights_step_hash3, hh]
    have hPf : (P p).testBit f = true := hpf
    have hPt : (P p).testBit t = false := hpt
    have hOf : (O Color.White).testBit f = true := huf
    have hOt : (O Color.White).testBit t = false := hut2
    have hYf : (O Color.Black).testBit f = false := hthemf
    have hYt : (O Color.Black).testBit t = false := hthemt
    have hQf : ∀ q, q ≠ p → (P q).testBit f = false := hotherf
    have hQt : ∀ q, (P q).testBit t = false := hothert
    rw [show (P p ^^^ 1 <<< f ||| 1 <<< t) = (P p ^^^ 1 <<< f ^^^ 1 <<< t) from
      or_eq_xor _ _ (by
        simp [Nat.testBit_xor, Nat.one_shiftLeft, Nat.testBit_two_pow, hPt,
          hft])]
    rw [show (O Color.White ^^^ 1 <<< f ||| 1 <<< t) =
        (O Color.White ^^^ 1 <<< f ^^^ 1 <<< t) from
      or_eq_xor _ _ (by
        simp [Nat.testBit_xor, Nat.one_shiftLeft, Nat.testBit_two_pow, hOt,
          hft])]
    rw [show Function.update P p (P p ^^^ 1 <<< f ^^^ 1 <<< t) =
        Function.update (Function.update P p (P p ^^^ 1 <<< f)) p
          (Function.update P p (P p ^^^ 1 <<< f) p ^^^ 1 <<< t) from by
      simp [Function.update_idem]]
    rw [show Function.update O Color.White (O Color.White ^^^ 1 <<< f ^^^ 1 <<< t) =
        Function.update (Function.update O Color.White (O Color.White ^^^ 1 <<< f))
          Color.White
          (Function.update O Color.White (O Color.White ^^^ 1 <<< f) Color.White ^^^
            1 <<< t) from by
      simp [Function.update_idem]]
    rw [hashPieces_toggle _ _ p Color.White t ht64
      (by simp [Function.update_same, Nat.testBit_xor, Nat.one_shiftLeft,
        Nat.testBit_two_pow, hPt, hOt])
      (by
        intro q hq
        rw [Function.update_noteq hq]
        exact hQt q)
      (by
        rw [Function.update_noteq (by decide : Color.opp Color.White ≠ Color.White)]
        exact hYt)]
    rw [hashPieces_toggle _ _ p Color.White f hf64 (hPf.trans hOf.symm) hQf hYf]
    simp only [sideKeyOf, epKeyOf]
    simp [Nat.xor_assoc, Nat.xor_comm, xor_left_comm, Nat.xor_cancel_left,
      Nat.xor_cancel_right, Nat.xor_self, Nat.xor_zero, Nat.zero_xor]
  · simp only [applyMove, Board.genHash]
    simp only [ep_clear_hash]
    rw [generate_hash_key_split]
    simp [Color.opp]
    rw [rights_step_hash3, hh]
    have hPf : (P p).testBit f = true := hpf
    have hPt : (P p).testBit t = false := hpt
    have hOf : (O Color.Black).testBit f = true := huf
    have hOt : (O Color.Black).testBit t = false := hut2
    have hYf : (O Color.White).testBit f = false := hthemf
    have hYt : (O Color.White).testBit t = false := hthemt
    have hQf : ∀ q, q ≠ p → (P q).testBit f = false := hotherf
    have hQt : ∀ q, (P q).testBit t = false := hothert
    rw [show (P p ^^^ 1 <<< f ||| 1 <<< t) = (P p ^^^ 1 <<< f ^^^ 1 <<< t) from
      or_eq_xor _ _ (by
        simp [Nat.testBit_xor, Nat.one_shiftLeft, Nat.testBit_two_pow, hPt,
          hft])]
    rw [show (O Color.Black ^^^ 1 <<< f ||| 1 <<< t) =
        (O Color.Black ^^^ 1 <<< f ^^^ 1 <<< t) from
      or_eq_xor _ _ (by
        simp [Nat.testBit_xor, Nat.one_shiftLeft, Nat.testBit_two_pow, hOt,
          hft])]
    rw [show Function.update P p (P p ^^^ 1 <<< f ^^^ 1 <<< t) =
        Function.update (Function.update P p (P p ^^^ 1 <<< f)) p
          (Function.update P p (P p ^^^ 1 <<< f) p ^^^ 1 <<< t) from by
      simp [Function.update_idem]]
    rw [show Function.update O Color.Black (O Color.Black ^^^ 1 <<< f ^^^ 1 <<< t) =
        Function.update (Function.update O Color.Black (O Color.Black ^^^ 1 <<< f))
          Color.Black
          (Function.update O Color.Black (O Color.Black ^^^ 1 <<< f) Color.Black ^^^
            1 <<< t) from by
      simp [Function.update_idem]]
    rw [hashPieces_toggle _ _ p Color.Black t ht64
      (by simp [Function.update_same, Nat.testBit_xor, Nat.one_shiftLeft,
        Nat.testBit_two_pow, hPt, hOt])
      (by
        intro q hq
        rw [Function.update_noteq hq]
        exact hQt q)
      (by
        rw [Function.update_noteq (by decide : Color.opp Color.Black ≠ Color.Black)]
        exact hYt)]
    rw [hashPieces_toggle _ _ p Color.Black f hf64 (hPf.trans hOf.symm) hQf hYf]
    simp only [sideKeyOf, epKeyOf]
    simp [Nat.xor_assoc, Nat.xor_comm, xor_left_comm, Nat.xor_cancel_left,
      Nat.xor_cancel_right, Nat.xor_self, Nat.xor_zero, Nat.zero_xor]

/-- Clearing a set bit is the same as toggling it, stated for reuse. -/
theorem or_eq_self (a s : Nat) (h : a.testBit s = true) :
    a ||| (1 <<< s) = a := by
  apply Nat.eq_of_testBit_eq
  intro i
  simp only [Nat.testBit_lor, Nat.one_shiftLeft, Nat.testBit_two_pow]
  by_cases h2 : s = i <;> simp_all

theorem applyMove_hash_dpp (b : Board) (f t : Nat)
    (hw : wfB b = true)
    (hm : moveOk b ⟨f, t, .Pawn, none, .DoublePawnPush⟩ = true)
    (hh : b.state.hash = Board.genHash b) :
    (applyMove b ⟨f, t, .Pawn, none, .DoublePawnPush⟩).state.hash =
      Board.genHash (applyMove b ⟨f, t, .Pawn, none, .DoublePawnPush⟩) := by
  simp only [moveOk, Bool.and_eq_true, decide_eq_true_eq,
    Bool.not_eq_true'] at hm
  obtain ⟨⟨⟨⟨⟨⟨⟨hf64, ht64⟩, hft⟩, hpf⟩, huf⟩, hut⟩,
    ⟨⟨-, hcomb⟩, hfwd⟩, -⟩, -⟩ := hm
  have hpt := wf_piece_of_not_combined b hw .Pawn _ hcomb
  have hut2 : (b.occupancies b.side_to_move).testBit t = false := hut
  have hthemf := wf_occ_opp b hw b.side_to_move f huf
  have hthemt := wf_occ_of_not_combined b hw b.side_to_move.opp _ hcomb
  have hotherf : ∀ q, q ≠ Piece.Pawn → (b.pieces q).testBit f = false :=
    fun q hq => wf_piece_ne b hw (fun hh2 => hq hh2.symm) f hpf
  have hothert : ∀ q, (b.pieces q).testBit t = false :=
    fun q => wf_piece_of_not_combined b hw q _ hcomb
  rw [Board.genHash] at hh
  rw [generate_hash_key_split] at hh
  obtain ⟨P, O, C, stm, hist, st, gp⟩ := b
  cases stm
  · have hfwd2 : (sqForward Color.Black t).isSome = true := hfwd
    have ht8 : 8 ≤ t := by
      by_contra hc
      simp [sqForward, hc] at hfwd2
    have hfile : sqFile ((sqForward Color.Black t).getD 0) = sqFile t := by
      simp only [sqForward, if_pos ht8, Option.getD_some, sqFile]
      omega
    simp only [applyMove, Board.genHash]
    simp only [ep_clear_hash]
    rw [generate_hash_key_split]
    simp [Color.opp]
    rw [hh]
    have hPt : (P Piece.Pawn).testBit t = false := hpt
    have hOt : (O Color.White).testBit t = false := hut2
    rw [show (P Piece.Pawn ^^^ 1 <<< f ||| 1 <<< t) =
        (P Piece.Pawn ^^^ 1 <<< f ^^^ 1 <<< t) from
      or_eq_xor _ _ (by
        simp [Nat.testBit_xor, Nat.one_shiftLeft, Nat.testBit_two_pow, hPt,
          hft])]
    rw [show (O Color.White ^^^ 1 <<< f ||| 1 <<< t) =
        (O Color.White ^^^ 1 <<< f ^^^ 1 <<< t) from
      or_eq_xor _ _ (by
        simp [Nat.testBit_xor, Nat.one_shiftLeft, Nat.testBit_two_pow, hOt,
          hft])]
    rw [show Function.update P Piece.Pawn (P Piece.Pawn ^^^ 1 <<< f ^^^ 1 <<< t) =
        Function.update (Function.update P Piece.Pawn (P Piece.Pawn ^^^ 1 <<< f))
          Piece.Pawn
          (Function.update P Piece.Pawn (P Piece.Pawn ^^^ 1 <<< f) Piece.Pawn ^^^
            1 <<< t) from by
      simp [Function.update_idem]]
    rw [show Function.update O Color.White (O Color.White ^^^ 1 <<< f ^^^ 1 <<< t) =
        Function.update
          (Function.update O Color.White (O Color.White ^^^ 1 <<< f)) Color.White
          (Function.update O Color.White (O Color.White ^^^ 1 <<< f) Color.White ^^^
            1 <<< t) from by
      simp [Function.update_idem]]
    rw [hashPieces_toggle _ _ .Pawn Color.White t ht64
      (by simp [Function.update_same, Nat.testBit_xor, Nat.one_shiftLeft,
        Nat.testBit_two_pow, hPt, hOt])
      (by
        intro q hq
        rw [Function.update_noteq hq]
        exact hothert q)
      (by
        rw [Function.update_noteq (by decide : Color.opp Color.White ≠ Color.White)]
        exact hthemt)]
    rw [hashPieces_toggle _ _ .Pawn Color.White f hf64 (hpf.trans huf.symm)
      hotherf hthemf]
    simp only [sideKeyOf, epKeyOf]
    rw [hfile]
    simp [Nat.xor_assoc, Nat.xor_comm, xor_left_comm, Nat.xor_cancel_left,
      Nat.xor_cancel_right, Nat.xor_self, Nat.xor_zero, Nat.zero_xor]
  · have hfwd2 : (sqForward Color.White t).isSome = true := hfwd
    have ht56 : t + 8 < 64 := by
      by_contra hc
      simp [sqForward, hc] at hfwd2
    have hfile : sqFile ((sqForward Color.White t).getD 0) = sqFile t := by
      simp only [sqForward, if_pos ht56, Option.getD_some, sqFile]
      omega
    simp only [applyMove, Board.genHash]
    simp only [ep_clear_hash]
    rw [generate_hash_key_split]
    simp [Color.opp]
    rw [hh]
    have hPt : (P Piece.Pawn).testBit t = false := hpt
    have hOt : (O Color.Black).testBit t = false := hut2
    rw [show (P Piece.Pawn ^^^ 1 <<< f ||| 1 <<< t) =
        (P Piece.Pawn ^^^ 1 <<< f ^^^ 1 <<< t) from
      or_eq_xor _ _ (by
        simp [Nat.testBit_xor, Nat.one_shiftLeft, Nat.testBit_two_pow, hPt,
          hft])]
    rw [show (O Color.Black ^^^ 1 <<< f ||| 1 <<< t) =
        (O Color.Black ^^^ 1 <<< f ^^^ 1 <<< t) from
      or_eq_xor _ _ (by
        simp [Nat.testBit_xor, Nat.one_shiftLeft, Nat.testBit_two_pow, hOt,
          hft])]
    rw [show Function.update P Piece.Pawn (P Piece.Pawn ^^^ 1 <<< f ^^^ 1 <<< t) =
        Function.update (Function.update P Piece.Pawn (P Piece.Pawn ^^^ 1 <<< f))
          Piece.Pawn
          (Function.update P Piece.Pawn (P Piece.Pawn ^^^ 1 <<< f) Piece.Pawn ^^^
            1 <<< t) from by
      simp [Function.update_idem]]
    rw [show Function.update O Color.Black (O Color.Black ^^^ 1 <<< f ^^^ 1 <<< t) =
        Function.update
          (Function.update O Color.Black (O Color.Black ^^^ 1 <<< f)) Color.Black
          (Function.update O Color.Black (O Color.Black ^^^ 1 <<< f) Color.Black ^^^
            1 <<< t) from by
      simp [Function.update_idem]]
    rw [hashPieces_toggle _ _ .Pawn Color.Black t ht64
      (by simp [Function.update_same, Nat.testBit_xor, Nat.one_shiftLeft,
        Nat.testBit_two_pow, hPt, hOt])
      (by
        intro q hq
        rw [Function.update_noteq hq]
        exact hothert q)
      (by
        rw [Function.update_noteq (by decide : Color.opp Color.Black ≠ Color.Black)]
        exact hthemt)]
    rw [hashPieces_toggle _ _ .Pawn Color.Black f hf64 (hpf.trans huf.symm)
      hotherf hthemf]
    simp only [sideKeyOf, epKeyOf]
    rw [hfile]
    simp [Nat.xor_assoc, Nat.xor_comm, xor_left_comm, Nat.xor_cancel_left,
      Nat.xor_cancel_right, Nat.xor_self, Nat.xor_zero, Nat.zero_xor]

theorem applyMove_hash_promo (b : Board) (f t : Nat) (pr : Promotion)
    (hw : wfB b = true)
    (hm : moveOk b ⟨f, t, .Pawn, some pr, .Normal⟩ = true)
    (hh : b.state.hash = Board.genHash b) :
    (applyMove b ⟨f, t, .Pawn, some pr, .Normal⟩).state.hash =
      Board.genHash (applyMove b ⟨f, t, .Pawn, some pr, .Normal⟩) := by
  simp only [moveOk, Bool.and_eq_true, decide_eq_true_eq,
    Bool.not_eq_true'] at hm
  obtain ⟨⟨⟨⟨⟨⟨⟨hf64, ht64⟩, hft⟩, hpf⟩, huf⟩, hut⟩, hcomb⟩, -⟩ := hm
  have hprp := Promotion.as_piece_ne_pawn pr
  have hpt := wf_piece_of_not_combined b hw .Pawn _ hcomb
  have hut2 : (b.occupancies b.side_to_move).testBit t = false := hut
  have hthemf := wf_occ_opp b hw b.side_to_move f huf
  have hthemt := wf_occ_of_not_combined b hw b.side_to_move.opp _ hcomb
  have hotherf : ∀ q, q ≠ Piece.Pawn → (b.pieces q).testBit f = false :=
    fun q hq => wf_piece_ne b hw (fun hh2 => hq hh2.symm) f hpf
  have hothert : ∀ q, (b.pieces q).testBit t = false :=
    fun q => wf_piece_of_not_combined b hw q _ hcomb
  rw [Board.genHash] at hh
  rw [generate_hash_key_split] at hh
  obtain ⟨P, O, C, stm, hist, st, gp⟩ := b
  cases stm
  · simp only [applyMove, Board.genHash]
    simp only [ep_clear_hash]
    rw [generate_hash_key_split]
    simp [Color.opp, Function.update_noteq hprp]
    rw [hh]
    have hPf : (P Piece.Pawn).testBit f = true := hpf
    have hPt : (P Piece.Pawn).testBit t = false := hpt
    have hOf : (O Color.White).testBit f = true := huf
    have hOt : (O Color.White).testBit t = false := hut2
    have hYf : (O Color.Black).testBit f = false := hthemf
    have hYt : (O Color.Black).testBit t = false := hthemt
    have hQf : ∀ q, q ≠ Piece.Pawn → (P q).testBit f = false := hotherf
    have hQt : ∀ q, (P q).testBit t = false := hothert
    rw [show (P Piece.Pawn ^^^ 1 <<< f ||| 1 <<< t) =
        (P Piece.Pawn ^^^ 1 <<< f ^^^ 1 <<< t) from
      or_eq_xor _ _ (by
        simp [Nat.testBit_xor, Nat.one_shiftLeft, Nat.testBit_two_pow, hPt,
          hft])]
    rw [show (P Piece.Pawn ^^^ 1 <<< f ^^^ 1 <<< t ^^^ 1 <<< t) =
        (P Piece.Pawn ^^^ 1 <<< f) from Nat.xor_cancel_right _ _]
    rw [show (O Color.White ^^^ 1 <<< f ||| 1 <<< t) =
        (O Color.White ^^^ 1 <<< f ^^^ 1 <<< t) from
      or_eq_xor _ _ (by
        simp [Nat.testBit_xor, Nat.one_shiftLeft, Nat.testBit_two_pow, hOt,
          hft])]
    rw [show (P (Promotion.as_piece pr) ||| 1 <<< t) =
        (P (Promotion.as_piece pr) ^^^ 1 <<< t) from
      or_eq_xor _ _ (hQt _)]
    rw [show P (Promotion.as_piece pr) =
        Function.update P Piece.Pawn (P Piece.Pawn ^^^ 1 <<< f)
          (Promotion.as_piece pr) from (Function.update_noteq hprp _ _).symm]
    rw [show Function.update O Color.White (O Color.White ^^^ 1 <<< f ^^^ 1 <<< t) =
        Function.update (Function.update O Color.White (O Color.White ^^^ 1 <<< f))
          Color.White
          (Function.update O Color.White (O Color.White ^^^ 1 <<< f) Color.White ^^^
            1 <<< t) from by
      simp [Function.update_idem]]
    rw [hashPieces_toggle _ _ (Promotion.as_piece pr) Color.White t ht64
      (by simp [Function.update_noteq hprp, Function.update_same,
        Nat.testBit_xor, Nat.one_shiftLeft, Nat.testBit_two_pow, hQt, hOt, hft])
      (by
        intro q hq
        by_cases hq2 : q = Piece.Pawn
        · subst hq2
          simp [Function.update_same, Nat.testBit_xor, Nat.one_shiftLeft,
            Nat.testBit_two_pow, hPt, hft]
        · rw [Function.update_noteq hq2]
          exact hQt q)
      (by
        rw [Function.update_noteq (by decide : Color.opp Color.White ≠ Color.White)]
        exact hYt)]
    rw [hashPieces_toggle _ _ .Pawn Color.White f hf64 (hPf.trans hOf.symm) hQf hYf]
    simp only [sideKeyOf, epKeyOf]
    simp [Nat.xor_assoc, Nat.xor_comm, xor_left_comm, Nat.xor_cancel_left,
      Nat.xor_cancel_right, Nat.xor_self, Nat.xor_zero, Nat.zero_xor]
  · simp only [applyMove, Board.genHash]
    simp only [ep_clear_hash]
    rw [generate_hash_key_split]
    simp [Color.opp, Function.update_noteq hprp]
    rw [hh]
    have hPf : (P Piece.Pawn).testBit f = true := hpf
    have hPt : (P Piece.Pawn).testBit t = false := hpt
    have hOf : (O Color.Black).testBit f = true := huf
    have hOt : (O Color.Black).testBit t = false := hut2
    have hYf : (O Color.White).testBit f = false := hthemf
    have hYt : (O Color.White).testBit t = false := hthemt
    have hQf : ∀ q, q ≠ Piece.Pawn → (P q).testBit f = false := hotherf
    have hQt : ∀ q, (P q).testBit t = false := hothert
    rw [show (P Piece.Pawn ^^^ 1 <<< f ||| 1 <<< t) =
        (P Piece.Pawn ^^^ 1 <<< f ^^^ 1 <<< t) from
      or_eq_xor _ _ (by
        simp [Nat.testBit_xor, Nat.one_shiftLeft, Nat.testBit_two_pow, hPt,
          hft])]
    rw [show (P Piece.Pawn ^^^ 1 <<< f ^^^ 1 <<< t ^^^ 1 <<< t) =
        (P Piece.Pawn ^^^ 1 <<< f) from Nat.xor_cancel_right _ _]
    rw [show (O Color.Black ^^^ 1 <<< f ||| 1 <<< t) =
        (O Color.Black ^^^ 1 <<< f ^^^ 1 <<< t) from
      or_eq_xor _ _ (by
        simp [Nat.testBit_xor, Nat.one_shiftLeft, Nat.testBit_two_pow, hOt,
          hft])]
    rw [show (P (Promotion.as_piece pr) ||| 1 <<< t) =
        (P (Promotion.as_piece pr) ^^^ 1 <<< t) from
      or_eq_xor _ _ (hQt _)]
    rw [show P (Promotion.as_piece pr) =
        Function.update P Piece.Pawn (P Piece.Pawn ^^^ 1 <<< f)
          (Promotion.as_piece pr) from (Function.update_noteq hprp _ _).symm]
    rw [show Function.update O Color.Black (O Color.Black ^^^ 1 <<< f ^^^ 1 <<< t) =
        Function.update (Function.update O Color.Black (O Color.Black ^^^ 1 <<< f))
          Color.Black
          (Function.update O Color.Black (O Color.Black ^^^ 1 <<< f) Color.Black ^^^
            1 <<< t) from by
      simp [Function.update_idem]]
    rw [hashPieces_toggle _ _ (Promotion.as_piece pr) Color.Black t ht64
      (by simp [Function.update_noteq hprp, Function.update_same,
        Nat.testBit_xor, Nat.one_shiftLeft, Nat.testBit_two_pow, hQt, hOt, hft])
      (by
        intro q hq
        by_cases hq2 : q = Piece.Pawn
        · subst hq2
          simp [Function.update_same, Nat.testBit_xor, Nat.one_shiftLeft,
            Nat.testBit_two_pow, hPt, hft]
        · rw [Function.update_noteq hq2]
          exact hQt q)
      (by
        rw [Function.update_noteq (by decide : Color.opp Color.Black ≠ Color.Black)]
        exact hYt)]
    rw [hashPieces_toggle _ _ .Pawn Color.Black f hf64 (hPf.trans hOf.symm) hQf hYf]
    simp only [sideKeyOf, epKeyOf]
    simp [Nat.xor_assoc, Nat.xor_comm, xor_left_comm, Nat.xor_cancel_left,
      Nat.xor_cancel_right, Nat.xor_self, Nat.xor_zero, Nat.zero_xor]

theorem applyMove_hash_cap (b : Board) (f t : Nat) (p : Piece)
    (hw : wfB b = true)
    (hm : moveOk b ⟨f, t, p, none, .Capture⟩ = true)
    (hh : b.state.hash = Board.genHash b) :
    (applyMove b ⟨f, t, p, none, .Capture⟩).state.hash =
      Board.genHash (applyMove b ⟨f, t, p, none, .Capture⟩) := by
  simp only [moveOk, Bool.and_eq_true, decide_eq_true_eq,
    Bool.not_eq_true'] at hm
  obtain ⟨⟨⟨⟨⟨⟨⟨hf64, ht64⟩, hft⟩, hpf⟩, huf⟩, hut⟩, hYt0, hsome⟩, -⟩ := hm
  obtain ⟨q, hq⟩ := Option.isSome_iff_exists.mp hsome
  have hPqt := (piece_at_spec b t q hq).2
  have hothertq : ∀ r, r ≠ q → (b.pieces r).testBit t = false :=
    fun r hr => wf_piece_ne b hw (fun e => hr e.symm) t hPqt
  have hut2 : (b.occupancies b.side_to_move).testBit t = false := hut
  have hthemf := wf_occ_opp b hw b.side_to_move f huf
  have hotherf : ∀ r, r ≠ p → (b.pieces r).testBit f = false :=
    fun r hr => wf_piece_ne b hw (fun e => hr e.symm) f hpf
  rw [Board.genHash] at hh
  rw [generate_hash_key_split] at hh
  obtain ⟨P, O, C, stm, hist, st, gp⟩ := b
  cases stm
  · have hPf : (P p).testBit f = true := hpf
    have hOf : (O Color.White).testBit f = true := huf
    have hOt : (O Color.White).testBit t = false := hut2
    have hYf : (O Color.Black).testBit f = false := hthemf
    have hYt : (O Color.Black).testBit t = true := hYt0
    have hPqt2 : (P q).testBit t = true := hPqt
    have hQf : ∀ r, r ≠ p → (P r).testBit f = false := hotherf
    have hQt : ∀ r, r ≠ q → (P r).testBit t = false := hothertq
    by_cases hqp : q = p
    · rw [hqp] at hq hPqt2 hQt
      simp only [applyMove, Board.genHash]
      simp only [ep_clear_hash]
      rw [generate_hash_key_split]
      simp [Color.opp, hq]
      rw [rights_step_hash3, rights_step_hash2, hh]
      simp only [apply_ite Prod.snd]
      rw [show (P p ^^^ 1 <<< f ||| 1 <<< t) = (P p ^^^ 1 <<< f) from
        or_eq_self _ _ (by simp [Nat.testBit_xor, Nat.one_shiftLeft,
          Nat.testBit_two_pow, hPqt2, hft])]
      rw [show (P p ^^^ 1 <<< f) =
          (P p ^^^ 1 <<< f ^^^ 1 <<< t ^^^ 1 <<< t) from
        (Nat.xor_cancel_right _ _).symm]
      rw [show Function.update P p (P p ^^^ 1 <<< f ^^^ 1 <<< t ^^^ 1 <<< t) =
          Function.update
            (Function.update (Function.update P p (P p ^^^ 1 <<< f)) p
              (Function.update P p (P p ^^^ 1 <<< f) p ^^^ 1 <<< t)) p
            (Function.update (Function.update P p (P p ^^^ 1 <<< f)) p
              (Function.update P p (P p ^^^ 1 <<< f) p ^^^ 1 <<< t) p ^^^
              1 <<< t) from by
        simp [Function.update_idem, Function.update_same]]
      rw [show Function.update
            (Function.update O Color.White (O Color.White ^^^ 1 <<< f ||| 1 <<< t))
            Color.Black (O Color.Black ^^^ 1 <<< t) =
          Function.update
            (Function.update
              (Function.update O Color.White (O Color.White ^^^ 1 <<< f)) Color.Black
              (Function.update O Color.White (O Color.White ^^^ 1 <<< f) Color.Black ^^^
                1 <<< t)) Color.White
            (Function.update
              (Function.update O Color.White (O Color.White ^^^ 1 <<< f)) Color.Black
              (Function.update O Color.White (O Color.White ^^^ 1 <<< f) Color.Black ^^^
                1 <<< t) Color.White ^^^ 1 <<< t) from by
        funext c
        cases c
        · simp [Function.update_apply]
          exact or_eq_xor _ _ (by simp [Nat.testBit_xor, Nat.one_shiftLeft,
            Nat.testBit_two_pow, hOt, hft])
        · simp [Function.update_apply]]
      rw [hashPieces_toggle _ _ p Color.White t ht64
        (by simp [Function.update_apply, Nat.testBit_xor, Nat.one_shiftLeft,
          Nat.testBit_two_pow, hPqt2, hOt, hft])
        (by
          intro r hr
          simp [Function.update_apply, hr]
          exact hQt r hr)
        (by simp [Color.opp, Function.update_apply, Nat.testBit_xor,
          Nat.one_shiftLeft, Nat.testBit_two_pow, hYt, hft])]
      rw [hashPieces_toggle _ _ p Color.Black t ht64
        (by simp [Function.update_apply, Nat.testBit_xor, Nat.one_shiftLeft,
          Nat.testBit_two_pow, hPqt2, hYt, hft])
        (by
          intro r hr
          simp [Function.update_apply, hr]
          exact hQt r hr)
        (by simp [Color.opp, Function.update_apply, Nat.testBit_xor,
          Nat.one_shiftLeft, Nat.testBit_two_pow, hOt, hft])]
      rw [hashPieces_toggle _ _ p Color.White f hf64 (hPf.trans hOf.symm) hQf hYf]
      simp only [sideKeyOf, epKeyOf]
      simp [Nat.xor_assoc, Nat.xor_comm, xor_left_comm, Nat.xor_cancel_left,
        Nat.xor_cancel_right, Nat.xor_self, Nat.xor_zero, Nat.zero_xor]
    · simp only [applyMove, Board.genHash]
      simp only [ep_clear_hash]
      rw [generate_hash_key_split]
      simp [Color.opp, hq, hqp, Function.update_noteq hqp]
      rw [rights_step_hash3, rights_step_hash2, hh]
      simp only [apply_ite Prod.snd]
      rw [show Function.update
            (Function.update P p (P p ^^^ 1 <<< f ||| 1 <<< t)) q
            (P q ^^^ 1 <<< t) =
          Function.update
            (Function.update (Function.update P p (P p ^^^ 1 <<< f)) q
              (Function.update P p (P p ^^^ 1 <<< f) q ^^^ 1 <<< t)) p
            (Function.update (Function.update P p (P p ^^^ 1 <<< f)) q
              (Function.update P p (P p ^^^ 1 <<< f) q ^^^ 1 <<< t) p ^^^
              1 <<< t) from by
        funext x
        by_cases hx1 : x = p
        · rw [hx1]
          simp [Function.update_apply, hqp, Ne.symm hqp]
          exact or_eq_xor _ _ (by simp [Nat.testBit_xor, Nat.one_shiftLeft,
            Nat.testBit_two_pow, hQt p (Ne.symm hqp), hft])
        · by_cases hx2 : x = q
          · rw [hx2]
            simp [Function.update_apply, hqp]
          · simp [Function.update_apply, hx1, hx2]]
      rw [show Function.update
            (Function.update O Color.White (O Color.White ^^^ 1 <<< f ||| 1 <<< t))
            Color.Black (O Color.Black ^^^ 1 <<< t) =
          Function.update
            (Function.update
              (Function.update O Color.White (O Color.White ^^^ 1 <<< f)) Color.Black
              (Function.update O Color.White (O Color.White ^^^ 1 <<< f) Color.Black ^^^
                1 <<< t)) Color.White
            (Function.update
              (Function.update O Color.White (O Color.White ^^^ 1 <<< f)) Color.Black
              (Function.update O Color.White (O Color.White ^^^ 1 <<< f) Color.Black ^^^
                1 <<< t) Color.White ^^^ 1 <<< t) from by
        funext c
        cases c
        · simp [Function.update_apply]
          exact or_eq_xor _ _ (by simp [Nat.testBit_xor, Nat.one_shiftLeft,
            Nat.testBit_two_pow, hOt, hft])
        · simp [Function.update_apply]]
      rw [hashPieces_toggle _ _ p Color.White t ht64
        (by simp [Function.update_apply, Ne.symm hqp, Nat.testBit_xor,
          Nat.one_shiftLeft, Nat.testBit_two_pow, hQt p (Ne.symm hqp), hOt, hft])
        (by
          intro r hr
          by_cases hr2 : r = q
          · rw [hr2]
            simp [Function.update_apply, Nat.testBit_xor, Nat.one_shiftLeft,
              Nat.testBit_two_pow, hqp, hPqt2]
          · simp [Function.update_apply, hr, hr2]
            exact hQt r hr2)
        (by simp [Color.opp, Function.update_apply, Nat.testBit_xor,
          Nat.one_shiftLeft, Nat.testBit_two_pow, hYt, hft])]
      rw [hashPieces_toggle _ _ q Color.Black t ht64
        (by simp [Function.update_apply, hqp, Nat.testBit_xor, Nat.one_shiftLeft,
          Nat.testBit_two_pow, hPqt2, hYt, hft])
        (by
          intro r hr
          by_cases hr2 : r = p
          · rw [hr2]
            simp [Function.update_apply, Nat.testBit_xor, Nat.one_shiftLeft,
              Nat.testBit_two_pow, hQt p (Ne.symm hqp), hft]
          · simp [Function.update_apply, hr2]
            exact hQt r hr)
        (by simp [Color.opp, Function.update_apply, Nat.testBit_xor,
          Nat.one_shiftLeft, Nat.testBit_two_pow, hOt, hft])]
      rw [hashPieces_toggle _ _ p Color.White f hf64 (hPf.trans hOf.symm) hQf hYf]
      simp only [sideKeyOf, epKeyOf]
      simp [Nat.xor_assoc, Nat.xor_comm, xor_left_comm, Nat.xor_cancel_left,
        Nat.xor_cancel_right, Nat.xor_self, Nat.xor_zero, Nat.zero_xor]
  · have hPf : (P p).testBit f = true := hpf
    have hOf : (O Color.Black).testBit f = true := huf
    have hOt : (O Color.Black).testBit t = false := hut2
    have hYf : (O Color.White).testBit f = false := hthemf
    have hYt : (O Color.White).testBit t = true := hYt0
    have hPqt2 : (P q).testBit t = true := hPqt
    have hQf : ∀ r, r ≠ p → (P r).testBit f = false := hotherf
    have hQt : ∀ r, r ≠ q → (P r).testBit t = false := hothertq
    by_cases hqp : q = p
    · rw [hqp] at hq hPqt2 hQt
      simp only [applyMove, Board.genHash]
      simp only [ep_clear_hash]
      rw [generate_hash_key_split]
      simp [Color.opp, hq]
      rw [rights_step_hash3, rights_step_hash2, hh]
      simp only [apply_ite Prod.snd]
      rw [show (P p ^^^ 1 <<< f ||| 1 <<< t) = (P p ^^^ 1 <<< f) from
        or_eq_self _ _ (by simp [Nat.testBit_xor, Nat.one_shiftLeft,
          Nat.testBit_two_pow, hPqt2, hft])]
      rw [show (P p ^^^ 1 <<< f) =
          (P p ^^^ 1 <<< f ^^^ 1 <<< t ^^^ 1 <<< t) from
        (Nat.xor_cancel_right _ _).symm]
      rw [show Function.update P p (P p ^^^ 1 <<< f ^^^ 1 <<< t ^^^ 1 <<< t) =
          Function.update
            (Function.update (Function.update P p (P p ^^^ 1 <<< f)) p
              (Function.update P p (P p ^^^ 1 <<< f) p ^^^ 1 <<< t)) p
            (Function.update (Function.update P p (P p ^^^ 1 <<< f)) p
              (Function.update P p (P p ^^^ 1 <<< f) p ^^^ 1 <<< t) p ^^^
              1 <<< t) from by
        simp [Function.update_idem, Function.update_same]]
      rw [show Function.update
            (Function.update O Color.Black (O Color.Black ^^^ 1 <<< f ||| 1 <<< t))
            Color.White (O Color.White ^^^ 1 <<< t) =
          Function.update
            (Function.update
              (Function.update O Color.Black (O Color.Black ^^^ 1 <<< f)) Color.White
              (Function.update O Color.Black (O Color.Black ^^^ 1 <<< f) Color.White ^^^
                1 <<< t)) Color.Black
            (Function.update
              (Function.update O Color.Black (O Color.Black ^^^ 1 <<< f)) Color.White
              (Function.update O Color.Black (O Color.Black ^^^ 1 <<< f) Color.White ^^^
                1 <<< t) Color.Black ^^^ 1 <<< t) from by
        funext c
        cases c
        · simp [Function.update_apply]
        · simp [Function.update_apply]
          exact or_eq_xor _ _ (by simp [Nat.testBit_xor, Nat.one_shiftLeft,
            Nat.testBit_two_pow, hOt, hft])]
      rw [hashPieces_toggle _ _ p Color.Black t ht64
        (by simp [Function.update_apply, Nat.testBit_xor, Nat.one_shiftLeft,
          Nat.testBit_two_pow, hPqt2, hOt, hft])
        (by
          intro r hr
          simp [Function.update_apply, hr]
          exact hQt r hr)
        (by simp [Color.opp, Function.update_apply, Nat.testBit_xor,
          Nat.one_shiftLeft, Nat.testBit_two_pow, hYt, hft])]
      rw [hashPieces_toggle _ _ p Color.White t ht64
        (by simp [Function.update_apply, Nat.testBit_xor, Nat.one_shiftLeft,
          Nat.testBit_two_pow, hPqt2, hYt, hft])
        (by
          intro r hr
          simp [Function.update_apply, hr]
          exact hQt r hr)
        (by simp [Color.opp, Function.update_apply, Nat.testBit_xor,
          Nat.one_shiftLeft, Nat.testBit_two_pow, hOt, hft])]
      rw [hashPieces_toggle _ _ p Color.Black f hf64 (hPf.trans hOf.symm) hQf hYf]
      simp only [sideKeyOf, epKeyOf]
      simp [Nat.xor_assoc, Nat.xor_comm, xor_left_comm, Nat.xor_cancel_left,
        Nat.xor_cancel_right, Nat.xor_self, Nat.xor_zero, Nat.zero_xor]
    · simp only [applyMove, Board.genHash]
      simp only [ep_clear_hash]
      rw [generate_hash_key_split]
      simp [Color.opp, hq, hqp, Function.update_noteq hqp]
      rw [rights_step_hash3, rights_step_hash2, hh]
      simp only [apply_ite Prod.snd]
      rw [show Function.update
            (Function.update P p (P p ^^^ 1 <<< f ||| 1 <<< t)) q
            (P q ^^^ 1 <<< t) =
          Function.update
            (Function.update (Function.update P p (P p ^^^ 1 <<< f)) q
              (Function.update P p (P p ^^^ 1 <<< f) q ^^^ 1 <<< t)) p
            (Function.update (Function.update P p (P p ^^^ 1 <<< f)) q
              (Function.update P p (P p ^^^ 1 <<< f) q ^^^ 1 <<< t) p ^^^
              1 <<< t) from by
        funext x
        by_cases hx1 : x = p
        · rw [hx1]
          simp [Function.update_apply, hqp, Ne.symm hqp]
          exact or_eq_xor _ _ (by simp [Nat.testBit_xor, Nat.one_shiftLeft,
            Nat.testBit_two_pow, hQt p (Ne.symm hqp), hft])
        · by_cases hx2 : x = q
          · rw [hx2]
            simp [Function.update_apply, hqp]
          · simp [Function.update_apply, hx1, hx2]]
      rw [show Function.update
            (Function.update O Color.Black (O Color.Black ^^^ 1 <<< f ||| 1 <<< t))
            Color.White (O Color.White ^^^ 1 <<< t) =
          Function.update
            (Function.update
              (Function.update O Color.Black (O Color.Black ^^^ 1 <<< f)) Color.White
              (Function.update O Color.Black (O Color.Black ^^^ 1 <<< f) Color.White ^^^
                1 <<< t)) Color.Black
            (Function.update
              (Function.update O Color.Black (O Color.Black ^^^ 1 <<< f)) Color.White
              (Function.update O Color.Black (O Color.Black ^^^ 1 <<< f) Color.White ^^^
                1 <<< t) Color.Black ^^^ 1 <<< t) from by
        funext c
        cases c
        · simp [Function.update_apply]
        · simp [Function.update_apply]
          exact or_eq_xor _ _ (by simp [Nat.testBit_xor, Nat.one_shiftLeft,
            Nat.testBit_two_pow, hOt, hft])]
      rw [hashPieces_toggle _ _ p Color.Black t ht64
        (by simp [Function.update_apply, Ne.symm hqp, Nat.testBit_xor,
          Nat.one_shiftLeft, Nat.testBit_two_pow, hQt p (Ne.symm hqp), hOt, hft])
        (by
          intro r hr
          by_cases hr2 : r = q
          · rw [hr2]
            simp [Function.update_apply, Nat.testBit_xor, Nat.one_shiftLeft,
              Nat.testBit_two_pow, hqp, hPqt2]
          · simp [Function.update_apply, hr, hr2]
            exact hQt r hr2)
        (by simp [Color.opp, Function.update_apply, Nat.testBit_xor,
          Nat.one_shiftLeft, Nat.testBit_two_pow, hYt, hft])]
      rw [hashPieces_toggle _ _ q Color.White t ht64
        (by simp [Function.update_apply, hqp, Nat.testBit_xor, Nat.one_shiftLeft,
          Nat.testBit_two_pow, hPqt2, hYt, hft])
        (by
          intro r hr
          by_cases hr2 : r = p
          · rw [hr2]
            simp [Function.update_apply, Nat.testBit_xor, Nat.one_shiftLeft,
              Nat.testBit_two_pow, hQt p (Ne.symm hqp), hft]
          · simp [Function.update_apply, hr2]
            exact hQt r hr)
        (by simp [Color.opp, Function.update_apply, Nat.testBit_xor,
          Nat.one_shiftLeft, Nat.testBit_two_pow, hOt, hft])]
      rw [hashPieces_toggle _ _ p Color.Black f hf64 (hPf.trans hOf.symm) hQf hYf]
      simp only [sideKeyOf, epKeyOf]
      simp [Nat.xor_assoc, Nat.xor_comm, xor_left_comm, Nat.xor_cancel_left,
        Nat.xor_cancel_right, Nat.xor_self, Nat.xor_zero, Nat.zero_xor]

theorem applyMove_hash_cappromo (b : Board) (f t : Nat) (pr : Promotion)
    (hw : wfB b = true)
    (hm : moveOk b ⟨f, t, .Pawn, some pr, .Capture⟩ = true)
    (hh : b.state.hash = Board.genHash b) :
    (applyMove b ⟨f, t, .Pawn, some pr, .Capture⟩).state.hash =
      Board.genHash (applyMove b ⟨f, t, .Pawn, some pr, .Capture⟩) := by
  simp only [moveOk, Bool.and_eq_true, decide_eq_true_eq,
    Bool.not_eq_true'] at hm
  obtain ⟨⟨⟨⟨⟨⟨⟨hf64, ht64⟩, hft⟩, hpf⟩, huf⟩, hut⟩, hYt0, hsome⟩, -⟩ := hm
  obtain ⟨q, hq⟩ := Option.isSome_iff_exists.mp hsome
  have hprp := Promotion.as_piece_ne_pawn pr
  have hPqt := (piece_at_spec b t q hq).2
  have hothertq : ∀ r, r ≠ q → (b.pieces r).testBit t = false :=
    fun r hr => wf_piece_ne b hw (fun e => hr e.symm) t hPqt
  have hut2 : (b.occupancies b.side_to_move).testBit t = false := hut
  have hthemf := wf_occ_opp b hw b.side_to_move f huf
  have hotherf : ∀ r, r ≠ Piece.Pawn → (b.pieces r).testBit f = false :=
    fun r hr => wf_piece_ne b hw (fun e => hr e.symm) f hpf
  rw [Board.genHash] at hh
  rw [generate_hash_key_split] at hh
  obtain ⟨P, O, C, stm, hist, st, gp⟩ := b
  cases stm
  · have hPf : (P Piece.Pawn).testBit f = true := hpf
    have hOf : (O Color.White).testBit f = true := huf
    have hOt : (O Color.White).testBit t = false := hut2
    have hYf : (O Color.Black).testBit f = false := hthemf
    have hYt : (O Color.Black).testBit t = true := hYt0
    have hPqt2 : (P q).testBit t = true := hPqt
    have hQf : ∀ r, r ≠ Piece.Pawn → (P r).testBit f = false := hotherf
    have hQt : ∀ r, r ≠ q → (P r).testBit t = false := hothertq
    by_cases hqpawn : q = Piece.Pawn
    · rw [hqpawn] at hq hPqt2 hQt
      simp only [applyMove, Board.genHash]
      simp only [ep_clear_hash]
      rw [generate_hash_key_split]
      simp [Color.opp, hq, Function.update_noteq hprp]
      rw [hh]
      rw [show Function.update
            (Function.update P Piece.Pawn
              ((P Piece.Pawn ^^^ 1 <<< f ||| 1 <<< t) ^^^ 1 <<< t))
            (Promotion.as_piece pr) (P (Promotion.as_piece pr) ||| 1 <<< t) =
          Function.update
            (Function.update
            (Function.update P Piece.Pawn (P Piece.Pawn ^^^ 1 <<< f)) Piece.Pawn
            ((Function.update P Piece.Pawn (P Piece.Pawn ^^^ 1 <<< f)) Piece.Pawn ^^^ 1 <<< t)) (Promotion.as_piece pr)
            ((Function.update
            (Function.update P Piece.Pawn (P Piece.Pawn ^^^ 1 <<< f)) Piece.Pawn
            ((Function.update P Piece.Pawn (P Piece.Pawn ^^^ 1 <<< f)) Piece.Pawn ^^^ 1 <<< t)) (Promotion.as_piece pr) ^^^ 1 <<< t) from by
        funext x
        by_cases hx1 : x = Piece.Pawn
        · rw [hx1]
          simp [Function.update_apply, Ne.symm hprp]
          rw [or_eq_self _ _ (by simp [Nat.testBit_xor, Nat.one_shiftLeft,
            Nat.testBit_two_pow, hPqt2, hft])]
        · by_cases hx3 : x = Promotion.as_piece pr
          · rw [hx3]
            simp [Function.update_apply, hprp]
            exact or_eq_xor _ _ (hQt _ hprp)
          · simp [Function.update_apply, hx1, hx3]]
      rw [show Function.update
            (Function.update O Color.White (O Color.White ^^^ 1 <<< f ||| 1 <<< t))
            Color.Black (O Color.Black ^^^ 1 <<< t) =
          Function.update
            (Function.update
              (Function.update O Color.White (O Color.White ^^^ 1 <<< f)) Color.Black
              (Function.update O Color.White (O Color.White ^^^ 1 <<< f) Color.Black ^^^
                1 <<< t)) Color.White
            (Function.update
              (Function.update O Color.White (O Color.White ^^^ 1 <<< f)) Color.Black
              (Function.update O Color.White (O Color.White ^^^ 1 <<< f) Color.Black ^^^
                1 <<< t) Color.White ^^^ 1 <<< t) from by
        funext c
        cases c
        · simp [Function.update_apply]
          exact or_eq_xor _ _ (by simp [Nat.testBit_xor, Nat.one_shiftLeft,
            Nat.testBit_two_pow, hOt, hft])
        · simp [Function.update_apply]]
      rw [hashPieces_toggle _ _ (Promotion.as_piece pr) Color.White t ht64
        (by simp [Function.update_apply, hprp, Nat.testBit_xor,
          Nat.one_shiftLeft, Nat.testBit_two_pow, hQt _ hprp, hOt, hft])
        (by
          intro r hr
          by_cases hr2 : r = Piece.Pawn
          · rw [hr2]
            simp [Function.update_apply, Nat.testBit_xor, Nat.one_shiftLeft,
              Nat.testBit_two_pow, hPqt2, hft]
          · simp [Function.update_apply, hr, hr2]
            exact hQt r hr2)
        (by simp [Color.opp, Function.update_apply, Nat.testBit_xor,
          Nat.one_shiftLeft, Nat.testBit_two_pow, hYt, hft])]
      rw [hashPieces_toggle _ _ Piece.Pawn Color.Black t ht64
        (by simp [Function.update_apply, Nat.testBit_xor, Nat.one_shiftLeft,
          Nat.testBit_two_pow, hPqt2, hYt, hft])
        (by
          intro r hr
          simp [Function.update_apply, hr]
          exact hQt r hr)
        (by simp [Color.opp, Function.update_apply, Nat.testBit_xor,
          Nat.one_shiftLeft, Nat.testBit_two_pow, hOt, hft])]
      rw [hashPieces_toggle _ _ Piece.Pawn Color.White f hf64
        (hPf.trans hOf.symm) hQf hYf]
      simp only [sideKeyOf, epKeyOf]
      simp [Nat.xor_assoc, Nat.xor_comm, xor_left_comm, Nat.xor_cancel_left,
        Nat.xor_cancel_right, Nat.xor_self, Nat.xor_zero, Nat.zero_xor]
    · by_cases hqpr : q = Promotion.as_piece pr
      · rw [hqpr] at hq hPqt2 hQt
        simp only [applyMove, Board.genHash]
        simp only [ep_clear_hash]
        rw [generate_hash_key_split]
        simp [Color.opp, hq, hprp, Function.update_noteq hprp,
          Function.update_noteq (Ne.symm hprp)]
        rw [rights_step_hash2, hh]
        simp only [apply_ite Prod.snd]
        rw [show Function.update
              (Function.update
                (Function.update
                  (Function.update P Piece.Pawn
                    (P Piece.Pawn ^^^ 1 <<< f ||| 1 <<< t))
                  (Promotion.as_piece pr) (P (Promotion.as_piece pr) ^^^ 1 <<< t))
                Piece.Pawn ((P Piece.Pawn ^^^ 1 <<< f ||| 1 <<< t) ^^^ 1 <<< t))
              (Promotion.as_piece pr)
              ((P (Promotion.as_piece pr) ^^^ 1 <<< t) ||| 1 <<< t) =
            Function.update
            (Function.update
            (Function.update P Piece.Pawn (P Piece.Pawn ^^^ 1 <<< f)) (Promotion.as_piece pr)
            ((Function.update P Piece.Pawn (P Piece.Pawn ^^^ 1 <<< f)) (Promotion.as_piece pr) ^^^ 1 <<< t)) (Promotion.as_piece pr)
            ((Function.update
            (Function.update P Piece.Pawn (P Piece.Pawn ^^^ 1 <<< f)) (Promotion.as_piece pr)
            ((Function.update P Piece.Pawn (P Piece.Pawn ^^^ 1 <<< f)) (Promotion.as_piece pr) ^^^ 1 <<< t)) (Promotion.as_piece pr) ^^^ 1 <<< t) from by
          funext x
          by_cases hx1 : x = Piece.Pawn
          · rw [hx1]
            simp [Function.update_apply, Ne.symm hprp]
            rw [or_eq_xor _ _ (by simp [Nat.testBit_xor, Nat.one_shiftLeft,
              Nat.testBit_two_pow, hQt Piece.Pawn (Ne.symm hprp), hft]),
              Nat.xor_cancel_right]
          · by_cases hx3 : x = Promotion.as_piece pr
            · rw [hx3]
              simp [Function.update_apply, hprp]
              exact or_eq_xor _ _ (by simp [Nat.testBit_xor, Nat.one_shiftLeft,
                Nat.testBit_two_pow, hPqt2])
            · simp [Function.update_apply, hx1, hx3]]
        rw [  show Function.update
              (Function.update O Color.White (O Color.White ^^^ 1 <<< f ||| 1 <<< t))
              Color.Black (O Color.Black ^^^ 1 <<< t) =
            Function.update
              (Function.update
                (Function.update O Color.White (O Color.White ^^^ 1 <<< f)) Color.Black
                (Function.update O Color.White (O Color.White ^^^ 1 <<< f) Color.Black ^^^
                  1 <<< t)) Color.White
              (Function.update
                (Function.update O Color.White (O Color.White ^^^ 1 <<< f)) Color.Black
                (Function.update O Color.White (O Color.White ^^^ 1 <<< f) Color.Black ^^^
                  1 <<< t) Color.White ^^^ 1 <<< t) from by
          funext c
          cases c
          · simp [Function.update_apply]
            exact or_eq_xor _ _ (by simp [Nat.testBit_xor, Nat.one_shiftLeft,
              Nat.testBit_two_pow, hOt, hft])
          · simp [Function.update_apply]]
        rw [hashPieces_toggle _ _ (Promotion.as_piece pr) Color.White t ht64
          (by simp [Function.update_apply, hprp, Nat.testBit_xor,
            Nat.one_shiftLeft, Nat.testBit_two_pow, hPqt2, hOt, hft])
          (by
            intro r hr
            by_cases hr2 : r = Piece.Pawn
            · rw [hr2]
              simp [Function.update_apply, Ne.symm hprp, Nat.testBit_xor,
                Nat.one_shiftLeft, Nat.testBit_two_pow,
                hQt Piece.Pawn (Ne.symm hprp), hft]
            · simp [Function.update_apply, hr, hr2]
              exact hQt r hr)
          (by simp [Color.opp, Function.update_apply, Nat.testBit_xor,
            Nat.one_shiftLeft, Nat.testBit_two_pow, hYt, hft])]
        rw [hashPieces_toggle _ _ (Promotion.as_piece pr) Color.Black t ht64
          (by simp [Function.update_apply, hprp, Nat.testBit_xor,
            Nat.one_shiftLeft, Nat.testBit_two_pow, hPqt2, hYt, hft])
          (by
            intro r hr
            by_cases hr2 : r = Piece.Pawn
            · rw [hr2]
              simp [Function.update_apply, Nat.testBit_xor, Nat.one_shiftLeft,
                Nat.testBit_two_pow, hQt Piece.Pawn (Ne.symm hprp), hft]
            · simp [Function.update_apply, hr2]
              exact hQt r hr)
          (by simp [Color.opp, Function.update_apply, Nat.testBit_xor,
            Nat.one_shiftLeft, Nat.testBit_two_pow, hOt, hft])]
        rw [hashPieces_toggle _ _ Piece.Pawn Color.White f hf64
          (hPf.trans hOf.symm) hQf hYf]
        simp only [sideKeyOf, epKeyOf]
        simp [Nat.xor_assoc, Nat.xor_comm, xor_left_comm, Nat.xor_cancel_left,
          Nat.xor_cancel_right, Nat.xor_self, Nat.xor_zero, Nat.zero_xor]

      · simp only [applyMove, Board.genHash]
        simp only [ep_clear_hash]
        rw [generate_hash_key_split]
        simp [Color.opp, hq, hqpawn, Function.update_noteq hqpawn,
          Function.update_noteq (Ne.symm hqpawn), Function.update_noteq hprp,
          Function.update_noteq (Ne.symm hqpr)]
        rw [rights_step_hash2, hh]
        simp only [apply_ite Prod.snd]
        rw [show Function.update
              (Function.update
                (Function.update
                  (Function.update P Piece.Pawn
                    (P Piece.Pawn ^^^ 1 <<< f ||| 1 <<< t)) q (P q ^^^ 1 <<< t))
                Piece.Pawn ((P Piece.Pawn ^^^ 1 <<< f ||| 1 <<< t) ^^^ 1 <<< t))
              (Promotion.as_piece pr)
              (P (Promotion.as_piece pr) ||| 1 <<< t) =
            Function.update
            (Function.update
            (Function.update P Piece.Pawn (P Piece.Pawn ^^^ 1 <<< f)) q
            ((Function.update P Piece.Pawn (P Piece.Pawn ^^^ 1 <<< f)) q ^^^ 1 <<< t)) (Promotion.as_piece pr)
            ((Function.update
            (Function.update P Piece.Pawn (P Piece.Pawn ^^^ 1 <<< f)) q
            ((Function.update P Piece.Pawn (P Piece.Pawn ^^^ 1 <<< f)) q ^^^ 1 <<< t)) (Promotion.as_piece pr) ^^^ 1 <<< t) from by
          funext x
          by_cases hx1 : x = Piece.Pawn
          · rw [hx1]
            simp [Function.update_apply, Ne.symm hprp, Ne.symm hqpawn]
            rw [or_eq_xor _ _ (by simp [Nat.testBit_xor, Nat.one_shiftLeft,
              Nat.testBit_two_pow, hQt Piece.Pawn (Ne.symm hqpawn), hft]),
              Nat.xor_cancel_right]
          · by_cases hx2 : x = q
            · rw [hx2]
              simp [Function.update_apply, hqpawn, hqpr]
            · by_cases hx3 : x = Promotion.as_piece pr
              · rw [hx3]
                simp [Function.update_apply, hprp, Ne.symm hqpr]
                exact or_eq_xor _ _ (hQt _ (Ne.symm hqpr))
              · simp [Function.update_apply, hx1, hx2, hx3]]
        rw [  show Function.update
              (Function.update O Color.White (O Color.White ^^^ 1 <<< f ||| 1 <<< t))
              Color.Black (O Color.Black ^^^ 1 <<< t) =
            Function.update
              (Function.update
                (Function.update O Color.White (O Color.White ^^^ 1 <<< f)) Color.Black
                (Function.update O Color.White (O Color.White ^^^ 1 <<< f) Color.Black ^^^
                  1 <<< t)) Color.White
              (Function.update
                (Function.update O Color.White (O Color.White ^^^ 1 <<< f)) Color.Black
                (Function.update O Color.White (O Color.White ^^^ 1 <<< f) Color.Black ^^^
                  1 <<< t) Color.White ^^^ 1 <<< t) from by
          funext c
          cases c
          · simp [Function.update_apply]
            exact or_eq_xor _ _ (by simp [Nat.testBit_xor, Nat.one_shiftLeft,
              Nat.testBit_two_pow, hOt, hft])
          · simp [Function.update_apply]]
        rw [hashPieces_toggle _ _ (Promotion.as_piece pr) Color.White t ht64
          (by simp [Function.update_apply, hprp, Ne.symm hqpr, Nat.testBit_xor,
            Nat.one_shiftLeft, Nat.testBit_two_pow, hQt _ (Ne.symm hqpr), hOt,
            hft])
          (by
            intro r hr
            by_cases hr2 : r = q
            · rw [hr2]
              simp [Function.update_apply, hqpawn, Nat.testBit_xor,
                Nat.one_shiftLeft, Nat.testBit_two_pow, hPqt2]
            · by_cases hr3 : r = Piece.Pawn
              · rw [hr3]
                simp [Function.update_apply, Ne.symm hqpawn, Nat.testBit_xor,
                  Nat.one_shiftLeft, Nat.testBit_two_pow,
                  hQt Piece.Pawn (Ne.symm hqpawn), hft]
              · simp [Function.update_apply, hr2, hr3]
                exact hQt r hr2)
          (by simp [Color.opp, Function.update_apply, Nat.testBit_xor,
            Nat.one_shiftLeft, Nat.testBit_two_pow, hYt, hft])]
        rw [hashPieces_toggle _ _ q Color.Black t ht64
          (by simp [Function.update_apply, hqpawn, Nat.testBit_xor,
            Nat.one_shiftLeft, Nat.testBit_two_pow, hPqt2, hYt, hft])
          (by
            intro r hr
            by_cases hr2 : r = Piece.Pawn
            · rw [hr2]
              simp [Function.update_apply, Ne.symm hqpawn, Nat.testBit_xor,
                Nat.one_shiftLeft, Nat.testBit_two_pow,
                hQt Piece.Pawn (Ne.symm hqpawn), hft]
            · simp [Function.update_apply, hr2]
              exact hQt r hr)
          (by simp [Color.opp, Function.update_apply, Nat.testBit_xor,
            Nat.one_shiftLeft, Nat.testBit_two_pow, hOt, hft])]
        rw [hashPieces_toggle _ _ Piece.Pawn Color.White f hf64
          (hPf.trans hOf.symm) hQf hYf]
        simp only [sideKeyOf, epKeyOf]
        simp [Nat.xor_assoc, Nat.xor_comm, xor_left_comm, Nat.xor_cancel_left,
          Nat.xor_cancel_right, Nat.xor_self, Nat.xor_zero, Nat.zero_xor]
  · have hPf : (P Piece.Pawn).testBit f = true := hpf
    have hOf : (O Color.Black).testBit f = true := huf
    have hOt : (O Color.Black).testBit t = false := hut2
    have hYf : (O Color.White).testBit f = false := hthemf
    have hYt : (O Color.White).testBit t = true := hYt0
    have hPqt2 : (P q).testBit t = true := hPqt
    have hQf : ∀ r, r ≠ Piece.Pawn → (P r).testBit f = false := hotherf
    have hQt : ∀ r, r ≠ q → (P r).testBit t = false := hothertq
    by_cases hqpawn : q = Piece.Pawn
    · rw [hqpawn] at hq hPqt2 hQt
      simp only [applyMove, Board.genHash]
      simp only [ep_clear_hash]
      rw [generate_hash_key_split]
      simp [Color.opp, hq, Function.update_noteq hprp]
      rw [hh]
      rw [show Function.update
            (Function.update P Piece.Pawn
              ((P Piece.Pawn ^^^ 1 <<< f ||| 1 <<< t) ^^^ 1 <<< t))
            (Promotion.as_piece pr) (P (Promotion.as_piece pr) ||| 1 <<< t) =
          Function.update
            (Function.update
            (Function.update P Piece.Pawn (P Piece.Pawn ^^^ 1 <<< f)) Piece.Pawn
            ((Function.update P Piece.Pawn (P Piece.Pawn ^^^ 1 <<< f)) Piece.Pawn ^^^ 1 <<< t)) (Promotion.as_piece pr)
            ((Function.update
            (Function.update P Piece.Pawn (P Piece.Pawn ^^^ 1 <<< f)) Piece.Pawn
            ((Function.update P Piece.Pawn (P Piece.Pawn ^^^ 1 <<< f)) Piece.Pawn ^^^ 1 <<< t)) (Promotion.as_piece pr) ^^^ 1 <<< t) from by
        funext x
        by_cases hx1 : x = Piece.Pawn
        · rw [hx1]
          simp [Function.update_apply, Ne.symm hprp]
          rw [or_eq_self _ _ (by simp [Nat.testBit_xor, Nat.one_shiftLeft,
            Nat.testBit_two_pow, hPqt2, hft])]
        · by_cases hx3 : x = Promotion.as_piece pr
          · rw [hx3]
            simp [Function.update_apply, hprp]
            exact or_eq_xor _ _ (hQt _ hprp)
          · simp [Function.update_apply, hx1, hx3]]
      rw [show Function.update
            (Function.update O Color.Black (O Color.Black ^^^ 1 <<< f ||| 1 <<< t))
            Color.White (O Color.White ^^^ 1 <<< t) =
          Function.update
            (Function.update
              (Function.update O Color.Black (O Color.Black ^^^ 1 <<< f)) Color.White
              (Function.update O Color.Black (O Color.Black ^^^ 1 <<< f) Color.White ^^^
                1 <<< t)) Color.Black
            (Function.update
              (Function.update O Color.Black (O Color.Black ^^^ 1 <<< f)) Color.White
              (Function.update O Color.Black (O Color.Black ^^^ 1 <<< f) Color.White ^^^
                1 <<< t) Color.Black ^^^ 1 <<< t) from by
        funext c
        cases c
        · simp [Function.update_apply]
        · simp [Function.update_apply]
          exact or_eq_xor _ _ (by simp [Nat.testBit_xor, Nat.one_shiftLeft,
            Nat.testBit_two_pow, hOt, hft])]
      rw [hashPieces_toggle _ _ (Promotion.as_piece pr) Color.Black t ht64
        (by simp [Function.update_apply, hprp, Nat.testBit_xor,
          Nat.one_shiftLeft, Nat.testBit_two_pow, hQt _ hprp, hOt, hft])
        (by
          intro r hr
          by_cases hr2 : r = Piece.Pawn
          · rw [hr2]
            simp [Function.update_apply, Nat.testBit_xor, Nat.one_shiftLeft,
              Nat.testBit_two_pow, hPqt2, hft]
          · simp [Function.update_apply, hr, hr2]
            exact hQt r hr2)
        (by simp [Color.opp, Function.update_apply, Nat.testBit_xor,
          Nat.one_shiftLeft, Nat.testBit_two_pow, hYt, hft])]
      rw [hashPieces_toggle _ _ Piece.Pawn Color.White t ht64
        (by simp [Function.update_apply, Nat.testBit_xor, Nat.one_shiftLeft,
          Nat.testBit_two_pow, hPqt2, hYt, hft])
        (by
          intro r hr
          simp [Function.update_apply, hr]
          exact hQt r hr)
        (by simp [Color.opp, Function.update_apply, Nat.testBit_xor,
          Nat.one_shiftLeft, Nat.testBit_two_pow, hOt, hft])]
      rw [hashPieces_toggle _ _ Piece.Pawn Color.Black f hf64
        (hPf.trans hOf.symm) hQf hYf]
      simp only [sideKeyOf, epKeyOf]
      simp [Nat.xor_assoc, Nat.xor_comm, xor_left_comm, Nat.xor_cancel_left,
        Nat.xor_cancel_right, Nat.xor_self, Nat.xor_zero, Nat.zero_xor]
    · by_cases hqpr : q = Promotion.as_piece pr
      · rw [hqpr] at hq hPqt2 hQt
        simp only [applyMove, Board.genHash]
        simp only [ep_clear_hash]
        rw [generate_hash_key_split]
        simp [Color.opp, hq, hprp, Function.update_noteq hprp,
          Function.update_noteq (Ne.symm hprp)]
        rw [rights_step_hash2, hh]
        simp only [apply_ite Prod.snd]
        rw [show Function.update
              (Function.update
                (Function.update
                  (Function.update P Piece.Pawn
                    (P Piece.Pawn ^^^ 1 <<< f ||| 1 <<< t))
                  (Promotion.as_piece pr) (P (Promotion.as_piece pr) ^^^ 1 <<< t))
                Piece.Pawn ((P Piece.Pawn ^^^ 1 <<< f ||| 1 <<< t) ^^^ 1 <<< t))
              (Promotion.as_piece pr)
              ((P (Promotion.as_piece pr) ^^^ 1 <<< t) ||| 1 <<< t) =
            Function.update
            (Function.update
            (Function.update P Piece.Pawn (P Piece.Pawn ^^^ 1 <<< f)) (Promotion.as_piece pr)
            ((Function.update P Piece.Pawn (P Piece.Pawn ^^^ 1 <<< f)) (Promotion.as_piece pr) ^^^ 1 <<< t)) (Promotion.as_piece pr)
            ((Function.update
            (Function.update P Piece.Pawn (P Piece.Pawn ^^^ 1 <<< f)) (Promotion.as_piece pr)
            ((Function.update P Piece.Pawn (P Piece.Pawn ^^^ 1 <<< f)) (Promotion.as_piece pr) ^^^ 1 <<< t)) (Promotion.as_piece pr) ^^^ 1 <<< t) from by
          funext x
          by_cases hx1 : x = Piece.Pawn
          · rw [hx1]
            simp [Function.update_apply, Ne.symm hprp]
            rw [or_eq_xor _ _ (by simp [Nat.testBit_xor, Nat.one_shiftLeft,
              Nat.testBit_two_pow, hQt Piece.Pawn (Ne.symm hprp), hft]),
              Nat.xor_cancel_right]
          · by_cases hx3 : x = Promotion.as_piece pr
            · rw [hx3]
              simp [Function.update_apply, hprp]
              exact or_eq_xor _ _ (by simp [Nat.testBit_xor, Nat.one_shiftLeft,
                Nat.testBit_two_pow, hPqt2])
            · simp [Function.update_apply, hx1, hx3]]
        rw [  show Function.update
              (Function.update O Color.Black (O Color.Black ^^^ 1 <<< f ||| 1 <<< t))
              Color.White (O Color.White ^^^ 1 <<< t) =
            Function.update
              (Function.update
                (Function.update O Color.Black (O Color.Black ^^^ 1 <<< f)) Color.White
                (Function.update O Color.Black (O Color.Black ^^^ 1 <<< f) Color.White ^^^
                  1 <<< t)) Color.Black
              (Function.update
                (Function.update O Color.Black (O Color.Black ^^^ 1 <<< f)) Color.White
                (Function.update O Color.Black (O Color.Black ^^^ 1 <<< f) Color.White ^^^
                  1 <<< t) Color.Black ^^^ 1 <<< t) from by
          funext c
          cases c
          · simp [Function.update_apply]
          · simp [Function.update_apply]
            exact or_eq_xor _ _ (by simp [Nat.testBit_xor, Nat.one_shiftLeft,
              Nat.testBit_two_pow, hOt, hft])]
        rw [hashPieces_toggle _ _ (Promotion.as_piece pr) Color.Black t ht64
          (by simp [Function.update_apply, hprp, Nat.testBit_xor,
            Nat.one_shiftLeft, Nat.testBit_two_pow, hPqt2, hOt, hft])
          (by
            intro r hr
            by_cases hr2 : r = Piece.Pawn
            · rw [hr2]
              simp [Function.update_apply, Ne.symm hprp, Nat.testBit_xor,
                Nat.one_shiftLeft, Nat.testBit_two_pow,
                hQt Piece.Pawn (Ne.symm hprp), hft]
            · simp [Function.update_apply, hr, hr2]
              exact hQt r hr)
          (by simp [Color.opp, Function.update_apply, Nat.testBit_xor,
            Nat.one_shiftLeft, Nat.testBit_two_pow, hYt, hft])]
        rw [hashPieces_toggle _ _ (Promotion.as_piece pr) Color.White t ht64
          (by simp [Function.update_apply, hprp, Nat.testBit_xor,
            Nat.one_shiftLeft, Nat.testBit_two_pow, hPqt2, hYt, hft])
          (by
            intro r hr
            by_cases hr2 : r = Piece.Pawn
            · rw [hr2]
              simp [Function.update_apply, Nat.testBit_xor, Nat.one_shiftLeft,
                Nat.testBit_two_pow, hQt Piece.Pawn (Ne.symm hprp), hft]
            · simp [Function.update_apply, hr2]
              exact hQt r hr)
          (by simp [Color.opp, Function.update_apply, Nat.testBit_xor,
            Nat.one_shiftLeft, Nat.testBit_two_pow, hOt, hft])]
        rw [hashPieces_toggle _ _ Piece.Pawn Color.Black f hf64
          (hPf.trans hOf.symm) hQf hYf]
        simp only [sideKeyOf, epKeyOf]
        simp [Nat.xor_assoc, Nat.xor_comm, xor_left_comm, Nat.xor_cancel_left,
          Nat.xor_cancel_right, Nat.xor_self, Nat.xor_zero, Nat.zero_xor]

      · simp only [applyMove, Board.genHash]
        simp only [ep_clear_hash]
        rw [generate_hash_key_split]
        simp [Color.opp, hq, hqpawn, Function.update_noteq hqpawn,
          Function.update_noteq (Ne.symm hqpawn), Function.update_noteq hprp,
          Function.update_noteq (Ne.symm hqpr)]
        rw [rights_step_hash2, hh]
        simp only [apply_ite Prod.snd]
        rw [show Function.update
              (Function.update
                (Function.update
                  (Function.update P Piece.Pawn
                    (P Piece.Pawn ^^^ 1 <<< f ||| 1 <<< t)) q (P q ^^^ 1 <<< t))
                Piece.Pawn ((P Piece.Pawn ^^^ 1 <<< f ||| 1 <<< t) ^^^ 1 <<< t))
              (Promotion.as_piece pr)
              (P (Promotion.as_piece pr) ||| 1 <<< t) =
            Function.update
            (Function.update
            (Function.update P Piece.Pawn (P Piece.Pawn ^^^ 1 <<< f)) q
            ((Function.update P Piece.Pawn (P Piece.Pawn ^^^ 1 <<< f)) q ^^^ 1 <<< t)) (Promotion.as_piece pr)
            ((Function.update
            (Function.update P Piece.Pawn (P Piece.Pawn ^^^ 1 <<< f)) q
            ((Function.update P Piece.Pawn (P Piece.Pawn ^^^ 1 <<< f)) q ^^^ 1 <<< t)) (Promotion.as_piece pr) ^^^ 1 <<< t) from by
          funext x
          by_cases hx1 : x = Piece.Pawn
          · rw [hx1]
            simp [Function.update_apply, Ne.symm hprp, Ne.symm hqpawn]
            rw [or_eq_xor _ _ (by simp [Nat.testBit_xor, Nat.one_shiftLeft,
              Nat.testBit_two_pow, hQt Piece.Pawn (Ne.symm hqpawn), hft]),
              Nat.xor_cancel_right]
          · by_cases hx2 : x = q
            · rw [hx2]
              simp [Function.update_apply, hqpawn, hqpr]
            · by_cases hx3 : x = Promotion.as_piece pr
              · rw [hx3]
                simp [Function.update_apply, hprp, Ne.symm hqpr]
                exact or_eq_xor _ _ (hQt _ (Ne.symm hqpr))
              · simp [Function.update_apply, hx1, hx2, hx3]]
        rw [  show Function.update
              (Function.update O Color.Black (O Color.Black ^^^ 1 <<< f ||| 1 <<< t))
              Color.White (O Color.White ^^^ 1 <<< t) =
            Function.update
              (Function.update
                (Function.update O Color.Black (O Color.Black ^^^ 1 <<< f)) Color.White
                (Function.update O Color.Black (O Color.Black ^^^ 1 <<< f) Color.White ^^^
                  1 <<< t)) Color.Black
              (Function.update
                (Function.update O Color.Black (O Color.Black ^^^ 1 <<< f)) Color.White
                (Function.update O Color.Black (O Color.Black ^^^ 1 <<< f) Color.White ^^^
                  1 <<< t) Color.Black ^^^ 1 <<< t) from by
          funext c
          cases c
          · simp [Function.update_apply]
          · simp [Function.update_apply]
            exact or_eq_xor _ _ (by simp [Nat.testBit_xor, Nat.one_shiftLeft,
              Nat.testBit_two_pow, hOt, hft])]
        rw [hashPieces_toggle _ _ (Promotion.as_piece pr) Color.Black t ht64
          (by simp [Function.update_apply, hprp, Ne.symm hqpr, Nat.testBit_xor,
            Nat.one_shiftLeft, Nat.testBit_two_pow, hQt _ (Ne.symm hqpr), hOt,
            hft])
          (by
            intro r hr
            by_cases hr2 : r = q
            · rw [hr2]
              simp [Function.update_apply, hqpawn, Nat.testBit_xor,
                Nat.one_shiftLeft, Nat.testBit_two_pow, hPqt2]
            · by_cases hr3 : r = Piece.Pawn
              · rw [hr3]
                simp [Function.update_apply, Ne.symm hqpawn, Nat.testBit_xor,
                  Nat.one_shiftLeft, Nat.testBit_two_pow,
                  hQt Piece.Pawn (Ne.symm hqpawn), hft]
              · simp [Function.update_apply, hr2, hr3]
                exact hQt r hr2)
          (by simp [Color.opp, Function.update_apply, Nat.testBit_xor,
            Nat.one_shiftLeft, Nat.testBit_two_pow, hYt, hft])]
        rw [hashPieces_toggle _ _ q Color.White t ht64
          (by simp [Function.update_apply, hqpawn, Nat.testBit_xor,
            Nat.one_shiftLeft, Nat.testBit_two_pow, hPqt2, hYt, hft])
          (by
            intro r hr
            by_cases hr2 : r = Piece.Pawn
            · rw [hr2]
              simp [Function.update_apply, Ne.symm hqpawn, Nat.testBit_xor,
                Nat.one_shiftLeft, Nat.testBit_two_pow,
                hQt Piece.Pawn (Ne.symm hqpawn), hft]
            · simp [Function.update_apply, hr2]
              exact hQt r hr)
          (by simp [Color.opp, Function.update_apply, Nat.testBit_xor,
            Nat.one_shiftLeft, Nat.testBit_two_pow, hOt, hft])]
        rw [hashPieces_toggle _ _ Piece.Pawn Color.Black f hf64
          (hPf.trans hOf.symm) hQf hYf]
        simp only [sideKeyOf, epKeyOf]
        simp [Nat.xor_assoc, Nat.xor_comm, xor_left_comm, Nat.xor_cancel_left,
          Nat.xor_cancel_right, Nat.xor_self, Nat.xor_zero, Nat.zero_xor]

theorem applyMove_hash_ep (b : Board) (f t : Nat)
    (hw : wfB b = true)
    (hm : moveOk b ⟨f, t, .Pawn, none, .EnPassant⟩ = true)
    (hh : b.state.hash = Board.genHash b) :
    (applyMove b ⟨f, t, .Pawn, none, .EnPassant⟩).state.hash =
      Board.genHash (applyMove b ⟨f, t, .Pawn, none, .EnPassant⟩) := by
  simp only [moveOk, Bool.and_eq_true, decide_eq_true_eq,
    Bool.not_eq_true'] at hm
  obtain ⟨⟨⟨⟨⟨⟨⟨hf64, ht64⟩, hft⟩, hpf⟩, huf⟩, hut⟩,
    ⟨⟨-, hcomb⟩, -⟩, hepm⟩, -⟩ := hm
  rcases hfw : sqForward b.side_to_move.opp t with - | c
  · rw [hfw] at hepm
    simp at hepm
  · rw [hfw] at hepm
    simp only [Bool.and_eq_true, decide_eq_true_eq] at hepm
    obtain ⟨⟨⟨⟨hpc, hthemc⟩, hcf2⟩, hct2⟩, hc64⟩ := hepm
    have hpt := wf_piece_of_not_combined b hw .Pawn _ hcomb
    have hothert : ∀ r, (b.pieces r).testBit t = false :=
      fun r => wf_piece_of_not_combined b hw r _ hcomb
    have hotherc : ∀ r, r ≠ Piece.Pawn → (b.pieces r).testBit c = false :=
      fun r hr => wf_piece_ne b hw (fun e => hr e.symm) c hpc
    have hotherf : ∀ r, r ≠ Piece.Pawn → (b.pieces r).testBit f = false :=
      fun r hr => wf_piece_ne b hw (fun e => hr e.symm) f hpf
    have hut2 : (b.occupancies b.side_to_move).testBit t = false := hut
    have hthemf := wf_occ_opp b hw b.side_to_move f huf
    have hthemt := wf_occ_of_not_combined b hw b.side_to_move.opp _ hcomb
    have hOc0 := wf_occ_opp b hw b.side_to_move.opp c hthemc
    rw [Board.genHash] at hh
    rw [generate_hash_key_split] at hh
    obtain ⟨P, O, C, stm, hist, st, gp⟩ := b
    cases stm
    · simp only [Color.opp] at hfw
      simp only [applyMove, Board.genHash]
      simp only [ep_clear_hash]
      rw [generate_hash_key_split]
      simp [Color.opp, hfw]
      rw [hh]
      have hPt : (P Piece.Pawn).testBit t = false := hpt
      have hOf : (O Color.White).testBit f = true := huf
      have hOt : (O Color.White).testBit t = false := hut2
      have hYf : (O Color.Black).testBit f = false := hthemf
      have hYt : (O Color.Black).testBit t = false := hthemt
      have hOc : (O Color.White).testBit c = false := hOc0
      have hYc : (O Color.Black).testBit c = true := hthemc
      have hQf : ∀ r, r ≠ Piece.Pawn → (P r).testBit f = false := hotherf
      have hQt : ∀ r, (P r).testBit t = false := hothert
      have hQc : ∀ r, r ≠ Piece.Pawn → (P r).testBit c = false := hotherc
      have hPf : (P Piece.Pawn).testBit f = true := hpf
      have hPc : (P Piece.Pawn).testBit c = true := hpc
      rw [show (P Piece.Pawn ^^^ 1 <<< f ||| 1 <<< t) =
          (P Piece.Pawn ^^^ 1 <<< f ^^^ 1 <<< t) from
        or_eq_xor _ _ (by
          simp [Nat.testBit_xor, Nat.one_shiftLeft, Nat.testBit_two_pow, hPt,
            hft])]
      rw [show (O Color.White ^^^ 1 <<< f ||| 1 <<< t) =
          (O Color.White ^^^ 1 <<< f ^^^ 1 <<< t) from
        or_eq_xor _ _ (by
          simp [Nat.testBit_xor, Nat.one_shiftLeft, Nat.testBit_two_pow, hOt,
            hft])]
      rw [show Function.update P Piece.Pawn
            (P Piece.Pawn ^^^ 1 <<< f ^^^ 1 <<< t ^^^ 1 <<< c) =
          Function.update
            (Function.update
              (Function.update P Piece.Pawn (P Piece.Pawn ^^^ 1 <<< f)) Piece.Pawn
              (Function.update P Piece.Pawn (P Piece.Pawn ^^^ 1 <<< f) Piece.Pawn ^^^
                1 <<< t)) Piece.Pawn
            (Function.update
              (Function.update P Piece.Pawn (P Piece.Pawn ^^^ 1 <<< f)) Piece.Pawn
              (Function.update P Piece.Pawn (P Piece.Pawn ^^^ 1 <<< f) Piece.Pawn ^^^
                1 <<< t) Piece.Pawn ^^^ 1 <<< c) from by
        simp [Function.update_idem, Function.update_same]]
      rw [show Function.update
            (Function.update O Color.White (O Color.White ^^^ 1 <<< f ^^^ 1 <<< t))
            Color.Black (O Color.Black ^^^ 1 <<< c) =
          Function.update
            (Function.update
              (Function.update O Color.White (O Color.White ^^^ 1 <<< f)) Color.White
              (Function.update O Color.White (O Color.White ^^^ 1 <<< f) Color.White ^^^
                1 <<< t)) Color.Black
            (Function.update
              (Function.update O Color.White (O Color.White ^^^ 1 <<< f)) Color.White
              (Function.update O Color.White (O Color.White ^^^ 1 <<< f) Color.White ^^^
                1 <<< t) Color.Black ^^^ 1 <<< c) from by
        funext x
        cases x <;> simp [Function.update_apply]]
      rw [hashPieces_toggle _ _ Piece.Pawn Color.Black c hc64
        (by simp [Function.update_apply, Nat.testBit_xor, Nat.one_shiftLeft,
          Nat.testBit_two_pow, hPc, hYc, Ne.symm hcf2, Ne.symm hct2])
        (by
          intro r hr
          simp [Function.update_apply, hr]
          exact hQc r hr)
        (by simp [Color.opp, Function.update_apply, Nat.testBit_xor,
          Nat.one_shiftLeft, Nat.testBit_two_pow, hOc, Ne.symm hcf2,
          Ne.symm hct2])]
      rw [hashPieces_toggle _ _ Piece.Pawn Color.White t ht64
        (by simp [Function.update_apply, Nat.testBit_xor, Nat.one_shiftLeft,
          Nat.testBit_two_pow, hPt, hOt, hft])
        (by
          intro r hr
          simp [Function.update_apply, hr]
          exact hQt r)
        (by simp [Color.opp, Function.update_apply, Nat.testBit_xor,
          Nat.one_shiftLeft, Nat.testBit_two_pow, hYt, hft])]
      rw [hashPieces_toggle _ _ Piece.Pawn Color.White f hf64 (hPf.trans hOf.symm)
        hQf hYf]
      simp only [sideKeyOf, epKeyOf]
      simp [Nat.xor_assoc, Nat.xor_comm, xor_left_comm, Nat.xor_cancel_left,
        Nat.xor_cancel_right, Nat.xor_self, Nat.xor_zero, Nat.zero_xor]
    · simp only [Color.opp] at hfw
      simp only [applyMove, Board.genHash]
      simp only [ep_clear_hash]
      rw [generate_hash_key_split]
      simp [Color.opp, hfw]
      rw [hh]
      have hPt : (P Piece.Pawn).testBit t = false := hpt
      have hOf : (O Color.Black).testBit f = true := huf
      have hOt : (O Color.Black).testBit t = false := hut2
      have hYf : (O Color.White).testBit f = false := hthemf
      have hYt : (O Color.White).testBit t = false := hthemt
      have hOc : (O Color.Black).testBit c = false := hOc0
      have hYc : (O Color.White).testBit c = true := hthemc
      have hQf : ∀ r, r ≠ Piece.Pawn → (P r).testBit f = false := hotherf
      have hQt : ∀ r, (P r).testBit t = false := hothert
      have hQc : ∀ r, r ≠ Piece.Pawn → (P r).testBit c = false := hotherc
      have hPf : (P Piece.Pawn).testBit f = true := hpf
      have hPc : (P Piece.Pawn).testBit c = true := hpc
      rw [show (P Piece.Pawn ^^^ 1 <<< f ||| 1 <<< t) =
          (P Piece.Pawn ^^^ 1 <<< f ^^^ 1 <<< t) from
        or_eq_xor _ _ (by
          simp [Nat.testBit_xor, Nat.one_shiftLeft, Nat.testBit_two_pow, hPt,
            hft])]
      rw [show (O Color.Black ^^^ 1 <<< f ||| 1 <<< t) =
          (O Color.Black ^^^ 1 <<< f ^^^ 1 <<< t) from
        or_eq_xor _ _ (by
          simp [Nat.testBit_xor, Nat.one_shiftLeft, Nat.testBit_two_pow, hOt,
            hft])]
      rw [show Function.update P Piece.Pawn
            (P Piece.Pawn ^^^ 1 <<< f ^^^ 1 <<< t ^^^ 1 <<< c) =
          Function.update
            (Function.update
              (Function.update P Piece.Pawn (P Piece.Pawn ^^^ 1 <<< f)) Piece.Pawn
              (Function.update P Piece.Pawn (P Piece.Pawn ^^^ 1 <<< f) Piece.Pawn ^^^
                1 <<< t)) Piece.Pawn
            (Function.update
              (Function.update P Piece.Pawn (P Piece.Pawn ^^^ 1 <<< f)) Piece.Pawn
              (Function.update P Piece.Pawn (P Piece.Pawn ^^^ 1 <<< f) Piece.Pawn ^^^
                1 <<< t) Piece.Pawn ^^^ 1 <<< c) from by
        simp [Function.update_idem, Function.update_same]]
      rw [show Function.update
            (Function.update O Color.Black (O Color.Black ^^^ 1 <<< f ^^^ 1 <<< t))
            Color.White (O Color.White ^^^ 1 <<< c) =
          Function.update
            (Function.update
              (Function.update O Color.Black (O Color.Black ^^^ 1 <<< f)) Color.Black
              (Function.update O Color.Black (O Color.Black ^^^ 1 <<< f) Color.Black ^^^
                1 <<< t)) Color.White
            (Function.update
              (Function.update O Color.Black (O Color.Black ^^^ 1 <<< f)) Color.Black
              (Function.update O Color.Black (O Color.Black ^^^ 1 <<< f) Color.Black ^^^
                1 <<< t) Color.White ^^^ 1 <<< c) from by
        funext x
        cases x <;> simp [Function.update_apply]]
      rw [hashPieces_toggle _ _ Piece.Pawn Color.White c hc64
        (by simp [Function.update_apply, Nat.testBit_xor, Nat.one_shiftLeft,
          Nat.testBit_two_pow, hPc, hYc, Ne.symm hcf2, Ne.symm hct2])
        (by
          intro r hr
          simp [Function.update_apply, hr]
          exact hQc r hr)
        (by simp [Color.opp, Function.update_apply, Nat.testBit_xor,
          Nat.one_shiftLeft, Nat.testBit_two_pow, hOc, Ne.symm hcf2,
          Ne.symm hct2])]
      rw [hashPieces_toggle _ _ Piece.Pawn Color.Black t ht64
        (by simp [Function.update_apply, Nat.testBit_xor, Nat.one_shiftLeft,
          Nat.testBit_two_pow, hPt, hOt, hft])
        (by
          intro r hr
          simp [Function.update_apply, hr]
          exact hQt r)
        (by simp [Color.opp, Function.update_apply, Nat.testBit_xor,
          Nat.one_shiftLeft, Nat.testBit_two_pow, hYt, hft])]
      rw [hashPieces_toggle _ _ Piece.Pawn Color.Black f hf64 (hPf.trans hOf.symm)
        hQf hYf]
      simp only [sideKeyOf, epKeyOf]
      simp [Nat.xor_assoc, Nat.xor_comm, xor_left_comm, Nat.xor_cancel_left,
        Nat.xor_cancel_right, Nat.xor_self, Nat.xor_zero, Nat.zero_xor]


theorem applyMove_hash_castle (b : Board) (f t : Nat)
    (hw : wfB b = true)
    (hm : moveOk b ⟨f, t, .King, none, .Castling⟩ = true)
    (hh : b.state.hash = Board.genHash b) :
    (applyMove b ⟨f, t, .King, none, .Castling⟩).state.hash =
      Board.genHash (applyMove b ⟨f, t, .King, none, .Castling⟩) := by
  simp only [moveOk, Bool.and_eq_true, decide_eq_true_eq,
    Bool.not_eq_true'] at hm
  obtain ⟨⟨⟨⟨⟨⟨⟨hf64, ht64⟩, hft⟩, hpf⟩, huf⟩, hut⟩,
    ⟨⟨-, -⟩, hcomb⟩, hcst⟩, -⟩ := hm
  obtain ⟨⟨⟨⟨⟨⟨⟨⟨⟨hrrs, hurs⟩, hcre⟩, hrsre⟩, hrsf⟩, hrst⟩, href⟩, hret⟩,
    hrs64⟩, hre64⟩ := hcst
  have hpt0 := wf_piece_of_not_combined b hw .King _ hcomb
  have hQt0 : ∀ r, (b.pieces r).testBit t = false :=
    fun r => wf_piece_of_not_combined b hw r _ hcomb
  have hQf0 : ∀ r, r ≠ Piece.King → (b.pieces r).testBit f = false :=
    fun r hr => wf_piece_ne b hw (fun e => hr e.symm) f hpf
  have hthemf0 := wf_occ_opp b hw b.side_to_move f huf
  have hthemt0 := wf_occ_of_not_combined b hw b.side_to_move.opp _ hcomb
  have hQrs0 : ∀ r, r ≠ Piece.Rook →
      (b.pieces r).testBit
        (sqMk b.side_to_move.backrank
          (if sqFile t / 4 = 0 then (0, 3) else (7, 5)).1) = false :=
    fun r hr => wf_piece_ne b hw (fun e => hr e.symm) _ hrrs
  have hYrs0 := wf_occ_opp b hw b.side_to_move _ hurs
  have hQre0 : ∀ r,
      (b.pieces r).testBit
        (sqMk b.side_to_move.backrank
          (if sqFile t / 4 = 0 then (0, 3) else (7, 5)).2) = false :=
    fun r => wf_piece_of_not_combined b hw r _ hcre
  have hUre0 := wf_occ_of_not_combined b hw b.side_to_move _ hcre
  have hYre0 := wf_occ_of_not_combined b hw b.side_to_move.opp _ hcre
  rw [Board.genHash] at hh
  rw [generate_hash_key_split] at hh
  obtain ⟨P, O, C, stm, hist, st, gp⟩ := b
  cases stm
  · have hPf : (P Piece.King).testBit f = true := hpf
    have hPt : (P Piece.King).testBit t = false := hpt0
    have hOf : (O Color.White).testBit f = true := huf
    have hOt : (O Color.White).testBit t = false := hut
    have hYf : (O Color.Black).testBit f = false := hthemf0
    have hYt : (O Color.Black).testBit t = false := hthemt0
    have hQf : ∀ r, r ≠ Piece.King → (P r).testBit f = false := hQf0
    have hQt : ∀ r, (P r).testBit t = false := hQt0
    have hRrs : (P Piece.Rook).testBit (sqMk Color.White.backrank (if sqFile t / 4 = 0 then (0, 3) else (7, 5)).1) = true := hrrs
    have hUrs : (O Color.White).testBit (sqMk Color.White.backrank (if sqFile t / 4 = 0 then (0, 3) else (7, 5)).1) = true := hurs
    have hYrs : (O Color.Black).testBit (sqMk Color.White.backrank (if sqFile t / 4 = 0 then (0, 3) else (7, 5)).1) = false := hYrs0
    have hQrs : ∀ r, r ≠ Piece.Rook → (P r).testBit (sqMk Color.White.backrank (if sqFile t / 4 = 0 then (0, 3) else (7, 5)).1) = false := hQrs0
    have hQre : ∀ r, (P r).testBit (sqMk Color.White.backrank (if sqFile t / 4 = 0 then (0, 3) else (7, 5)).2) = false := hQre0
    have hUre : (O Color.White).testBit (sqMk Color.White.backrank (if sqFile t / 4 = 0 then (0, 3) else (7, 5)).2) = false := hUre0
    have hYre : (O Color.Black).testBit (sqMk Color.White.backrank (if sqFile t / 4 = 0 then (0, 3) else (7, 5)).2) = false := hYre0
    have hD1 : (sqMk Color.White.backrank (if sqFile t / 4 = 0 then (0, 3) else (7, 5)).1) ≠ (sqMk Color.White.backrank (if sqFile t / 4 = 0 then (0, 3) else (7, 5)).2) := hrsre
    have hD2 : (sqMk Color.White.backrank (if sqFile t / 4 = 0 then (0, 3) else (7, 5)).1) ≠ f := hrsf
    have hD3 : (sqMk Color.White.backrank (if sqFile t / 4 = 0 then (0, 3) else (7, 5)).1) ≠ t := hrst
    have hD4 : (sqMk Color.White.backrank (if sqFile t / 4 = 0 then (0, 3) else (7, 5)).2) ≠ f := href
    have hD5 : (sqMk Color.White.backrank (if sqFile t / 4 = 0 then (0, 3) else (7, 5)).2) ≠ t := hret
    have hB1 : (sqMk Color.White.backrank (if sqFile t / 4 = 0 then (0, 3) else (7, 5)).1) < 64 := hrs64
    have hB2 : (sqMk Color.White.backrank (if sqFile t / 4 = 0 then (0, 3) else (7, 5)).2) < 64 := hre64
    simp only [applyMove, Board.genHash]
    simp only [ep_clear_hash]
    rw [generate_hash_key_split]
    simp [Color.opp]
    rw [hh]
    rw [show (P Piece.King ^^^ 1 <<< f ||| 1 <<< t) =
        (P Piece.King ^^^ 1 <<< f ^^^ 1 <<< t) from
      or_eq_xor _ _ (by
        simp [Nat.testBit_xor, Nat.one_shiftLeft, Nat.testBit_two_pow, hPt,
          hft])]
    rw [show (P Piece.Rook ^^^ 1 <<< (sqMk Color.White.backrank (if sqFile t / 4 = 0 then (0, 3) else (7, 5)).1) ||| 1 <<< (sqMk Color.White.backrank (if sqFile t / 4 = 0 then (0, 3) else (7, 5)).2)) =
        (P Piece.Rook ^^^ 1 <<< (sqMk Color.White.backrank (if sqFile t / 4 = 0 then (0, 3) else (7, 5)).1) ^^^ 1 <<< (sqMk Color.White.backrank (if sqFile t / 4 = 0 then (0, 3) else (7, 5)).2)) from
      or_eq_xor _ _ (by
        simp [Nat.testBit_xor, Nat.one_shiftLeft, Nat.testBit_two_pow,
          hQre Piece.Rook, hD1])]
    rw [show (O Color.White ^^^ 1 <<< f ||| 1 <<< t) =
        (O Color.White ^^^ 1 <<< f ^^^ 1 <<< t) from
      or_eq_xor _ _ (by
        simp [Nat.testBit_xor, Nat.one_shiftLeft, Nat.testBit_two_pow, hOt,
          hft])]
    rw [show (O Color.White ^^^ 1 <<< f ^^^ 1 <<< t ^^^ 1 <<< (sqMk Color.White.backrank (if sqFile t / 4 = 0 then (0, 3) else (7, 5)).1) ||| 1 <<< (sqMk Color.White.backrank (if sqFile t / 4 = 0 then (0, 3) else (7, 5)).2)) =
        (O Color.White ^^^ 1 <<< f ^^^ 1 <<< t ^^^ 1 <<< (sqMk Color.White.backrank (if sqFile t / 4 = 0 then (0, 3) else (7, 5)).1) ^^^ 1 <<< (sqMk Color.White.backrank (if sqFile t / 4 = 0 then (0, 3) else (7, 5)).2)) from
      or_eq_xor _ _ (by
        simp [Nat.testBit_xor, Nat.one_shiftLeft, Nat.testBit_two_pow, hUre,
          Ne.symm hD4, Ne.symm hD5, hD1])]
    rw [show Function.update
          (Function.update P Piece.King (P Piece.King ^^^ 1 <<< f ^^^ 1 <<< t))
          Piece.Rook (P Piece.Rook ^^^ 1 <<< (sqMk Color.White.backrank (if sqFile t / 4 = 0 then (0, 3) else (7, 5)).1) ^^^ 1 <<< (sqMk Color.White.backrank (if sqFile t / 4 = 0 then (0, 3) else (7, 5)).2)) =
        (Function.update (Function.update (Function.update (Function.update P Piece.King (P Piece.King ^^^ 1 <<< f)) Piece.King (((Function.update P Piece.King (P Piece.King ^^^ 1 <<< f)) Piece.King) ^^^ 1 <<< t)) Piece.Rook (((Function.update (Function.update P Piece.King (P Piece.King ^^^ 1 <<< f)) Piece.King (((Function.update P Piece.King (P Piece.King ^^^ 1 <<< f)) Piece.King) ^^^ 1 <<< t)) Piece.Rook) ^^^ 1 <<< (sqMk Color.White.backrank (if sqFile t / 4 = 0 then (0, 3) else (7, 5)).1))) Piece.Rook (((Function.update (Function.update (Function.update P Piece.King (P Piece.King ^^^ 1 <<< f)) Piece.King (((Function.update P Piece.King (P Piece.King ^^^ 1 <<< f)) Piece.King) ^^^ 1 <<< t)) Piece.Rook (((Function.update (Function.update P Piece.King (P Piece.King ^^^ 1 <<< f)) Piece.King (((Function.update P Piece.King (P Piece.King ^^^ 1 <<< f)) Piece.King) ^^^ 1 <<< t)) Piece.Rook) ^^^ 1 <<< (sqMk Color.White.backrank (if sqFile t / 4 = 0 then (0, 3) else (7, 5)).1))) Piece.Rook) ^^^ 1 <<< (sqMk Color.White.backrank (if sqFile t / 4 = 0 then (0, 3) else (7, 5)).2))) from by
      funext x
      cases x <;> simp [Function.update_apply]]
    rw [show Function.update O Color.White
          (O Color.White ^^^ 1 <<< f ^^^ 1 <<< t ^^^ 1 <<< (sqMk Color.White.backrank (if sqFile t / 4 = 0 then (0, 3) else (7, 5)).1) ^^^ 1 <<< (sqMk Color.White.backrank (if sqFile t / 4 = 0 then (0, 3) else (7, 5)).2)) =
        (Function.update (Function.update (Function.update (Function.update O Color.White (O Color.White ^^^ 1 <<< f)) Color.White (((Function.update O Color.White (O Color.White ^^^ 1 <<< f)) Color.White) ^^^ 1 <<< t)) Color.White (((Function.update (Function.update O Color.White (O Color.White ^^^ 1 <<< f)) Color.White (((Function.update O Color.White (O Color.White ^^^ 1 <<< f)) Color.White) ^^^ 1 <<< t)) Color.White) ^^^ 1 <<< (sqMk Color.White.backrank (if sqFile t / 4 = 0 then (0, 3) else (7, 5)).1))) Color.White (((Function.update (Function.update (Function.update O Color.White (O Color.White ^^^ 1 <<< f)) Color.White (((Function.update O Color.White (O Color.White ^^^ 1 <<< f)) Color.White) ^^^ 1 <<< t)) Color.White (((Function.update (Function.update O Color.White (O Color.White ^^^ 1 <<< f)) Color.White (((Function.update O Color.White (O Color.White ^^^ 1 <<< f)) Color.White) ^^^ 1 <<< t)) Color.White) ^^^ 1 <<< (sqMk Color.White.backrank (if sqFile t / 4 = 0 then (0, 3) else (7, 5)).1))) Color.White) ^^^ 1 <<< (sqMk Color.White.backrank (if sqFile t / 4 = 0 then (0, 3) else (7, 5)).2))) from by
      funext x
      cases x <;> simp [Function.update_apply]]
    rw [hashPieces_toggle _ _ Piece.Rook Color.White (sqMk Color.White.backrank (if sqFile t / 4 = 0 then (0, 3) else (7, 5)).2) hB2
      (by simp [Function.update_apply, Nat.testBit_xor, Nat.one_shiftLeft,
        Nat.testBit_two_pow, hQre Piece.Rook, hUre, hD1, Ne.symm hD4,
        Ne.symm hD5])
      (by
        intro r hr
        by_cases hrk : r = Piece.King
        · rw [hrk]
          simp [Function.update_apply, Nat.testBit_xor, Nat.one_shiftLeft,
            Nat.testBit_two_pow, hQre Piece.King, Ne.symm hD4, Ne.symm hD5]
        · simp [Function.update_apply, hr, hrk]
          exact hQre r)
      (by simp [Color.opp, Function.update_apply, hYre])]
    rw [hashPieces_toggle _ _ Piece.Rook Color.White (sqMk Color.White.backrank (if sqFile t / 4 = 0 then (0, 3) else (7, 5)).1) hB1
      (by simp [Function.update_apply, Nat.testBit_xor, Nat.one_shiftLeft,
        Nat.testBit_two_pow, hRrs, hUrs, Ne.symm hD2, Ne.symm hD3])
      (by
        intro r hr
        by_cases hrk : r = Piece.King
        · rw [hrk]
          simp [Function.update_apply, Nat.testBit_xor, Nat.one_shiftLeft,
            Nat.testBit_two_pow, hQrs Piece.King (by decide), Ne.symm hD2,
            Ne.symm hD3]
        · simp [Function.update_apply, hr, hrk]
          exact hQrs r hr)
      (by simp [Color.opp, Function.update_apply, hYrs])]
    rw [hashPieces_toggle _ _ Piece.King Color.White t ht64
      (by simp [Function.update_apply, Nat.testBit_xor, Nat.one_shiftLeft,
        Nat.testBit_two_pow, hPt, hOt, hft])
      (by
        intro r hr
        simp [Function.update_apply, hr]
        exact hQt r)
      (by simp [Color.opp, Function.update_apply, hYt])]
    rw [hashPieces_toggle _ _ Piece.King Color.White f hf64 (hPf.trans hOf.symm)
      hQf hYf]
    simp only [sideKeyOf, epKeyOf]
    simp [Nat.xor_assoc, Nat.xor_comm, xor_left_comm, Nat.xor_cancel_left,
      Nat.xor_cancel_right, Nat.xor_self, Nat.xor_zero, Nat.zero_xor]
  · have hPf : (P Piece.King).testBit f = true := hpf
    have hPt : (P Piece.King).testBit t = false := hpt0
    have hOf : (O Color.Black).testBit f = true := huf
    have hOt : (O Color.Black).testBit t = false := hut
    have hYf : (O Color.White).testBit f = false := hthemf0
    have hYt : (O Color.White).testBit t = false := hthemt0
    have hQf : ∀ r, r ≠ Piece.King → (P r).testBit f = false := hQf0
    have hQt : ∀ r, (P r).testBit t = false := hQt0
    have hRrs : (P Piece.Rook).testBit (sqMk Color.Black.backrank (if sqFile t / 4 = 0 then (0, 3) else (7, 5)).1) = true := hrrs
    have hUrs : (O Color.Black).testBit (sqMk Color.Black.backrank (if sqFile t / 4 = 0 then (0, 3) else (7, 5)).1) = true := hurs
    have hYrs : (O Color.White).testBit (sqMk Color.Black.backrank (if sqFile t / 4 = 0 then (0, 3) else (7, 5)).1) = false := hYrs0
    have hQrs : ∀ r, r ≠ Piece.Rook → (P r).testBit (sqMk Color.Black.backrank (if sqFile t / 4 = 0 then (0, 3) else (7, 5)).1) = false := hQrs0
    have hQre : ∀ r, (P r).testBit (sqMk Color.Black.backrank (if sqFile t / 4 = 0 then (0, 3) else (7, 5)).2) = false := hQre0
    have hUre : (O Color.Black).testBit (sqMk Color.Black.backrank (if sqFile t / 4 = 0 then (0, 3) else (7, 5)).2) = false := hUre0
    have hYre : (O Color.White).testBit (sqMk Color.Black.backrank (if sqFile t / 4 = 0 then (0, 3) else (7, 5)).2) = false := hYre0
    have hD1 : (sqMk Color.Black.backrank (if sqFile t / 4 = 0 then (0, 3) else (7, 5)).1) ≠ (sqMk Color.Black.backrank (if sqFile t / 4 = 0 then (0, 3) else (7, 5)).2) := hrsre
    have hD2 : (sqMk Color.Black.backrank (if sqFile t / 4 = 0 then (0, 3) else (7, 5)).1) ≠ f := hrsf
    have hD3 : (sqMk Color.Black.backrank (if sqFile t / 4 = 0 then (0, 3) else (7, 5)).1) ≠ t := hrst
    have hD4 : (sqMk Color.Black.backrank (if sqFile t / 4 = 0 then (0, 3) else (7, 5)).2) ≠ f := href
    have hD5 : (sqMk Color.Black.backrank (if sqFile t / 4 = 0 then (0, 3) else (7, 5)).2) ≠ t := hret
    have hB1 : (sqMk Color.Black.backrank (if sqFile t / 4 = 0 then (0, 3) else (7, 5)).1) < 64 := hrs64
    have hB2 : (sqMk Color.Black.backrank (if sqFile t / 4 = 0 then (0, 3) else (7, 5)).2) < 64 := hre64
    simp only [applyMove, Board.genHash]
    simp only [ep_clear_hash]
    rw [generate_hash_key_split]
    simp [Color.opp]
    rw [hh]
    rw [show (P Piece.King ^^^ 1 <<< f ||| 1 <<< t) =
        (P Piece.King ^^^ 1 <<< f ^^^ 1 <<< t) from
      or_eq_xor _ _ (by
        simp [Nat.testBit_xor, Nat.one_shiftLeft, Nat.testBit_two_pow, hPt,
          hft])]
    rw [show (P Piece.Rook ^^^ 1 <<< (sqMk Color.Black.backrank (if sqFile t / 4 = 0 then (0, 3) else (7, 5)).1) ||| 1 <<< (sqMk Color.Black.backrank (if sqFile t / 4 = 0 then (0, 3) else (7, 5)).2)) =
        (P Piece.Rook ^^^ 1 <<< (sqMk Color.Black.backrank (if sqFile t / 4 = 0 then (0, 3) else (7, 5)).1) ^^^ 1 <<< (sqMk Color.Black.backrank (if sqFile t / 4 = 0 then (0, 3) else (7, 5)).2)) from
      or_eq_xor _ _ (by
        simp [Nat.testBit_xor, Nat.one_shiftLeft, Nat.testBit_two_pow,
          hQre Piece.Rook, hD1])]
    rw [show (O Color.Black ^^^ 1 <<< f ||| 1 <<< t) =
        (O Color.Black ^^^ 1 <<< f ^^^ 1 <<< t) from
      or_eq_xor _ _ (by
        simp [Nat.testBit_xor, Nat.one_shiftLeft, Nat.testBit_two_pow, hOt,
          hft])]
    rw [show (O Color.Black ^^^ 1 <<< f ^^^ 1 <<< t ^^^ 1 <<< (sqMk Color.Black.backrank (if sqFile t / 4 = 0 then (0, 3) else (7, 5)).1) ||| 1 <<< (sqMk Color.Black.backrank (if sqFile t / 4 = 0 then (0, 3) else (7, 5)).2)) =
        (O Color.Black ^^^ 1 <<< f ^^^ 1 <<< t ^^^ 1 <<< (sqMk Color.Black.backrank (if sqFile t / 4 = 0 then (0, 3) else (7, 5)).1) ^^^ 1 <<< (sqMk Color.Black.backrank (if sqFile t / 4 = 0 then (0, 3) else (7, 5)).2)) from
      or_eq_xor _ _ (by
        simp [Nat.testBit_xor, Nat.one_shiftLeft, Nat.testBit_two_pow, hUre,
          Ne.symm hD4, Ne.symm hD5, hD1])]
    rw [show Function.update
          (Function.update P Piece.King (P Piece.King ^^^ 1 <<< f ^^^ 1 <<< t))
          Piece.Rook (P Piece.Rook ^^^ 1 <<< (sqMk Color.Black.backrank (if sqFile t / 4 = 0 then (0, 3) else (7, 5)).1) ^^^ 1 <<< (sqMk Color.Black.backrank (if sqFile t / 4 = 0 then (0, 3) else (7, 5)).2)) =
        (Function.update (Function.update (Function.update (Function.update P Piece.King (P Piece.King ^^^ 1 <<< f)) Piece.King (((Function.update P Piece.King (P Piece.King ^^^ 1 <<< f)) Piece.King) ^^^ 1 <<< t)) Piece.Rook (((Function.update (Function.update P Piece.King (P Piece.King ^^^ 1 <<< f)) Piece.King (((Function.update P Piece.King (P Piece.King ^^^ 1 <<< f)) Piece.King) ^^^ 1 <<< t)) Piece.Rook) ^^^ 1 <<< (sqMk Color.Black.backrank (if sqFile t / 4 = 0 then (0, 3) else (7, 5)).1))) Piece.Rook (((Function.update (Function.update (Function.update P Piece.King (P Piece.King ^^^ 1 <<< f)) Piece.King (((Function.update P Piece.King (P Piece.King ^^^ 1 <<< f)) Piece.King) ^^^ 1 <<< t)) Piece.Rook (((Function.update (Function.update P Piece.King (P Piece.King ^^^ 1 <<< f)) Piece.King (((Function.update P Piece.King (P Piece.King ^^^ 1 <<< f)) Piece.King) ^^^ 1 <<< t)) Piece.Rook) ^^^ 1 <<< (sqMk Color.Black.backrank (if sqFile t / 4 = 0 then (0, 3) else (7, 5)).1))) Piece.Rook) ^^^ 1 <<< (sqMk Color.Black.backrank (if sqFile t / 4 = 0 then (0, 3) else (7, 5)).2))) from by
      funext x
      cases x <;> simp [Function.update_apply]]
    rw [show Function.update O Color.Black
          (O Color.Black ^^^ 1 <<< f ^^^ 1 <<< t ^^^ 1 <<< (sqMk Color.Black.backrank (if sqFile t / 4 = 0 then (0, 3) else (7, 5)).1) ^^^ 1 <<< (sqMk Color.Black.backrank (if sqFile t / 4 = 0 then (0, 3) else (7, 5)).2)) =
        (Function.update (Function.update (Function.update (Function.update O Color.Black (O Color.Black ^^^ 1 <<< f)) Color.Black (((Function.update O Color.Black (O Color.Black ^^^ 1 <<< f)) Color.Black) ^^^ 1 <<< t)) Color.Black (((Function.update (Function.update O Color.Black (O Color.Black ^^^ 1 <<< f)) Color.Black (((Function.update O Color.Black (O Color.Black ^^^ 1 <<< f)) Color.Black) ^^^ 1 <<< t)) Color.Black) ^^^ 1 <<< (sqMk Color.Black.backrank (if sqFile t / 4 = 0 then (0, 3) else (7, 5)).1))) Color.Black (((Function.update (Function.update (Function.update O Color.Black (O Color.Black ^^^ 1 <<< f)) Color.Black (((Function.update O Color.Black (O Color.Black ^^^ 1 <<< f)) Color.Black) ^^^ 1 <<< t)) Color.Black (((Function.update (Function.update O Color.Black (O Color.Black ^^^ 1 <<< f)) Color.Black (((Function.update O Color.Black (O Color.Black ^^^ 1 <<< f)) Color.Black) ^^^ 1 <<< t)) Color.Black) ^^^ 1 <<< (sqMk Color.Black.backrank (if sqFile t / 4 = 0 then (0, 3) else (7, 5)).1))) Color.Black) ^^^ 1 <<< (sqMk Color.Black.backrank (if sqFile t / 4 = 0 then (0, 3) else (7, 5)).2))) from by
      funext x
      cases x <;> simp [Function.update_apply]]
    rw [hashPieces_toggle _ _ Piece.Rook Color.Black (sqMk Color.Black.backrank (if sqFile t / 4 = 0 then (0, 3) else (7, 5)).2) hB2
      (by simp [Function.update_apply, Nat.testBit_xor, Nat.one_shiftLeft,
        Nat.testBit_two_pow, hQre Piece.Rook, hUre, hD1, Ne.symm hD4,
        Ne.symm hD5])
      (by
        intro r hr
        by_cases hrk : r = Piece.King
        · rw [hrk]
          simp [Function.update_apply, Nat.testBit_xor, Nat.one_shiftLeft,
            Nat.testBit_two_pow, hQre Piece.King, Ne.symm hD4, Ne.symm hD5]
        · simp [Function.update_apply, hr, hrk]
          exact hQre r)
      (by simp [Color.opp, Function.update_apply, hYre])]
    rw [hashPieces_toggle _ _ Piece.Rook Color.Black (sqMk Color.Black.backrank (if sqFile t / 4 = 0 then (0, 3) else (7, 5)).1) hB1
      (by simp [Function.update_apply, Nat.testBit_xor, Nat.one_shiftLeft,
        Nat.testBit_two_pow, hRrs, hUrs, Ne.symm hD2, Ne.symm hD3])
      (by
        intro r hr
        by_cases hrk : r = Piece.King
        · rw [hrk]
          simp [Function.update_apply, Nat.testBit_xor, Nat.one_shiftLeft,
            Nat.testBit_two_pow, hQrs Piece.King (by decide), Ne.symm hD2,
            Ne.symm hD3]
        · simp [Function.update_apply, hr, hrk]
          exact hQrs r hr)
      (by simp [Color.opp, Function.update_apply, hYrs])]
    rw [hashPieces_toggle _ _ Piece.King Color.Black t ht64
      (by simp [Function.update_apply, Nat.testBit_xor, Nat.one_shiftLeft,
        Nat.testBit_two_pow, hPt, hOt, hft])
      (by
        intro r hr
        simp [Function.update_apply, hr]
        exact hQt r)
      (by simp [Color.opp, Function.update_apply, hYt])]
    rw [hashPieces_toggle _ _ Piece.King Color.Black f hf64 (hPf.trans hOf.symm)
      hQf hYf]
    simp only [sideKeyOf, epKeyOf]
    simp [Nat.xor_assoc, Nat.xor_comm, xor_left_comm, Nat.xor_cancel_left,
      Nat.xor_cancel_right, Nat.xor_self, Nat.xor_zero, Nat.zero_xor]

/-- The incrementally updated hash after `apply_move` equals the hash
recomputed from scratch, for any legal move on a well-formed board whose
own hash is correct. -/
theorem applyMove_hash (b : Board) (m : Move) (hw : wfB b = true)
    (hm : moveOk b m = true) (hh : b.state.hash = Board.genHash b) :
    (applyMove b m).state.hash = Board.genHash (applyMove b m) := by
  obtain ⟨f, t, p, promo, flag⟩ := m
  cases flag with
  | Normal =>
    cases promo with
    | none => exact applyMove_hash_trial b f t p hw hm hh
    | some pr =>
      cases p with
      | Pawn => exact applyMove_hash_promo b f t pr hw hm hh
      | Knight =>
        revert hm
        simp [moveOk]
      | Bishop =>
        revert hm
        simp [moveOk]
      | Rook =>
        revert hm
        simp [moveOk]
      | Queen =>
        revert hm
        simp [moveOk]
      | King =>
        revert hm
        simp [moveOk]
  | Capture =>
    cases promo with
    | none => exact applyMove_hash_cap b f t p hw hm hh
    | some pr =>
      cases p with
      | Pawn => exact applyMove_hash_cappromo b f t pr hw hm hh
      | Knight =>
        revert hm
        simp [moveOk]
      | Bishop =>
        revert hm
        simp [moveOk]
      | Rook =>
        revert hm
        simp [moveOk]
      | Queen =>
        revert hm
        simp [moveOk]
      | King =>
        revert hm
        simp [moveOk]
  | DoublePawnPush =>
    cases promo with
    | some pr =>
      revert hm
      simp [moveOk]
    | none =>
      cases p with
      | Pawn => exact applyMove_hash_dpp b f t hw hm hh
      | Knight =>
        revert hm
        simp [moveOk]
      | Bishop =>
        revert hm
        simp [moveOk]
      | Rook =>
        revert hm
        simp [moveOk]
      | Queen =>
        revert hm
        simp [moveOk]
      | King =>
        revert hm
        simp [moveOk]
  | EnPassant =>
    cases promo with
    | some pr =>
      revert hm
      simp [moveOk]
    | none =>
      cases p with
      | Pawn => exact applyMove_hash_ep b f t hw hm hh
      | Knight =>
        revert hm
        simp [moveOk]
      | Bishop =>
        revert hm
        simp [moveOk]
      | Rook =>
        revert hm
        simp [moveOk]
      | Queen =>
        revert hm
        simp [moveOk]
      | King =>
        revert hm
        simp [moveOk]
  | Castling =>
    cases promo with
    | some pr =>
      revert hm
      simp [moveOk]
    | none =>
      cases p with
      | King => exact applyMove_hash_castle b f t hw hm hh
      | Knight =>
        revert hm
        simp [moveOk]
      | Bishop =>
        revert hm
        simp [moveOk]
      | Rook =>
        revert hm
        simp [moveOk]
      | Queen =>
        revert hm
        simp [moveOk]
      | Pawn =>
        revert hm
        simp [moveOk]

/-- C4: after every `apply_move` and every `undo_move`, the incrementally
maintained `state.hash` equals the Zobrist hash recomputed from scratch by
`generate_hash_key` (piece placement, side to move, castling rights, and the
en-passant file hashed exactly when `en_passant_target` is present), for any
legal move on a well-formed board whose stored hash is itself correct. -/
theorem c4_hash_incremental (b : Board) (m : Move) (hw : wfB b = true)
    (hm : moveOk b m = true) (hh : b.state.hash = Board.genHash b) :
    (applyMove b m).state.hash = Board.genHash (applyMove b m) ∧
      (undoMove (applyMove b m)).state.hash =
        Board.genHash (undoMove (applyMove b m)) := by
  refine ⟨applyMove_hash b m hw hm hh, ?_⟩
  rw [undo_applyMove b m hw hm]
  exact hh

/-- C4 witness: the hash invariant on the start position with the knight
development move g1–f3 (g1 = 6, f3 = 21). -/
theorem c4_hash_incremental_witness :
    wfB (boardOf
        "rnbqkbnr/pppppppp/8/8/8/8/PPPPPPPP/RNBQKBNR w KQkq - 0 1") = true ∧
      moveOk (boardOf
        "rnbqkbnr/pppppppp/8/8/8/8/PPPPPPPP/RNBQKBNR w KQkq - 0 1")
        ⟨6, 21, .Knight, none, .Normal⟩ = true ∧
      (boardOf
          "rnbqkbnr/pppppppp/8/8/8/8/PPPPPPPP/RNBQKBNR w KQkq - 0 1").state.hash =
        Board.genHash (boardOf
          "rnbqkbnr/pppppppp/8/8/8/8/PPPPPPPP/RNBQKBNR w KQkq - 0 1") ∧
      ((applyMove (boardOf
            "rnbqkbnr/pppppppp/8/8/8/8/PPPPPPPP/RNBQKBNR w KQkq - 0 1")
          ⟨6, 21, .Knight, none, .Normal⟩).state.hash =
        Board.genHash (applyMove (boardOf
            "rnbqkbnr/pppppppp/8/8/8/8/PPPPPPPP/RNBQKBNR w KQkq - 0 1")
          ⟨6, 21, .Knight, none, .Normal⟩) ∧
        (undoMove (applyMove (boardOf
              "rnbqkbnr/pppppppp/8/8/8/8/PPPPPPPP/RNBQKBNR w KQkq - 0 1")
            ⟨6, 21, .Knight, none, .Normal⟩)).state.hash =
          Board.genHash (undoMove (applyMove (boardOf
              "rnbqkbnr/pppppppp/8/8/8/8/PPPPPPPP/RNBQKBNR w KQkq - 0 1")
            ⟨6, 21, .Knight, none, .Normal⟩))) :=
  ⟨by decide, by decide, by decide,
    c4_hash_incremental _ _ (by decide) (by decide) (by decide)⟩
